import Mathlib

/-!
# Frogger (`main.c`): a shallow embedding of the per-tick game engine

The C program keeps every quantity in a machine integer.  The embedding keeps
the fields as natural numbers and writes every C conversion explicitly:

* operands of type `uint8_t` / `uint16_t` are promoted to `int` before any
  arithmetic, so intermediate results are computed in `Int` without wrap;
* a value stored into a `uint8_t` / `uint16_t` / `uint32_t` object is reduced
  modulo `2^8` / `2^16` / `2^32` (`toU8`, `toU16`, `toU32`);
* `/` on `int` truncates toward zero (`cdiv`).

The headers `ece210_api.h`, `lab_buttons.h` and `Images.h` are not part of
`main.c`; the constants they define are collected in `Platform` and every
function that uses one of them takes the platform as its first argument.
Drawing, LED and delay calls have no effect on the game state and are left out.
-/

namespace Frogger

/-! ## Machine arithmetic -/

/-- Conversion of an `int` value to `uint8_t`. -/
def toU8 (i : Int) : Nat := (i % 256).toNat

/-- Conversion of an `int` value to `uint16_t`. -/
def toU16 (i : Int) : Nat := (i % 65536).toNat

/-- Conversion of an `int` value to `uint32_t`. -/
def toU32 (i : Int) : Nat := (i % 4294967296).toNat

/-- Division of two `int` values in C: the quotient is truncated toward zero. -/
def cdiv (a b : Int) : Int := Int.tdiv a b

/-! ## Structures (main.c 18-35) -/

/-- The `struct Image`: `bitmap` is the address held in the pointer field. -/
structure Image where
  width : Nat
  height : Nat
  foregroundColor : Nat
  backgroundColor : Nat
  bitmap : Nat
  deriving DecidableEq, Repr

/-- The `struct Entity`. -/
structure Entity where
  isPlayer : Bool
  xpos : Nat
  ypos : Nat
  move : Nat
  direction : Nat
  image : Image
  deriving DecidableEq, Repr

/-- Every field of the image holds a value of its C type. -/
def Image.InRange (im : Image) : Prop :=
  im.width < 256 ∧ im.height < 256 ∧ im.foregroundColor < 65536 ∧ im.backgroundColor < 65536

/-- Every field of the entity holds a value of its C type. -/
def Entity.InRange (e : Entity) : Prop :=
  e.xpos < 256 ∧ e.ypos < 65536 ∧ e.move < 256 ∧ e.direction < 256 ∧ e.image.InRange

instance (im : Image) : Decidable im.InRange := by
  unfold Image.InRange; infer_instance

instance (e : Entity) : Decidable e.InRange := by
  unfold Entity.InRange; infer_instance

/-- Constants that `main.c` takes from `ece210_api.h` and `Images.h`. -/
structure Platform where
  PS2_RIGHT : Nat
  PS2_UP : Nat
  PS2_LEFT : Nat
  PS2_DOWN : Nat
  PS2_CENTER : Nat
  LCD_COLOR_GREEN2 : Nat
  LCD_COLOR_BROWN : Nat
  LCD_COLOR_BLACK : Nat
  LOG_IMAGE : Image
  FROG_IMAGE_UP : Image
  FROG_IMAGE_RIGHT : Image
  FROG_IMAGE_LEFT : Image
  FROG_IMAGE_DOWN : Image
  FROG2_IMAGE : Image
  ENTITY_IMAGES : List Image
  deriving DecidableEq, Repr

/-- The four direction codes are the labels of one `switch` over a `uint8_t`:
they are pairwise different and each is a `uint8_t` value. -/
def Platform.DirCodes (P : Platform) : Prop :=
  (P.PS2_RIGHT ≠ P.PS2_UP ∧ P.PS2_RIGHT ≠ P.PS2_LEFT ∧ P.PS2_RIGHT ≠ P.PS2_DOWN ∧
   P.PS2_UP ≠ P.PS2_LEFT ∧ P.PS2_UP ≠ P.PS2_DOWN ∧ P.PS2_LEFT ≠ P.PS2_DOWN) ∧
  (P.PS2_RIGHT < 256 ∧ P.PS2_UP < 256 ∧ P.PS2_LEFT < 256 ∧ P.PS2_DOWN < 256)

instance (P : Platform) : Decidable P.DirCodes := by
  unfold Platform.DirCodes; infer_instance

/-! ## Global constants (main.c 190-233) -/

def LCD_WIDTH : Nat := 240
def LCD_HEIGHT : Nat := 320
def GRID_SIZE : Nat := 30
def GRID_WIDTH : Nat := 7
def GRID_HEIGHT : Nat := 10
def TOP_BORDER : Nat := (LCD_HEIGHT - GRID_HEIGHT * GRID_SIZE) / 2
def LEFT_BORDER : Nat := (LCD_WIDTH - GRID_WIDTH * GRID_SIZE) / 2
def RIGHT_BORDER : Nat := LEFT_BORDER + GRID_WIDTH * GRID_SIZE
def BOTTOM_BORDER : Nat := TOP_BORDER + GRID_HEIGHT * GRID_SIZE
def WATER_ROWS : Nat := 3
def CAR_ROWS : Nat := GRID_HEIGHT - WATER_ROWS - 2
def ENTITY_ROWS : Nat := WATER_ROWS + CAR_ROWS
def LOGS_PER_ROW : Nat := 1
def CARS_PER_ROW : Nat := 1
def MAX_ENTITIES_PER_ROW : Nat := 3
def LOG_MIN_MOVE : Nat := 1
def LOG_MAX_MOVE : Nat := 2
def CAR_MIN_MOVE : Nat := 1
def CAR_MAX_MOVE : Nat := 2
def WIN : Nat := 0x00FF00FF

/-! ## The hazard table `entities[ENTITY_ROWS][MAX_ENTITIES_PER_ROW]` -/

/-- Contents of the two-dimensional entity array, by row and column index. -/
abbrev Table := Nat → Nat → Entity

/-- Read of `entities[i][j]`; an index outside the array has no defined value. -/
def Table.read (t : Table) (i j : Nat) : Option Entity :=
  if i < ENTITY_ROWS ∧ j < MAX_ENTITIES_PER_ROW then some (t i j) else none

/-- Store into `entities[i][j]`. -/
def Table.write (t : Table) (i j : Nat) (e : Entity) : Table :=
  fun a b => if a = i ∧ b = j then e else t a b

/-! ## Collision and log-riding resolver (main.c 388-418) -/

/-- The function `inRange` (main.c 770-772). -/
def inRange (num start stop : Nat) : Bool :=
  decide (num ≥ start) && decide (num ≤ stop)

/-- Value of `row` (main.c 389): `(frog.ypos - TOP_BORDER) / GRID_SIZE` stored in a `uint8_t`. -/
def frogRow (frog : Entity) : Nat :=
  toU8 (cdiv ((frog.ypos : Int) - TOP_BORDER) GRID_SIZE)

/-- Value of `f_left` (main.c 390), a copy of the `uint8_t` field. -/
def f_left (frog : Entity) : Nat := frog.xpos

/-- Value of `f_right` (main.c 391): the sum is stored in a `uint8_t`. -/
def f_right (frog : Entity) : Nat := toU8 ((frog.xpos : Int) + frog.image.width)

/-- Value of `e_left` for a hazard (main.c 399, 409), a copy of the `uint8_t` field. -/
def e_left (e : Entity) : Nat := e.xpos

/-- Value of `e_right` for a hazard (main.c 400, 410): the sum is stored in a `uint8_t`. -/
def e_right (e : Entity) : Nat := toU8 ((e.xpos : Int) + e.image.width)

/-- The car loop of a road row (main.c 398-404), started with the current `alive`. -/
def roadCheck (t : Table) (row : Nat) (frog : Entity) (alive : Bool) : Option Bool :=
  (List.range CARS_PER_ROW).foldlM (fun alive i => do
    let e ← t.read (row - 1) i
    pure (if inRange (e_left e) (f_left frog) (f_right frog)
            || inRange (e_right e) (f_left frog) (f_right frog) then false else alive)) alive

/-- The test of main.c 411 for a frog and a log: both edges of the frog lie in the
inclusive span `[e_left, e_right]` of the log. -/
def withinLog (frog log : Entity) : Prop :=
  f_left frog ≥ e_left log ∧ f_left frog ≤ e_right log ∧
  f_right frog ≥ e_left log ∧ f_right frog ≤ e_right log

instance (frog log : Entity) : Decidable (withinLog frog log) := by
  unfold withinLog; infer_instance

/-- The signed velocity of a hazard as added at main.c 413: `-move` when it faces left,
`+move` otherwise. -/
def velocity (P : Platform) (e : Entity) : Int :=
  (e.move : Int) * (if e.direction = P.PS2_LEFT then -1 else 1)

/-- The log loop of a water row (main.c 407-415): the state is the frog and `onLog`;
the span tested is the one of the frog as it was before the loop. -/
def waterCheck (P : Platform) (t : Table) (row : Nat) (frog : Entity) : Option (Entity × Bool) :=
  (List.range LOGS_PER_ROW).foldlM (fun (st : Entity × Bool) i => do
    let e ← t.read (row - 1) i
    if withinLog frog e then
      pure ({ st.1 with xpos := toU8 ((st.1.xpos : Int) + velocity P e) }, true)
    else pure st) (frog, false)

/-- The resolver (main.c 388-418): returns the frog and the `alive` flag. -/
def resolve (P : Platform) (t : Table) (frog : Entity) (alive : Bool) : Option (Entity × Bool) :=
  let row := frogRow frog
  if row ≠ GRID_HEIGHT - 1 ∧ row ≠ 0 then
    if row > WATER_ROWS then
      (roadCheck t row frog alive).map (fun a => (frog, a))
    else
      (waterCheck P t row frog).map (fun st => (st.1, if st.2 then alive else false))
  else some (frog, alive)

/-! ## Geometry helpers (main.c 770-785, 809-853) -/

/-- The function `xOffset` (main.c 779-781): the `int` quotient is returned as `uint8_t`. -/
def xOffset (image : Image) : Nat := toU8 (cdiv ((GRID_SIZE : Int) - image.width) 2)

/-- The function `yOffset` (main.c 783-785). -/
def yOffset (image : Image) : Nat := toU8 (cdiv ((GRID_SIZE : Int) - image.height) 2)

/-- The function `randRange` (main.c 774-777) for the value `r` returned by `rand()`;
`rand() % range` has no value when the 8-bit `range` is zero. -/
def randRange (start stop : Nat) (r : Nat) : Option Nat :=
  let range := toU8 ((stop : Int) - start)
  if range = 0 then none else some (toU8 (((r % range : Nat) : Int) + start))

/-- The function `correctOffset` (main.c 809-830). -/
def correctOffset (entity : Entity) : Entity :=
  let xpos1 := toU8 (cdiv ((entity.xpos : Int) - LEFT_BORDER) GRID_SIZE * GRID_SIZE + LEFT_BORDER)
  let ypos1 := toU16 (cdiv ((entity.ypos : Int) - TOP_BORDER) GRID_SIZE * GRID_SIZE + TOP_BORDER)
  let gridx := toU8 (cdiv ((xpos1 : Int) - LEFT_BORDER) GRID_SIZE)
  let leftx := toU8 ((gridx : Int) * GRID_SIZE + LEFT_BORDER)
  let rightx := toU8 (((gridx : Int) + 1) * GRID_SIZE + LEFT_BORDER)
  let xpos2 := if (xpos1 : Int) - leftx > (rightx : Int) - xpos1 then rightx else leftx
  { entity with
      xpos := toU8 ((xpos2 : Int) + xOffset entity.image)
      ypos := toU16 ((ypos1 : Int) + yOffset entity.image) }

/-- The function `compareImage` (main.c 832-838). -/
def compareImage (image1 image2 : Image) : Bool :=
  decide (image1.backgroundColor = image2.backgroundColor) &&
  decide (image1.bitmap = image2.bitmap) &&
  decide (image1.foregroundColor = image2.foregroundColor) &&
  decide (image1.height = image2.height) &&
  decide (image1.width = image2.width)

/-- The function `correctBackgroundImage` (main.c 840-853); the color constant is
stored into the `uint16_t` field. -/
def correctBackgroundImage (P : Platform) (entity : Entity) : Entity :=
  let row := toU8 (cdiv ((entity.ypos : Int) - TOP_BORDER) GRID_SIZE)
  let color :=
    if row = 0 ∨ row = GRID_HEIGHT - 1 then P.LCD_COLOR_GREEN2
    else if row ≥ 1 ∧ row ≤ WATER_ROWS then P.LCD_COLOR_BROWN
    else P.LCD_COLOR_BLACK
  { entity with image := { entity.image with backgroundColor := color % 65536 } }

/-! ## Entity motion engine (main.c 535-672) -/

/-- The function `isValidMove` (main.c 648-672); the comparisons are made on `int` values. -/
def isValidMove (P : Platform) (entity : Entity) (direction : Nat) : Bool :=
  if !entity.isPlayer then true
  else if direction = P.PS2_RIGHT then
    if (entity.xpos : Int) + entity.image.width + entity.move > RIGHT_BORDER then false else true
  else if direction = P.PS2_UP then
    if (entity.ypos : Int) - entity.move < TOP_BORDER then false else true
  else if direction = P.PS2_LEFT then
    if (entity.xpos : Int) - entity.move < LEFT_BORDER then false else true
  else if direction = P.PS2_DOWN then
    if (entity.ypos : Int) + entity.image.height + entity.move > BOTTOM_BORDER then false else true
  else true

/-- The sprite `switch` of `updateEntity` (main.c 544-553). -/
def swapSprite (P : Platform) (entity : Entity) : Entity :=
  if entity.direction = P.PS2_RIGHT then { entity with image := P.FROG_IMAGE_RIGHT }
  else if entity.direction = P.PS2_UP then { entity with image := P.FROG_IMAGE_UP }
  else if entity.direction = P.PS2_LEFT then { entity with image := P.FROG_IMAGE_LEFT }
  else if entity.direction = P.PS2_DOWN then { entity with image := P.FROG_IMAGE_DOWN }
  else entity

/-- The player-only block of `updateEntity` (main.c 543-561): sprite swap, then
`correctOffset` unless the entity is above the line `TOP_BORDER + GRID_SIZE * WATER_ROWS`
and moves up or down. -/
def playerSprite (P : Platform) (entity : Entity) : Entity :=
  let e := swapSprite P entity
  if (e.ypos : Int) ≥ TOP_BORDER + GRID_SIZE * WATER_ROWS
      ∨ e.direction = P.PS2_RIGHT ∨ e.direction = P.PS2_LEFT then correctOffset e
  else e

/-- The movement `switch` of `updateEntity` (main.c 564-573). -/
def stepEntity (P : Platform) (entity : Entity) : Entity :=
  if entity.direction = P.PS2_RIGHT then
    { entity with xpos := toU8 ((entity.xpos : Int) + entity.move) }
  else if entity.direction = P.PS2_UP then
    { entity with ypos := toU16 ((entity.ypos : Int) - entity.move) }
  else if entity.direction = P.PS2_LEFT then
    { entity with xpos := toU8 ((entity.xpos : Int) - entity.move) }
  else if entity.direction = P.PS2_DOWN then
    { entity with ypos := toU16 ((entity.ypos : Int) + entity.move) }
  else entity

/-- The right-edge correction of `updateEntity` (main.c 576-586); `rnd k` is the value of
the `k`-th call of `rand()`, and the result carries the number of calls made so far. -/
def correctRight (P : Platform) (rnd : Nat → Nat) (k : Nat) (entity : Entity) :
    Option (Entity × Nat) :=
  if entity.direction = P.PS2_RIGHT ∧ (entity.xpos : Int) + entity.image.width ≥ RIGHT_BORDER then
    if compareImage entity.image P.LOG_IMAGE then
      (randRange LOG_MIN_MOVE (LOG_MAX_MOVE + 1) (rnd k)).map (fun m =>
        ({ entity with xpos := toU8 ((entity.xpos : Int) - 1), direction := P.PS2_LEFT % 256,
                       move := m }, k + 1))
    else some ({ entity with xpos := toU8 ((LEFT_BORDER : Int) + 1) }, k)
  else some (entity, k)

/-- The left-edge correction of `updateEntity` (main.c 589-599). -/
def correctLeft (P : Platform) (rnd : Nat → Nat) (k : Nat) (entity : Entity) :
    Option (Entity × Nat) :=
  if entity.direction = P.PS2_LEFT ∧ (entity.xpos : Int) ≤ LEFT_BORDER then
    if compareImage entity.image P.LOG_IMAGE then
      (randRange LOG_MIN_MOVE (LOG_MAX_MOVE + 1) (rnd k)).map (fun m =>
        ({ entity with xpos := toU8 ((entity.xpos : Int) + 1), direction := P.PS2_RIGHT % 256,
                       move := m }, k + 1))
    else some ({ entity with
                  xpos := toU8 ((RIGHT_BORDER : Int) - entity.image.width - 1) }, k)
  else some (entity, k)

/-- The function `updateEntity` (main.c 535-618). -/
def updateEntity (P : Platform) (rnd : Nat → Nat) (k : Nat) (entity : Entity) :
    Option (Entity × Nat) :=
  if isValidMove P entity entity.direction then do
    let e1 := if entity.isPlayer then playerSprite P entity else entity
    let e2 := stepEntity P e1
    let (e3, k3) ← correctRight P rnd k e2
    let (e4, k4) ← correctLeft P rnd k3 e3
    pure (if e4.isPlayer then correctBackgroundImage P e4 else e4, k4)
  else some (entity, k)

/-! ## Player input (main.c 620-646) -/

/-- What one tick reads from the board: the joystick position, the `AlertButtons` flag,
the four push buttons, and the word waiting on the wireless link, if any. -/
structure TickInput where
  ps2 : Nat
  alertButtons : Bool
  btnRight : Bool
  btnUp : Bool
  btnLeft : Bool
  btnDown : Bool
  inbound : Option Nat

/-- The direction resolved by `updatePlayer` (main.c 623-632): the joystick position,
overridden in turn by each pressed button when `AlertButtons` is set. -/
def readDirection (P : Platform) (inp : TickInput) : Nat :=
  let d0 := inp.ps2 % 256
  if inp.alertButtons then
    let d1 := if inp.btnRight then P.PS2_RIGHT % 256 else d0
    let d2 := if inp.btnUp then P.PS2_UP % 256 else d1
    let d3 := if inp.btnLeft then P.PS2_LEFT % 256 else d2
    if inp.btnDown then P.PS2_DOWN % 256 else d3
  else d0

/-- The function `updatePlayer` (main.c 620-646): returns the player, `canMove` and the
number of `rand()` calls made so far. -/
def updatePlayer (P : Platform) (rnd : Nat → Nat) (k : Nat) (player : Entity) (canMove : Bool)
    (inp : TickInput) : Option (Entity × Bool × Nat) :=
  let direction := readDirection P inp
  if direction = P.PS2_CENTER then some (player, true, k)
  else if canMove then
    (updateEntity P rnd k { player with direction := direction }).map
      (fun r => (r.1, false, r.2))
  else some (player, canMove, k)

/-! ## Wireless synchronisation (main.c 420-447) -/

/-- The position word `(x << 16) + y` stored in the `uint32_t` variable `data` (main.c 426). -/
def encodePos (x y : Nat) : Nat := (x <<< 16 + y) % 4294967296

/-- The two assignments that unpack a received word (main.c 438-439): the high half is
stored in the `uint8_t` field `xpos`, the low half in the `uint16_t` field `ypos`. -/
def decodePos (entity : Entity) (player2data : Nat) : Entity :=
  { entity with
      xpos := ((player2data &&& 0xFFFF0000) >>> 16) % 256
      ypos := (player2data &&& 0x0000FFFF) % 65536 }

/-- The send step (main.c 420-429): the words handed to `ece210_wireless_send`, given the
position at the start of the tick, the value of `row` and the frog after the resolver. -/
def sendStep (oldx oldy : Nat) (row : Nat) (frog : Entity) : List Nat :=
  if frog.xpos ≠ oldx ∨ frog.ypos ≠ oldy then
    if row > WATER_ROWS then [encodePos frog.xpos frog.ypos] else []
  else []

/-- The receive step (main.c 434-444): `inbound` is the word returned by
`ece210_wireless_get` when `ece210_wireless_data_avaiable` holds; the result is the
remote frog and `remoteWin`. -/
def receiveStep (P : Platform) (frog2 : Entity) (remoteWin : Bool) (inbound : Option Nat) :
    Entity × Bool :=
  match inbound with
  | none => (frog2, remoteWin)
  | some player2data =>
    if player2data ≠ WIN then (correctBackgroundImage P (decodePos frog2 player2data), remoteWin)
    else (frog2, true)

/-! ## The playing loop (main.c 371-459) -/

/-- The variables of `main` that live across ticks of the playing loop, with the number
of `rand()` calls made so far. -/
structure Game where
  entities : Table
  frog : Entity
  frog2 : Entity
  alive : Bool
  localWin : Bool
  remoteWin : Bool
  canMove : Bool
  randCalls : Nat

/-- Number of entities the loops visit in table row `i` (main.c 379). -/
def rowCount (i : Nat) : Nat := if i < WATER_ROWS then LOGS_PER_ROW else CARS_PER_ROW

/-- The hazard update loop (main.c 378-383). -/
def updateHazards (P : Platform) (rnd : Nat → Nat) (t : Table) (k : Nat) : Option (Table × Nat) :=
  (List.range ENTITY_ROWS).foldlM (fun (st : Table × Nat) i =>
    (List.range (rowCount i)).foldlM (fun (st : Table × Nat) j => do
      let e ← st.1.read i j
      let r ← updateEntity P rnd st.2 e
      pure (st.1.write i j r.1, r.2)) st) (t, k)

/-- The win check that ends a tick (main.c 454-457): `localWin` and the words sent. -/
def winStep (frog : Entity) (localWin : Bool) : Bool × List Nat :=
  if (frog.ypos : Int) < TOP_BORDER + GRID_SIZE then (true, [WIN]) else (localWin, [])

/-- One pass through the body of the playing loop (main.c 373-457): the new state and the
words sent, in order. -/
def tick (P : Platform) (rnd : Nat → Nat) (g : Game) (inp : TickInput) :
    Option (Game × List Nat) := do
  let oldx := g.frog.xpos
  let oldy := g.frog.ypos
  let (entities, k1) ← updateHazards P rnd g.entities g.randCalls
  let (frog1, canMove, k2) ← updatePlayer P rnd k1 g.frog g.canMove inp
  let row := frogRow frog1
  let (frog, alive) ← resolve P entities frog1 g.alive
  let sent1 := sendStep oldx oldy row frog
  let (frog2a, remoteWin) := receiveStep P g.frog2 g.remoteWin inp.inbound
  let frog2 := correctOffset frog2a
  let (localWin, sent2) := winStep frog g.localWin
  pure ({ entities := entities, frog := frog, frog2 := frog2, alive := alive,
          localWin := localWin, remoteWin := remoteWin, canMove := canMove,
          randCalls := k2 }, sent1 ++ sent2)

/-- The guard of the playing loop (main.c 371). -/
def playing (g : Game) : Bool := g.alive && !g.localWin && !g.remoteWin

/-! ## A concrete board -/

/-- One choice of the header constants, used to evaluate the definitions. -/
def board : Platform :=
  { PS2_RIGHT := 1, PS2_UP := 2, PS2_LEFT := 3, PS2_DOWN := 4, PS2_CENTER := 5,
    LCD_COLOR_GREEN2 := 0x07E0, LCD_COLOR_BROWN := 0xA145, LCD_COLOR_BLACK := 0,
    LOG_IMAGE := ⟨60, 20, 0xA145, 0x001F, 100⟩,
    FROG_IMAGE_UP := ⟨26, 20, 0x07E0, 0, 201⟩,
    FROG_IMAGE_RIGHT := ⟨20, 26, 0x07E0, 0, 202⟩,
    FROG_IMAGE_LEFT := ⟨20, 26, 0x07E0, 0, 203⟩,
    FROG_IMAGE_DOWN := ⟨26, 20, 0x07E0, 0, 204⟩,
    FROG2_IMAGE := ⟨26, 20, 0xF800, 0, 201⟩,
    ENTITY_IMAGES := [⟨24, 16, 0xF800, 0, 301⟩, ⟨28, 14, 0xFFE0, 0, 302⟩, ⟨50, 20, 0xFFFF, 0, 303⟩] }

/-- A table whose every cell holds one car with span `[110,130]`. -/
def carTable : Table :=
  fun _ _ => ⟨false, 110, 0, 1, 1, ⟨20, 16, 0xF800, 0, 301⟩⟩

/-- A frog on road row 5 with span `[100,120]`. -/
def roadFrog : Entity := ⟨true, 100, 165, 30, 2, ⟨20, 20, 0x07E0, 0, 201⟩⟩

/-- A table whose every cell holds one log with span `[90,150]` moving left at speed 2. -/
def logTable : Table :=
  fun _ _ => ⟨false, 90, 0, 2, 3, ⟨60, 20, 0xA145, 0x001F, 100⟩⟩

/-- A frog on water row 2 with span `[100,120]`. -/
def waterFrog : Entity := ⟨true, 100, 75, 30, 2, ⟨20, 20, 0x07E0, 0, 201⟩⟩

/-- A board whose log image is 209 pixels wide, one pixel less than the playfield. -/
def wideLogBoard : Platform := { board with LOG_IMAGE := ⟨209, 20, 0xA145, 0x001F, 100⟩ }

/-- A log of `wideLogBoard` at the left border, facing right at speed 1. -/
def wideLog : Entity := ⟨false, 15, 45, 1, 1, ⟨209, 20, 0xA145, 0x001F, 100⟩⟩

/-- A log of `board` one step before the right border, facing right at speed 2. -/
def edgeLog : Entity := ⟨false, 164, 45, 2, 1, ⟨60, 20, 0xA145, 0x001F, 100⟩⟩

/-- The entity lies inside the playfield: its left and top edges are not before the
left and top borders, and its right and bottom edges are not past the right and bottom
borders. -/
def Inside (e : Entity) : Prop :=
  LEFT_BORDER ≤ e.xpos ∧ e.xpos + e.image.width ≤ RIGHT_BORDER ∧
  TOP_BORDER ≤ e.ypos ∧ e.ypos + e.image.height ≤ BOTTOM_BORDER

instance (e : Entity) : Decidable (Inside e) := by
  unfold Inside; infer_instance

/-- Each of the four frog sprites fits in one grid cell. -/
def SpritesFit (P : Platform) : Prop :=
  (P.FROG_IMAGE_RIGHT.width ≤ GRID_SIZE ∧ P.FROG_IMAGE_RIGHT.height ≤ GRID_SIZE) ∧
  (P.FROG_IMAGE_UP.width ≤ GRID_SIZE ∧ P.FROG_IMAGE_UP.height ≤ GRID_SIZE) ∧
  (P.FROG_IMAGE_LEFT.width ≤ GRID_SIZE ∧ P.FROG_IMAGE_LEFT.height ≤ GRID_SIZE) ∧
  (P.FROG_IMAGE_DOWN.width ≤ GRID_SIZE ∧ P.FROG_IMAGE_DOWN.height ≤ GRID_SIZE)

instance (P : Platform) : Decidable (SpritesFit P) := by
  unfold SpritesFit; infer_instance

/-- The sprite that `updateEntity` gives a player facing `direction` (main.c 544-553);
`current` is kept for a value that is none of the four codes. -/
def spriteFor (P : Platform) (direction : Nat) (current : Image) : Image :=
  if direction = P.PS2_RIGHT then P.FROG_IMAGE_RIGHT
  else if direction = P.PS2_UP then P.FROG_IMAGE_UP
  else if direction = P.PS2_LEFT then P.FROG_IMAGE_LEFT
  else if direction = P.PS2_DOWN then P.FROG_IMAGE_DOWN
  else current

/-- A player of `board` riding in water row 2 with the left-facing sprite (20 wide),
its right edge at 224, told to move up. -/
def logRider : Entity := ⟨true, 204, 72, 30, 2, ⟨20, 26, 0x07E0, 0xA145, 203⟩⟩

/-- A player record of `board` with an empty image placed on the right border, told to
move up from row 5. -/
def emptyFrog : Entity := ⟨true, 225, 165, 30, 2, ⟨0, 0, 0x07E0, 0, 201⟩⟩

/-- The remote frog of `board` as placed at the start of a round in column 2. -/
def remoteFrog : Entity := ⟨false, 77, 285, 0, 0, ⟨26, 20, 0xF800, 0, 201⟩⟩

/-- A hazard table of `board`: logs in table rows 0-2, cars in rows 3-7, each row moving
right at speed 1 from `xpos = 20`. -/
def startTable : Table :=
  fun i _ =>
    if i < 3 then ⟨false, 20, (i + 1) * 30 + 10 + 5, 1, 1, ⟨60, 20, 0xA145, 0x001F, 100⟩⟩
    else ⟨false, 20, (i + 1) * 30 + 10 + 7, 1, 1, ⟨24, 16, 0xF800, 0, 301⟩⟩

/-- A round of `board` just after the countdown: the local frog in column 3 of the
bottom grass row, the remote frog in column 2. -/
def startGame : Game :=
  { entities := startTable,
    frog := ⟨true, 107, 285, 30, 2, ⟨26, 20, 0x07E0, 0, 201⟩⟩,
    frog2 := remoteFrog,
    alive := true, localWin := false, remoteWin := false, canMove := true, randCalls := 0 }

/-- The joystick pushed left, no button event, no inbound word. -/
def pushLeft : TickInput :=
  { ps2 := 3, alertButtons := false, btnRight := false, btnUp := false, btnLeft := false,
    btnDown := false, inbound := none }

/-- A player of `board` carried by a log in row 3 to `xpos = 40`: its cell is `[15, 45)`
and the right edge of the cell is the nearer one. -/
def driftedFrog : Entity := ⟨true, 40, 105, 30, 4, ⟨26, 20, 0x07E0, 0xA145, 201⟩⟩

/-- The remote frog of `board` after a word whose high half is 255. -/
def farFrog : Entity := ⟨false, 255, 285, 0, 0, ⟨26, 20, 0xF800, 0, 201⟩⟩

/-- An entity of `board` whose image is wider and taller than a grid cell. -/
def bigEntity : Entity := ⟨false, 45, 45, 1, 1, ⟨60, 40, 0xA145, 0x001F, 100⟩⟩

/-- A frog-sized entity at the top of the 16-bit range of `ypos`. -/
def highFrog : Entity := ⟨false, 77, 65530, 0, 0, ⟨26, 10, 0xF800, 0, 201⟩⟩

/-- Whether a call of `updatePlayer` reaches the call of `updateEntity` at main.c 644:
the resolved direction is not PS2_CENTER and `canMove` is set. -/
def movesPlayer (P : Platform) (canMove : Bool) (inp : TickInput) : Bool :=
  decide (readDirection P inp ≠ P.PS2_CENTER) && canMove

/-- A sequence of `updatePlayer` calls, one per input: the final player, `canMove` and
`rand()` count, and for each call whether it invoked `updateEntity`. -/
def updatePlayerSeq (P : Platform) (rnd : Nat → Nat) :
    Nat → Entity → Bool → List TickInput → Option (Entity × Bool × Nat × List Bool)
  | k, player, canMove, [] => some (player, canMove, k, [])
  | k, player, canMove, inp :: rest => do
    let r ← updatePlayer P rnd k player canMove inp
    let s ← updatePlayerSeq P rnd r.2.2 r.1 r.2.1 rest
    pure (s.1, s.2.1, s.2.2.1, movesPlayer P canMove inp :: s.2.2.2)

/-- The joystick held up, no button event, no inbound word. -/
def pushUp : TickInput :=
  { ps2 := 2, alertButtons := false, btnRight := false, btnUp := false, btnLeft := false,
    btnDown := false, inbound := none }

/-! ## The ready handshake (main.c 302-333) -/

/-- The constant `UP_BUTTON` (main.c 232). -/
def UP_BUTTON : Nat := 0x01

/-- The variables of the ready loop: the two flags and the `uint32_t` counter `ticks`. -/
structure ReadyState where
  localReady : Bool
  remoteReady : Bool
  ticks : Nat
  deriving DecidableEq, Repr

/-- What one pass of the ready loop reads: `btn_up_pressed()` and the word waiting on the
link, if any. -/
structure ReadyInput where
  btnUp : Bool
  inbound : Option Nat
  deriving DecidableEq, Repr

/-- One pass through the body of the ready loop (main.c 310-332): the new state and
the words sent. -/
def readyPoll (s : ReadyState) (inp : ReadyInput) : ReadyState × List Nat :=
  let local1 : Bool × List Nat :=
    if inp.btnUp && !s.localReady then (true, [UP_BUTTON]) else (s.localReady, [])
  let remote1 : Bool :=
    match inp.inbound with
    | some w => if !s.remoteReady then (if w = UP_BUTTON then true else s.remoteReady)
                else s.remoteReady
    | none => s.remoteReady
  ({ localReady := local1.1, remoteReady := remote1, ticks := (s.ticks + 1) % 4294967296 },
   local1.2)

/-- The guard of the ready loop (main.c 309). -/
def awaiting (s : ReadyState) : Bool := !s.localReady || !s.remoteReady

/-- The ready loop run on a finite sequence of inputs: for every pass that is executed,
the state after it and the words it sent. -/
def readyLoop : ReadyState → List ReadyInput → List (ReadyState × List Nat)
  | _, [] => []
  | s, inp :: rest =>
    if awaiting s then readyPoll s inp :: readyLoop (readyPoll s inp).1 rest else []

/-- The state in which the ready loop is entered (main.c 303-304). -/
def readyStart (ticks : Nat) : ReadyState :=
  { localReady := false, remoteReady := false, ticks := ticks }

/-- The flags never go from true back to false between two states of the ready loop. -/
def ReadyMono (a b : ReadyState) : Prop :=
  (a.localReady = true → b.localReady = true) ∧ (a.remoteReady = true → b.remoteReady = true)

/-- The state the ready loop has reached after the executed passes. -/
def readyFinal (s : ReadyState) (trace : List (ReadyState × List Nat)) : ReadyState :=
  (trace.getLast?.map Prod.fst).getD s

/-- Grid-aligned position (spec glossary): `xpos` is the left edge of one of the
GRID_WIDTH columns plus `xOffset` of the entity's image, and `ypos` is the top edge of
one of the GRID_HEIGHT rows plus `yOffset` of the image. -/
def GridAligned (e : Entity) : Prop :=
  (∃ c, c < GRID_WIDTH ∧ e.xpos = LEFT_BORDER + c * GRID_SIZE + xOffset e.image) ∧
  (∃ r, r < GRID_HEIGHT ∧ e.ypos = TOP_BORDER + r * GRID_SIZE + yOffset e.image)

instance (e : Entity) : Decidable (GridAligned e) := by
  unfold GridAligned; infer_instance

/-- Each of the four frog sprites is at least 2 pixels narrower than a grid cell and at
most as high as a cell. -/
def SpritesNarrow (P : Platform) : Prop :=
  (P.FROG_IMAGE_RIGHT.width + 2 ≤ GRID_SIZE ∧ P.FROG_IMAGE_RIGHT.height ≤ GRID_SIZE) ∧
  (P.FROG_IMAGE_UP.width + 2 ≤ GRID_SIZE ∧ P.FROG_IMAGE_UP.height ≤ GRID_SIZE) ∧
  (P.FROG_IMAGE_LEFT.width + 2 ≤ GRID_SIZE ∧ P.FROG_IMAGE_LEFT.height ≤ GRID_SIZE) ∧
  (P.FROG_IMAGE_DOWN.width + 2 ≤ GRID_SIZE ∧ P.FROG_IMAGE_DOWN.height ≤ GRID_SIZE)

instance (P : Platform) : Decidable (SpritesNarrow P) := by
  unfold SpritesNarrow; infer_instance

/-- A board whose right-facing frog sprite fills the whole width of a grid cell. -/
def fullWidthBoard : Platform := { board with FROG_IMAGE_RIGHT := ⟨30, 26, 0x07E0, 0, 202⟩ }

/-- A player in column 5 of road row 5, told to move right. -/
def columnFiveFrog : Entity := ⟨true, 167, 165, 30, 1, ⟨26, 20, 0x07E0, 0, 201⟩⟩

/-- A player record whose speed is 7 instead of GRID_SIZE, told to move up from row 5. -/
def slowFrog : Entity := ⟨true, 100, 165, 7, 2, ⟨20, 20, 0x07E0, 0, 201⟩⟩

/-! ## Hazard population generator (main.c 699-768) -/

/-- The constant `NUM_ENTITY_IMAGES` (main.c 227). -/
def NUM_ENTITY_IMAGES : Nat := 3

/-- The value of the macro `GAME_WIDTH` where `fillEntities` uses it: the text
`RIGHT_BORDER - LEFT_BORDER` expands to `15 + 7 * 30 - 15`. -/
def GAME_WIDTH : Nat := LEFT_BORDER + GRID_WIDTH * GRID_SIZE - LEFT_BORDER

/-- The array `ENTITY_IMAGES` of main.c 236-240 has NUM_ENTITY_IMAGES elements. -/
def Platform.ImagesComplete (P : Platform) : Prop :=
  P.ENTITY_IMAGES.length = NUM_ENTITY_IMAGES

instance (P : Platform) : Decidable P.ImagesComplete := by
  unfold Platform.ImagesComplete; infer_instance

/-- The function `randImage` (main.c 766-768) for the value `r` returned by `rand()`. -/
def randImage (P : Platform) (r : Nat) : Option Image :=
  (randRange 1 100 r).bind (fun n => P.ENTITY_IMAGES[n % NUM_ENTITY_IMAGES]?)

/-- The function `initEntity` (main.c 756-764); the arguments are converted to the types
of its parameters. -/
def initEntity (isPlayer : Bool) (xpos : Nat) (ypos : Int) (move direction : Nat)
    (image : Image) : Entity :=
  { isPlayer := isPlayer, xpos := xpos % 256, ypos := toU16 ypos, move := move % 256,
    direction := direction % 256, image := image }

/-- The per-row choices of `fillEntities` (main.c 710-731) for table row `i`, with `k`
calls of `rand()` made before: `xmid`, the direction, the image, `spacing`, the speed and
the new number of calls. -/
def rowSetup (P : Platform) (rnd : Nat → Nat) (i k : Nat) :
    Option (Nat × Nat × Image × Nat × Nat × Nat) :=
  (randRange LEFT_BORDER RIGHT_BORDER (rnd k)).bind fun xmid =>
  (randRange 1 100 (rnd (k + 1))).bind fun d =>
  let direction := (if d % 2 = 1 then P.PS2_RIGHT else P.PS2_LEFT) % 256
  if i < WATER_ROWS then
    let image := P.LOG_IMAGE
    let spacing := toU8 (cdiv ((GAME_WIDTH : Int) - (LOGS_PER_ROW : Int) * image.width)
      LOGS_PER_ROW)
    (randRange LOG_MIN_MOVE (LOG_MAX_MOVE + 1) (rnd (k + 2))).map fun move =>
      (xmid, direction, image, spacing, move, k + 3)
  else
    (randImage P (rnd (k + 2))).bind fun image =>
    let spacing := toU8 (cdiv ((GAME_WIDTH : Int) - (CARS_PER_ROW : Int) * image.width)
      CARS_PER_ROW)
    (randRange CAR_MIN_MOVE (CAR_MAX_MOVE + 1) (rnd (k + 3))).map fun move =>
      (xmid, direction, image, spacing, move, k + 4)

/-- The three statements that place entity `j` of a row horizontally (main.c 737-741);
`mid` is `log_mid` or `car_mid`. -/
def placeX (xmid j mid spacing : Nat) (image : Image) : Nat :=
  let xpos0 := toU8 ((xmid : Int) + ((j : Int) - mid) * ((spacing : Int) + image.width))
  let xpos1 := if xpos0 < LEFT_BORDER then toU8 ((RIGHT_BORDER : Int) + xpos0) else xpos0
  if (xpos1 : Int) > (RIGHT_BORDER : Int) - image.width then
    toU8 ((LEFT_BORDER : Int) + xpos1 - ((RIGHT_BORDER : Int) - image.width))
  else xpos1

/-- One pass of the outer loop of `fillEntities` (main.c 707-752) for table row `i`. -/
def fillRow (P : Platform) (rnd : Nat → Nat) (i : Nat) (st : Table × Nat) :
    Option (Table × Nat) :=
  (rowSetup P rnd i st.2).map fun s =>
    ((List.range (rowCount i)).foldl (fun (t : Table) j =>
        t.write i j
          (initEntity false
            (placeX s.1 j (if i < WATER_ROWS then LOGS_PER_ROW / 2 else CARS_PER_ROW / 2)
              s.2.2.2.1 s.2.2.1)
            (((i : Int) + 1) * GRID_SIZE + TOP_BORDER + yOffset s.2.2.1)
            s.2.2.2.2.1 s.2.1 s.2.2.1)) st.1,
     s.2.2.2.2.2)

/-- The function `fillEntities` (main.c 699-754) called with `ENTITY_ROWS` and
`MAX_ENTITIES_PER_ROW`; every store is inside the array. -/
def fillEntities (P : Platform) (rnd : Nat → Nat) (t : Table) (k : Nat) :
    Option (Table × Nat) :=
  (List.range ENTITY_ROWS).foldlM (fun st i => fillRow P rnd i st) (t, k)

/-- A number of `updateEntity` calls on one entity; call number `n` is made when `rand()`
has been called `ks[n]` times. -/
def updateEntitySeq (P : Platform) (rnd : Nat → Nat) : List Nat → Entity → Option Entity
  | [], e => some e
  | k :: ks, e => (updateEntity P rnd k e).bind (fun r => updateEntitySeq P rnd ks r.1)

/-- The speed of a hazard of table row `i` lies in the range of its class: logs in the
first WATER_ROWS rows, cars below. -/
def SpeedInClass (i : Nat) (e : Entity) : Prop :=
  (i < WATER_ROWS → LOG_MIN_MOVE ≤ e.move ∧ e.move ≤ LOG_MAX_MOVE) ∧
  (WATER_ROWS ≤ i → CAR_MIN_MOVE ≤ e.move ∧ e.move ≤ CAR_MAX_MOVE)

instance (i : Nat) (e : Entity) : Decidable (SpeedInClass i e) := by
  unfold SpeedInClass; infer_instance

/-- The all-zero entity array of main.c 285. -/
def zeroTable : Table := fun _ _ => ⟨false, 0, 0, 0, 0, ⟨0, 0, 0, 0, 0⟩⟩

/-- A run of the ready loop: nothing happens, the local button is pressed, the button is
still held while the peer's UP_BUTTON arrives, and one further poll that is not reached. -/
def readyInputs : List ReadyInput :=
  [⟨false, none⟩, ⟨true, none⟩, ⟨true, some 1⟩, ⟨false, none⟩]

/-! ## One round of the playing loop -/

/-- The playing loop (main.c 371-459) run on a finite sequence of inputs: for every tick
that is executed, the state after it and the words it sent. -/
def playLoop (P : Platform) (rnd : Nat → Nat) :
    Game → List TickInput → Option (List (Game × List Nat))
  | _, [] => some []
  | g, inp :: rest =>
    if playing g then
      (tick P rnd g inp).bind fun r => (playLoop P rnd r.1 rest).map fun tr => r :: tr
    else some []

/-- The state the playing loop has reached after the executed ticks. -/
def playFinal (g : Game) (trace : List (Game × List Nat)) : Game :=
  (trace.getLast?.map Prod.fst).getD g

/-- None of the four frog sprites has height zero. -/
def SpritesSolid (P : Platform) : Prop :=
  1 ≤ P.FROG_IMAGE_RIGHT.height ∧ 1 ≤ P.FROG_IMAGE_UP.height ∧
  1 ≤ P.FROG_IMAGE_LEFT.height ∧ 1 ≤ P.FROG_IMAGE_DOWN.height

instance (P : Platform) : Decidable (SpritesSolid P) := by
  unfold SpritesSolid; infer_instance

/-- What every tick keeps true of the local frog: it is a player whose `move` is
GRID_SIZE or a value drawn by a bounce, its image fits in a grid cell and is not empty in
height, it is above the bottom border, and on the rows below the water its `xpos` is not
the largest 8-bit value. -/
def FrogInv (e : Entity) : Prop :=
  e.isPlayer = true ∧
  (e.move = GRID_SIZE ∨ (LOG_MIN_MOVE ≤ e.move ∧ e.move ≤ LOG_MAX_MOVE)) ∧
  e.image.width ≤ GRID_SIZE ∧ 1 ≤ e.image.height ∧ e.image.height ≤ GRID_SIZE ∧
  e.xpos < 256 ∧ e.ypos < BOTTOM_BORDER ∧
  (TOP_BORDER + (WATER_ROWS + 1) * GRID_SIZE ≤ e.ypos → e.xpos < 255)

instance (e : Entity) : Decidable (FrogInv e) := by
  unfold FrogInv; infer_instance

/-- The two assignments that place the local frog when a round is reset (main.c 359-360),
for the value `r` returned by `rand()`. -/
def resetFrog (frog : Entity) (r : Nat) : Option Entity :=
  (randRange 0 GRID_WIDTH r).map fun n =>
    { frog with
        xpos := toU8 ((LEFT_BORDER : Int) + (n : Int) * GRID_SIZE + xOffset frog.image)
        ypos := toU16 ((TOP_BORDER : Int) + ((GRID_HEIGHT : Int) - 1) * GRID_SIZE
                        + yOffset frog.image) }

/-- A round of `board` in which the local frog rides a log in water row 1, one move
below the top grass row. -/
def lastStepGame : Game :=
  { entities := logTable,
    frog := ⟨true, 100, 45, 30, 2, ⟨20, 20, 0x07E0, 0xA145, 201⟩⟩,
    frog2 := remoteFrog,
    alive := true, localWin := false, remoteWin := false, canMove := true, randCalls := 0 }

/-! ## Hazards near the playfield -/

/-- What every `updateEntity` call keeps true of a hazard that started inside the
playfield: it is a non-player with a speed of 1 or 2 and an image narrower than the
playfield, its left edge is at most one pixel left of LEFT_BORDER and its right edge at
most one pixel right of RIGHT_BORDER, and it is fully inside on the side it faces. -/
def HazardNear (P : Platform) (e : Entity) : Prop :=
  e.isPlayer = false ∧ LOG_MIN_MOVE ≤ e.move ∧ e.move ≤ LOG_MAX_MOVE ∧
  e.image.width < GAME_WIDTH ∧
  LEFT_BORDER - 1 ≤ e.xpos ∧ e.xpos + e.image.width ≤ RIGHT_BORDER + 1 ∧
  (e.direction = P.PS2_RIGHT → e.xpos + e.image.width ≤ RIGHT_BORDER) ∧
  (e.direction = P.PS2_LEFT → LEFT_BORDER ≤ e.xpos)

instance (P : Platform) (e : Entity) : Decidable (HazardNear P e) := by
  unfold HazardNear; infer_instance

/-- A board whose log image is 106 pixels wide, one pixel more than half the playfield. -/
def halfLogBoard : Platform := { board with LOG_IMAGE := ⟨106, 20, 0xA145, 0x001F, 100⟩ }

/-- A player record of `board` with an empty image in column 6 of road row 5, told to
move right. -/
def emptyRightFrog : Entity := ⟨true, 195, 165, 30, 1, ⟨0, 0, 0x07E0, 0, 201⟩⟩

/-- A round of `board` at the end of a tick in which the frog, tested at `xpos = 100` in
water row 2, was carried two pixels to the left by the log of `logTable`; the joystick
latch is closed. -/
def rideGame : Game :=
  { entities := logTable,
    frog := ⟨true, 98, 75, 30, 2, ⟨20, 20, 0x07E0, 0, 201⟩⟩,
    frog2 := remoteFrog,
    alive := true, localWin := false, remoteWin := false, canMove := false, randCalls := 0 }

/-! ## Values of the constants -/

@[simp] theorem GRID_SIZE_val : GRID_SIZE = 30 := rfl
@[simp] theorem GRID_WIDTH_val : GRID_WIDTH = 7 := rfl
@[simp] theorem GRID_HEIGHT_val : GRID_HEIGHT = 10 := rfl
@[simp] theorem TOP_BORDER_val : TOP_BORDER = 10 := rfl
@[simp] theorem LEFT_BORDER_val : LEFT_BORDER = 15 := rfl
@[simp] theorem RIGHT_BORDER_val : RIGHT_BORDER = 225 := rfl
@[simp] theorem BOTTOM_BORDER_val : BOTTOM_BORDER = 310 := rfl
@[simp] theorem WATER_ROWS_val : WATER_ROWS = 3 := rfl
@[simp] theorem CAR_ROWS_val : CAR_ROWS = 5 := rfl
@[simp] theorem ENTITY_ROWS_val : ENTITY_ROWS = 8 := rfl
@[simp] theorem LOGS_PER_ROW_val : LOGS_PER_ROW = 1 := rfl
@[simp] theorem CARS_PER_ROW_val : CARS_PER_ROW = 1 := rfl
@[simp] theorem MAX_ENTITIES_PER_ROW_val : MAX_ENTITIES_PER_ROW = 3 := rfl
@[simp] theorem LOG_MIN_MOVE_val : LOG_MIN_MOVE = 1 := rfl
@[simp] theorem LOG_MAX_MOVE_val : LOG_MAX_MOVE = 2 := rfl
@[simp] theorem WIN_val : WIN = 16711935 := rfl

/-! ## Arithmetic lemmas -/

theorem cdiv_eq (a b : Int) (hb : 0 < b) :
    cdiv a b = if 0 ≤ a then a / b else -((-a) / b) := by
  unfold cdiv
  split
  · exact Int.tdiv_eq_ediv ‹_› (by omega)
  · rw [← Int.neg_neg a, Int.neg_tdiv, Int.tdiv_eq_ediv (by omega) (by omega)]
    simp

theorem frogRow_eq (frog : Entity) :
    frogRow frog = toU8 (if (10 : Int) ≤ frog.ypos then ((frog.ypos : Int) - 10) / 30
                          else -((10 - (frog.ypos : Int)) / 30)) := by
  unfold frogRow
  rw [cdiv_eq _ _ (by simp)]
  simp only [TOP_BORDER_val, GRID_SIZE_val, Nat.cast_ofNat]
  congr 1
  split <;> split <;> first | rfl | omega

theorem Table.read_eq (t : Table) (i j : Nat) (hi : i < 8) (hj : j < 3) :
    t.read i j = some (t i j) := by
  simp [Table.read, hi, hj]

/-! ## The resolver on a road row and on a water row -/

theorem roadCheck_eq (t : Table) (row : Nat) (frog : Entity) (alive : Bool)
    (hrow : row - 1 < 8) :
    roadCheck t row frog alive =
      some (if inRange (e_left (t (row - 1) 0)) (f_left frog) (f_right frog)
              || inRange (e_right (t (row - 1) 0)) (f_left frog) (f_right frog)
            then false else alive) := by
  simp [roadCheck, List.range_succ, Table.read_eq t (row - 1) 0 hrow (by decide)]

/-- C1: on a road row the resolver clears `alive` exactly when some car of table row
`r - 1` has its left edge or its 8-bit right edge inside the player's inclusive span
`[f_left, f_right]`; the right end `f_right` is `xpos + width` whenever that sum fits in
8 bits.  The span `[100,120]` against the car `[110,130]` is a collision, against the car
`[50,180]` it is not. -/
theorem C1_road_collision (P : Platform) (t : Table) (frog : Entity)
    (hroad : WATER_ROWS < frogRow frog ∧ frogRow frog < GRID_HEIGHT - 1) :
    (∃ alive', resolve P t frog true = some (frog, alive') ∧
      (alive' = false ↔ ∃ i, i < CARS_PER_ROW ∧
        ((frog.xpos ≤ (t (frogRow frog - 1) i).xpos ∧
            (t (frogRow frog - 1) i).xpos ≤ f_right frog) ∨
         (frog.xpos ≤ e_right (t (frogRow frog - 1) i) ∧
            e_right (t (frogRow frog - 1) i) ≤ f_right frog)))) ∧
    (frog.xpos + frog.image.width < 256 → f_right frog = frog.xpos + frog.image.width) ∧
    (frog.xpos = 100 → frog.image.width = 20 →
      (t (frogRow frog - 1) 0).xpos = 110 → (t (frogRow frog - 1) 0).image.width = 20 →
      resolve P t frog true = some (frog, false)) ∧
    (frog.xpos = 100 → frog.image.width = 20 →
      (t (frogRow frog - 1) 0).xpos = 50 → (t (frogRow frog - 1) 0).image.width = 130 →
      resolve P t frog true = some (frog, true)) := by
  obtain ⟨h1, h2⟩ := hroad
  simp only [WATER_ROWS_val, GRID_HEIGHT_val] at h1 h2
  have hres : ∀ alive, resolve P t frog alive =
      some (frog, if inRange (e_left (t (frogRow frog - 1) 0)) (f_left frog) (f_right frog)
              || inRange (e_right (t (frogRow frog - 1) 0)) (f_left frog) (f_right frog)
            then false else alive) := by
    intro alive
    have hne : frogRow frog ≠ GRID_HEIGHT - 1 ∧ frogRow frog ≠ 0 := by
      simp only [GRID_HEIGHT_val]; omega
    have hgt : frogRow frog > WATER_ROWS := by simp only [WATER_ROWS_val]; omega
    simp only [resolve]
    rw [if_pos hne, if_pos hgt, roadCheck_eq t (frogRow frog) frog alive (by omega)]
    rfl
  refine ⟨⟨_, hres true, ?_⟩, ?_, ?_, ?_⟩
  · simp only [CARS_PER_ROW_val, Nat.lt_one_iff, exists_eq_left, inRange, e_left, f_left]
    simp only [ge_iff_le, Bool.or_eq_true, Bool.and_eq_true, decide_eq_true_eq,
      ite_eq_left_iff, Bool.true_eq_false, imp_false, not_not]
  · intro h
    unfold f_right toU8
    omega
  · intro hx hw hcx hcw
    rw [hres]
    simp [inRange, e_left, f_left, f_right, e_right, toU8, hx, hw, hcx, hcw]
  · intro hx hw hcx hcw
    rw [hres]
    simp [inRange, e_left, f_left, f_right, e_right, toU8, hx, hw, hcx, hcw]

theorem C1_road_collision_witness :
    (WATER_ROWS < frogRow roadFrog ∧ frogRow roadFrog < GRID_HEIGHT - 1) ∧
    resolve board carTable roadFrog true = some (roadFrog, false) :=
  ⟨by decide, (C1_road_collision board carTable roadFrog (by decide)).2.2.1 rfl rfl rfl rfl⟩

theorem waterCheck_eq (P : Platform) (t : Table) (row : Nat) (frog : Entity)
    (hrow : row - 1 < 8) :
    waterCheck P t row frog =
      some (if withinLog frog (t (row - 1) 0) then
              ({ frog with xpos := toU8 ((frog.xpos : Int) + velocity P (t (row - 1) 0)) }, true)
            else (frog, false)) := by
  by_cases h : withinLog frog (t (row - 1) 0) <;>
    simp [waterCheck, List.range_succ, Table.read_eq t (row - 1) 0 hrow (by decide), h]

/-- C2: on a water row the resolver keeps the player alive exactly when some log of table
row `r - 1` contains both player edges in its inclusive span; in that case the stored
`xpos` becomes the old `xpos` plus the signed velocity of the log (`-move` facing left,
`+move` otherwise) and nothing else changes; otherwise `alive` is cleared and `xpos` is
unchanged.  The span `[100,120]` inside the log `[90,150]` survives and is shifted. -/
theorem C2_water_log_ride (P : Platform) (t : Table) (frog : Entity)
    (hwater : 1 ≤ frogRow frog ∧ frogRow frog ≤ WATER_ROWS) :
    (∃ frog' alive', resolve P t frog true = some (frog', alive') ∧
      (alive' = true ↔ ∃ i, i < LOGS_PER_ROW ∧
        (t (frogRow frog - 1) i).xpos ≤ frog.xpos ∧
        frog.xpos ≤ e_right (t (frogRow frog - 1) i) ∧
        (t (frogRow frog - 1) i).xpos ≤ f_right frog ∧
        f_right frog ≤ e_right (t (frogRow frog - 1) i)) ∧
      (∀ i, i < LOGS_PER_ROW → withinLog frog (t (frogRow frog - 1) i) →
        alive' = true ∧
        frog' = { frog with
          xpos := toU8 ((frog.xpos : Int) +
            (if (t (frogRow frog - 1) i).direction = P.PS2_LEFT
              then -((t (frogRow frog - 1) i).move : Int)
              else ((t (frogRow frog - 1) i).move : Int))) } ∧
        (0 ≤ (frog.xpos : Int) + velocity P (t (frogRow frog - 1) i) →
          (frog.xpos : Int) + velocity P (t (frogRow frog - 1) i) < 256 →
          (frog'.xpos : Int) = frog.xpos + velocity P (t (frogRow frog - 1) i))) ∧
      ((¬ ∃ i, i < LOGS_PER_ROW ∧ withinLog frog (t (frogRow frog - 1) i)) →
        alive' = false ∧ frog' = frog)) ∧
    (frog.xpos = 100 → frog.image.width = 20 →
      (t (frogRow frog - 1) 0).xpos = 90 → (t (frogRow frog - 1) 0).image.width = 60 →
      resolve P t frog true =
        some ({ frog with xpos := toU8 (100 + velocity P (t (frogRow frog - 1) 0)) }, true)) := by
  obtain ⟨h1, h2⟩ := hwater
  simp only [WATER_ROWS_val] at h2
  have hres : resolve P t frog true =
      some (if withinLog frog (t (frogRow frog - 1) 0) then
              ({ frog with
                  xpos := toU8 ((frog.xpos : Int) + velocity P (t (frogRow frog - 1) 0)) }, true)
            else (frog, false)) := by
    have hne : frogRow frog ≠ GRID_HEIGHT - 1 ∧ frogRow frog ≠ 0 := by
      simp only [GRID_HEIGHT_val]; omega
    have hgt : ¬ frogRow frog > WATER_ROWS := by simp only [WATER_ROWS_val]; omega
    simp only [resolve]
    rw [if_pos hne, if_neg hgt, waterCheck_eq P t (frogRow frog) frog (by omega)]
    split <;> rfl
  have hvel : ∀ e : Entity, velocity P e =
      (if e.direction = P.PS2_LEFT then -(e.move : Int) else (e.move : Int)) := by
    intro e; unfold velocity; split <;> simp
  refine ⟨?_, ?_⟩
  · by_cases hin : withinLog frog (t (frogRow frog - 1) 0)
    · rw [if_pos hin] at hres
      refine ⟨_, true, hres, ?_, ?_, ?_⟩
      · simp only [LOGS_PER_ROW_val, Nat.lt_one_iff, exists_eq_left, true_iff]
        exact hin
      · intro i hi _
        simp only [LOGS_PER_ROW_val, Nat.lt_one_iff] at hi
        subst hi
        refine ⟨rfl, ?_, ?_⟩
        · rw [hvel]
        · intro h0 h256
          show ((toU8 _ : Nat) : Int) = _
          unfold toU8; omega
      · intro hno
        exact absurd ⟨0, by simp, hin⟩ hno
    · rw [if_neg hin] at hres
      refine ⟨_, false, hres, ?_, ?_, ?_⟩
      · simp only [LOGS_PER_ROW_val, Nat.lt_one_iff, exists_eq_left, Bool.false_eq_true,
          false_iff]
        exact hin
      · intro i hi hc
        simp only [LOGS_PER_ROW_val, Nat.lt_one_iff] at hi
        subst hi
        exact absurd hc hin
      · intro _; exact ⟨rfl, rfl⟩
  · intro hx hw hcx hcw
    rw [hres, if_pos, hx]
    · rfl
    · simp [withinLog, f_left, e_left, f_right, e_right, toU8, hx, hw, hcx, hcw]

theorem C2_water_log_ride_witness :
    (1 ≤ frogRow waterFrog ∧ frogRow waterFrog ≤ WATER_ROWS) ∧
    resolve board logTable waterFrog true = some ({ waterFrog with xpos := 98 }, true) :=
  ⟨by decide, (C2_water_log_ride board logTable waterFrog (by decide)).2 rfl rfl rfl rfl⟩

/-! ## Move validation and the motion engine -/

/-- C3: for each of the four directions `isValidMove` returns false exactly when the
entity is a player and the edge projected one step ahead crosses the boundary of that
direction, the comparison being made on exact integers; for a non-player entity it
returns true for every direction value and position. -/
theorem C3_isValidMove_iff (P : Platform) (hP : P.DirCodes) (entity : Entity) :
    (isValidMove P entity P.PS2_RIGHT = false ↔
      entity.isPlayer = true ∧
        (entity.xpos : Int) + entity.image.width + entity.move > RIGHT_BORDER) ∧
    (isValidMove P entity P.PS2_UP = false ↔
      entity.isPlayer = true ∧ (entity.ypos : Int) - entity.move < TOP_BORDER) ∧
    (isValidMove P entity P.PS2_LEFT = false ↔
      entity.isPlayer = true ∧ (entity.xpos : Int) - entity.move < LEFT_BORDER) ∧
    (isValidMove P entity P.PS2_DOWN = false ↔
      entity.isPlayer = true ∧
        (entity.ypos : Int) + entity.image.height + entity.move > BOTTOM_BORDER) ∧
    (entity.isPlayer = false → ∀ direction, isValidMove P entity direction = true) := by
  obtain ⟨⟨h1, h2, h3, h4, h5, h6⟩, _⟩ := hP
  refine ⟨?_, ?_, ?_, ?_, ?_⟩
  · cases hp : entity.isPlayer <;> simp [isValidMove, hp]
  · cases hp : entity.isPlayer <;> simp [isValidMove, hp, h1.symm]
  · cases hp : entity.isPlayer <;> simp [isValidMove, hp, h2.symm, h4.symm]
  · cases hp : entity.isPlayer <;> simp [isValidMove, hp, h3.symm, h5.symm, h6.symm]
  · intro hp direction
    simp [isValidMove, hp]

theorem C3_isValidMove_iff_witness :
    board.DirCodes ∧
    isValidMove board { roadFrog with xpos := 200 } board.PS2_RIGHT = false ∧
    isValidMove board roadFrog board.PS2_RIGHT = true ∧
    isValidMove board (carTable 4 0) board.PS2_RIGHT = true :=
  ⟨by decide,
   (C3_isValidMove_iff board (by decide) { roadFrog with xpos := 200 }).1.mpr
     ⟨rfl, by decide⟩,
   by decide,
   (C3_isValidMove_iff board (by decide) (carTable 4 0)).2.2.2.2 rfl board.PS2_RIGHT⟩

theorem xOffset_eq (image : Image) (hw : image.width ≤ 30) :
    xOffset image = (30 - image.width) / 2 := by
  unfold xOffset
  rw [cdiv_eq _ _ (by decide)]
  simp only [GRID_SIZE_val, Nat.cast_ofNat, toU8]
  split <;> omega

theorem yOffset_eq (image : Image) (hh : image.height ≤ 30) :
    yOffset image = (30 - image.height) / 2 := by
  unfold yOffset
  rw [cdiv_eq _ _ (by decide)]
  simp only [GRID_SIZE_val, Nat.cast_ofNat, toU8]
  split <;> omega

theorem correctOffset_image (e : Entity) : (correctOffset e).image = e.image := rfl

theorem correctOffset_isPlayer (e : Entity) : (correctOffset e).isPlayer = e.isPlayer := rfl

theorem correctOffset_direction (e : Entity) : (correctOffset e).direction = e.direction := rfl

theorem correctOffset_move (e : Entity) : (correctOffset e).move = e.move := rfl

theorem correctOffset_xpos (e : Entity) (h1 : 15 ≤ e.xpos) (h2 : e.xpos < 255)
    (hw : e.image.width ≤ 30) :
    (correctOffset e).xpos = (e.xpos - 15) / 30 * 30 + 15 + (30 - e.image.width) / 2 := by
  have hc : (e.xpos - 15) / 30 ≤ 7 := by omega
  have s1 : cdiv ((e.xpos : Int) - 15) 30 = (((e.xpos - 15) / 30 : Nat) : Int) := by
    rw [cdiv_eq _ _ (by decide), if_pos (by omega)]; omega
  simp only [correctOffset, xOffset_eq _ hw, GRID_SIZE_val, LEFT_BORDER_val, Nat.cast_ofNat, s1]
  generalize (e.xpos - 15) / 30 = c at hc ⊢
  have s2 : toU8 ((c : Int) * 30 + 15) = c * 30 + 15 := by unfold toU8; omega
  have s3 : cdiv (((c * 30 + 15 : Nat) : Int) - 15) 30 = (c : Int) := by
    rw [cdiv_eq _ _ (by decide), if_pos (by omega)]; omega
  have s4 : toU8 (c : Int) = c := by unfold toU8; omega
  have s5 : toU8 (((c : Int) + 1) * 30 + 15) = (c + 1) * 30 + 15 := by unfold toU8; omega
  simp only [s2, s3, s4, s5]
  rw [if_neg (by omega)]
  unfold toU8; omega

theorem correctOffset_ypos (e : Entity) (h1 : 10 ≤ e.ypos) (h2 : e.ypos < 65500)
    (hh : e.image.height ≤ 30) :
    (correctOffset e).ypos = (e.ypos - 10) / 30 * 30 + 10 + (30 - e.image.height) / 2 := by
  have s1 : cdiv ((e.ypos : Int) - 10) 30 = (((e.ypos - 10) / 30 : Nat) : Int) := by
    rw [cdiv_eq _ _ (by decide), if_pos (by omega)]; omega
  simp only [correctOffset, yOffset_eq _ hh, GRID_SIZE_val, TOP_BORDER_val, Nat.cast_ofNat, s1]
  have hc : (e.ypos - 10) / 30 ≤ 2183 := by omega
  generalize (e.ypos - 10) / 30 = c at hc ⊢
  have s2 : toU16 ((c : Int) * 30 + 10) = c * 30 + 10 := by unfold toU16; omega
  rw [s2]
  unfold toU16; omega

theorem randRange_log (r : Nat) :
    randRange LOG_MIN_MOVE (LOG_MAX_MOVE + 1) r = some (r % 2 + 1) := by
  have h : toU8 (((LOG_MAX_MOVE + 1 : Nat) : Int) - (LOG_MIN_MOVE : Nat)) = 2 := by decide
  simp only [randRange, h]
  simp only [LOG_MIN_MOVE_val, toU8]
  rw [if_neg (by decide)]
  congr 1
  omega

theorem stepEntity_isPlayer (P : Platform) (e : Entity) :
    (stepEntity P e).isPlayer = e.isPlayer := by
  unfold stepEntity; split_ifs <;> rfl

theorem correctRight_isPlayer (P : Platform) (rnd : Nat → Nat) (k : Nat) (e : Entity)
    (r : Entity × Nat) (h : correctRight P rnd k e = some r) : r.1.isPlayer = e.isPlayer := by
  unfold correctRight at h
  rw [randRange_log] at h
  split_ifs at h <;> simp only [Option.map_some', Option.some.injEq] at h <;> subst h <;> rfl

theorem correctLeft_isPlayer (P : Platform) (rnd : Nat → Nat) (k : Nat) (e : Entity)
    (r : Entity × Nat) (h : correctLeft P rnd k e = some r) : r.1.isPlayer = e.isPlayer := by
  unfold correctLeft at h
  rw [randRange_log] at h
  split_ifs at h <;> simp only [Option.map_some', Option.some.injEq] at h <;> subst h <;> rfl

theorem updateEntity_hazard (P : Platform) (rnd : Nat → Nat) (k : Nat) (e : Entity)
    (hnp : e.isPlayer = false) :
    updateEntity P rnd k e =
      (correctRight P rnd k (stepEntity P e)).bind (fun r => correctLeft P rnd r.2 r.1) := by
  have hvalid : isValidMove P e e.direction = true := by simp [isValidMove, hnp]
  unfold updateEntity
  rw [if_pos hvalid, if_neg (by simp [hnp])]
  dsimp only
  cases hr : correctRight P rnd k (stepEntity P e) with
  | none => rfl
  | some r =>
    have h1 := correctRight_isPlayer P rnd k _ r hr
    cases hl : correctLeft P rnd r.2 r.1 with
    | none => simp only [Option.bind_eq_bind, Option.some_bind, hl, Option.none_bind]
    | some r2 =>
      have h2 := correctLeft_isPlayer P rnd r.2 _ r2 hl
      have h3 : r2.1.isPlayer = false := by
        rw [h2, h1, stepEntity_isPlayer, hnp]
      simp only [Option.bind_eq_bind, Option.some_bind, hl, h3, Bool.false_eq_true, if_false]
      rfl

/-- C5: when `isValidMove` is false for the direction the entity faces (which only
happens to a player), `updateEntity` returns the entity with every field unchanged and
makes no call of `rand()`. -/
theorem C5_invalid_move_rejected (P : Platform) (rnd : Nat → Nat) (k : Nat) (entity : Entity)
    (hinvalid : isValidMove P entity entity.direction = false) :
    updateEntity P rnd k entity = some (entity, k) := by
  simp [updateEntity, hinvalid]

theorem C5_invalid_move_rejected_witness :
    isValidMove board { roadFrog with xpos := 200, direction := 1 } 1 = false ∧
    updateEntity board (fun _ => 0) 0 { roadFrog with xpos := 200, direction := 1 } =
      some ({ roadFrog with xpos := 200, direction := 1 }, 0) :=
  ⟨by decide,
   C5_invalid_move_rejected board (fun _ => 0) 0 { roadFrog with xpos := 200, direction := 1 }
     (by decide)⟩

/-- C6 (amended): a non-player entity facing right whose right edge after the step,
taken from the stored 8-bit position, reaches or exceeds RIGHT_BORDER ends the same
`updateEntity` call as follows.  A log whose stepped position minus 1 is still right of
LEFT_BORDER faces left at the stepped position minus 1, with a new speed in
`[LOG_MIN_MOVE, LOG_MAX_MOVE]`; any other image is placed at `LEFT_BORDER + 1` and keeps
facing right.  The side condition holds for every log at least 2 pixels narrower than the
playfield. -/
theorem C6_right_edge_correction (P : Platform) (hP : P.DirCodes) (rnd : Nat → Nat) (k : Nat)
    (entity : Entity) (hnp : entity.isPlayer = false) (hdir : entity.direction = P.PS2_RIGHT)
    (hedge : toU8 ((entity.xpos : Int) + entity.move) + entity.image.width ≥ RIGHT_BORDER) :
    (compareImage entity.image P.LOG_IMAGE = true →
      LEFT_BORDER + 1 < toU8 ((entity.xpos : Int) + entity.move) →
      updateEntity P rnd k entity =
        some ({ entity with
                  xpos := toU8 ((entity.xpos : Int) + entity.move) - 1
                  direction := P.PS2_LEFT
                  move := rnd k % 2 + 1 }, k + 1) ∧
      LOG_MIN_MOVE ≤ rnd k % 2 + 1 ∧ rnd k % 2 + 1 ≤ LOG_MAX_MOVE) ∧
    (compareImage entity.image P.LOG_IMAGE = false →
      updateEntity P rnd k entity =
        some ({ entity with xpos := LEFT_BORDER + 1 }, k)) ∧
    (entity.image.width + 2 ≤ RIGHT_BORDER - LEFT_BORDER →
      LEFT_BORDER + 1 < toU8 ((entity.xpos : Int) + entity.move)) := by
  obtain ⟨⟨h1, h2, h3, h4, h5, h6⟩, hr, hu, hl, hd⟩ := hP
  simp only [RIGHT_BORDER_val, LEFT_BORDER_val, LOG_MIN_MOVE_val, LOG_MAX_MOVE_val] at *
  have hs : toU8 ((entity.xpos : Int) + entity.move) < 256 := by unfold toU8; omega
  generalize hsdef : toU8 ((entity.xpos : Int) + entity.move) = s at *
  have hstep : stepEntity P entity = { entity with xpos := s } := by
    simp [stepEntity, hdir, hsdef]
  refine ⟨?_, ?_, ?_⟩
  · intro hlog hgap
    refine ⟨?_, by omega, by omega⟩
    have hl256 : P.PS2_LEFT % 256 = P.PS2_LEFT := Nat.mod_eq_of_lt hl
    have hx : toU8 ((s : Int) - 1) = s - 1 := by unfold toU8; omega
    have hcr : correctRight P rnd k { entity with xpos := s } =
        some ({ entity with xpos := s - 1, direction := P.PS2_LEFT, move := rnd k % 2 + 1 },
              k + 1) := by
      have hc : ((s : Int) + entity.image.width ≥ ((RIGHT_BORDER : Nat) : Int)) := by
        simp only [RIGHT_BORDER_val]; omega
      unfold correctRight
      rw [if_pos ⟨hdir, hc⟩, if_pos hlog, randRange_log]
      simp only [Option.map_some', hl256, hx]
    have hcl : correctLeft P rnd (k + 1)
        { entity with xpos := s - 1, direction := P.PS2_LEFT, move := rnd k % 2 + 1 } =
        some ({ entity with xpos := s - 1, direction := P.PS2_LEFT, move := rnd k % 2 + 1 },
              k + 1) := by
      have hc : ¬ (((s - 1 : Nat) : Int) ≤ ((LEFT_BORDER : Nat) : Int)) := by
        simp only [LEFT_BORDER_val]; omega
      unfold correctLeft
      rw [if_neg (fun h => hc h.2)]
    rw [updateEntity_hazard P rnd k entity hnp, hstep, hcr]
    exact hcl
  · intro hcar
    have hcr : correctRight P rnd k { entity with xpos := s } =
        some ({ entity with xpos := 16 }, k) := by
      have hc : ((s : Int) + entity.image.width ≥ ((RIGHT_BORDER : Nat) : Int)) := by
        simp only [RIGHT_BORDER_val]; omega
      have h16 : toU8 (((LEFT_BORDER : Nat) : Int) + 1) = 16 := by decide
      unfold correctRight
      rw [if_pos ⟨hdir, hc⟩, if_neg (by simp [hcar]), h16]
    have hcl : correctLeft P rnd k { entity with xpos := 16 } =
        some ({ entity with xpos := 16 }, k) := by
      unfold correctLeft
      rw [if_neg (fun h => h2 (hdir.symm.trans h.1))]
    rw [updateEntity_hazard P rnd k entity hnp, hstep, hcr]
    exact hcl
  · intro hw
    omega

theorem C6_right_edge_correction_witness :
    (board.DirCodes ∧ edgeLog.isPlayer = false ∧ edgeLog.direction = board.PS2_RIGHT ∧
      toU8 ((edgeLog.xpos : Int) + edgeLog.move) + edgeLog.image.width ≥ RIGHT_BORDER ∧
      compareImage edgeLog.image board.LOG_IMAGE = true ∧
      LEFT_BORDER + 1 < toU8 ((edgeLog.xpos : Int) + edgeLog.move)) ∧
    updateEntity board (fun _ => 7) 0 edgeLog =
      some ({ edgeLog with xpos := 165, direction := board.PS2_LEFT, move := 2 }, 1) :=
  ⟨by decide,
   ((C6_right_edge_correction board (by decide) (fun _ => 7) 0 edgeLog rfl rfl
      (by decide)).1 (by decide) (by decide)).1⟩

/-- C6, as stated, fails for a log one pixel narrower than the playfield: stepping from
the left border its right edge reaches RIGHT_BORDER, the right-edge correction turns it
left at `xpos = 15`, and the left-edge correction of the same call turns it right again
at `xpos = 16`, the stepped position itself. -/
theorem C6_counterexample :
    wideLog.isPlayer = false ∧ wideLog.direction = wideLogBoard.PS2_RIGHT ∧
    wideLog.xpos + wideLog.move + wideLog.image.width ≥ RIGHT_BORDER ∧
    compareImage wideLog.image wideLogBoard.LOG_IMAGE = true ∧
    (updateEntity wideLogBoard (fun _ => 0) 0 wideLog).map
        (fun r => (r.1.direction, r.1.xpos)) = some (wideLogBoard.PS2_RIGHT, 16) ∧
    wideLogBoard.PS2_RIGHT ≠ wideLogBoard.PS2_LEFT ∧
    (16 : Nat) ≠ (wideLog.xpos + wideLog.move) - 1 := by
  decide

theorem correctRight_spec (P : Platform) (rnd : Nat → Nat) (k : Nat) (e : Entity) :
    ∃ r, correctRight P rnd k e = some r ∧
      r.1.image = e.image ∧ r.1.ypos = e.ypos ∧ r.1.isPlayer = e.isPlayer ∧
      ((r.1.xpos = e.xpos ∧ r.1.direction = e.direction ∧ r.1.move = e.move ∧ r.2 = k ∧
          ¬ (e.direction = P.PS2_RIGHT ∧ e.xpos + e.image.width ≥ 225)) ∨
       (e.direction = P.PS2_RIGHT ∧ e.xpos + e.image.width ≥ 225 ∧
          ((r.1.xpos = toU8 ((e.xpos : Int) - 1) ∧ r.1.direction = P.PS2_LEFT % 256 ∧
              r.1.move = rnd k % 2 + 1 ∧ r.2 = k + 1 ∧
              compareImage e.image P.LOG_IMAGE = true) ∨
           (r.1.xpos = 16 ∧ r.1.direction = e.direction ∧ r.1.move = e.move ∧ r.2 = k ∧
              compareImage e.image P.LOG_IMAGE = false)))) := by
  unfold correctRight
  rw [randRange_log]
  simp only [RIGHT_BORDER_val, LEFT_BORDER_val, Nat.cast_ofNat]
  by_cases h1 : e.direction = P.PS2_RIGHT ∧ (e.xpos : Int) + e.image.width ≥ 225
  · have h1' : e.xpos + e.image.width ≥ 225 := by omega
    rw [if_pos h1]
    cases hc : compareImage e.image P.LOG_IMAGE
    · exact ⟨_, by simp; rfl, rfl, rfl, rfl, Or.inr ⟨h1.1, h1', Or.inr ⟨(by decide : toU8 (15 + 1) = 16), rfl, rfl, rfl, rfl⟩⟩⟩
    · exact ⟨_, by simp; rfl, rfl, rfl, rfl, Or.inr ⟨h1.1, h1', Or.inl ⟨rfl, rfl, rfl, rfl, rfl⟩⟩⟩
  · rw [if_neg h1]
    refine ⟨_, rfl, rfl, rfl, rfl, Or.inl ⟨rfl, rfl, rfl, rfl, ?_⟩⟩
    intro h; exact h1 ⟨h.1, by omega⟩

theorem correctLeft_spec (P : Platform) (rnd : Nat → Nat) (k : Nat) (e : Entity) :
    ∃ r, correctLeft P rnd k e = some r ∧
      r.1.image = e.image ∧ r.1.ypos = e.ypos ∧ r.1.isPlayer = e.isPlayer ∧
      ((r.1.xpos = e.xpos ∧ r.1.direction = e.direction ∧ r.1.move = e.move ∧ r.2 = k ∧
          ¬ (e.direction = P.PS2_LEFT ∧ e.xpos ≤ 15)) ∨
       (e.direction = P.PS2_LEFT ∧ e.xpos ≤ 15 ∧
          ((r.1.xpos = toU8 ((e.xpos : Int) + 1) ∧ r.1.direction = P.PS2_RIGHT % 256 ∧
              r.1.move = rnd k % 2 + 1 ∧ r.2 = k + 1 ∧
              compareImage e.image P.LOG_IMAGE = true) ∨
           (r.1.xpos = toU8 (225 - (e.image.width : Int) - 1) ∧ r.1.direction = e.direction ∧
              r.1.move = e.move ∧ r.2 = k ∧
              compareImage e.image P.LOG_IMAGE = false)))) := by
  unfold correctLeft
  rw [randRange_log]
  simp only [RIGHT_BORDER_val, LEFT_BORDER_val, Nat.cast_ofNat]
  by_cases h1 : e.direction = P.PS2_LEFT ∧ (e.xpos : Int) ≤ 15
  · have h1' : e.xpos ≤ 15 := by omega
    rw [if_pos h1]
    cases hc : compareImage e.image P.LOG_IMAGE
    · exact ⟨_, by simp; rfl, rfl, rfl, rfl, Or.inr ⟨h1.1, h1', Or.inr ⟨rfl, rfl, rfl, rfl, rfl⟩⟩⟩
    · exact ⟨_, by simp; rfl, rfl, rfl, rfl, Or.inr ⟨h1.1, h1', Or.inl ⟨rfl, rfl, rfl, rfl, rfl⟩⟩⟩
  · rw [if_neg h1]
    refine ⟨_, rfl, rfl, rfl, rfl, Or.inl ⟨rfl, rfl, rfl, rfl, ?_⟩⟩
    intro h; exact h1 ⟨h.1, by omega⟩

theorem swapSprite_eq (P : Platform) (e : Entity) :
    swapSprite P e = { e with image := spriteFor P e.direction e.image } := by
  unfold swapSprite spriteFor
  split_ifs <;> rfl

theorem playerSprite_eq (P : Platform) (e : Entity) :
    playerSprite P e =
      if 100 ≤ e.ypos ∨ e.direction = P.PS2_RIGHT ∨ e.direction = P.PS2_LEFT
      then correctOffset { e with image := spriteFor P e.direction e.image }
      else { e with image := spriteFor P e.direction e.image } := by
  unfold playerSprite
  rw [swapSprite_eq]
  simp only [TOP_BORDER_val, GRID_SIZE_val, WATER_ROWS_val, Nat.cast_ofNat]
  have h : ((e.ypos : Int) ≥ 10 + 30 * 3) ↔ 100 ≤ e.ypos := by omega
  simp only [h]

theorem playerSprite_fields (P : Platform) (e : Entity) :
    (playerSprite P e).isPlayer = e.isPlayer ∧ (playerSprite P e).move = e.move ∧
    (playerSprite P e).direction = e.direction ∧
    (playerSprite P e).image = spriteFor P e.direction e.image := by
  rw [playerSprite_eq]
  split <;> exact ⟨rfl, rfl, rfl, rfl⟩

theorem stepEntity_spec (P : Platform) (hP : P.DirCodes) (e : Entity) :
    (stepEntity P e).image = e.image ∧ (stepEntity P e).isPlayer = e.isPlayer ∧
    (stepEntity P e).direction = e.direction ∧ (stepEntity P e).move = e.move ∧
    (e.direction = P.PS2_RIGHT →
      (stepEntity P e).xpos = toU8 ((e.xpos : Int) + e.move) ∧ (stepEntity P e).ypos = e.ypos) ∧
    (e.direction = P.PS2_UP →
      (stepEntity P e).xpos = e.xpos ∧ (stepEntity P e).ypos = toU16 ((e.ypos : Int) - e.move)) ∧
    (e.direction = P.PS2_LEFT →
      (stepEntity P e).xpos = toU8 ((e.xpos : Int) - e.move) ∧ (stepEntity P e).ypos = e.ypos) ∧
    (e.direction = P.PS2_DOWN →
      (stepEntity P e).xpos = e.xpos ∧ (stepEntity P e).ypos = toU16 ((e.ypos : Int) + e.move)) := by
  obtain ⟨⟨h1, h2, h3, h4, h5, h6⟩, _⟩ := hP
  unfold stepEntity
  refine ⟨by split_ifs <;> rfl, by split_ifs <;> rfl, by split_ifs <;> rfl,
    by split_ifs <;> rfl, ?_, ?_, ?_, ?_⟩
  · intro h; rw [if_pos h]; exact ⟨rfl, rfl⟩
  · intro h
    rw [if_neg (fun h' => h1 (h'.symm.trans h)), if_pos h]; exact ⟨rfl, rfl⟩
  · intro h
    rw [if_neg (fun h' => h2 (h'.symm.trans h)), if_neg (fun h' => h4 (h'.symm.trans h)),
      if_pos h]
    exact ⟨rfl, rfl⟩
  · intro h
    rw [if_neg (fun h' => h3 (h'.symm.trans h)), if_neg (fun h' => h5 (h'.symm.trans h)),
      if_neg (fun h' => h6 (h'.symm.trans h)), if_pos h]
    exact ⟨rfl, rfl⟩

theorem updateEntity_player (P : Platform) (rnd : Nat → Nat) (k : Nat) (e : Entity)
    (hpl : e.isPlayer = true) (hv : isValidMove P e e.direction = true)
    (r3 r4 : Entity × Nat)
    (h3 : correctRight P rnd k (stepEntity P (playerSprite P e)) = some r3)
    (h4 : correctLeft P rnd r3.2 r3.1 = some r4) :
    updateEntity P rnd k e = some (correctBackgroundImage P r4.1, r4.2) := by
  have hp4 : r4.1.isPlayer = true := by
    rw [correctLeft_isPlayer P rnd _ _ r4 h4, correctRight_isPlayer P rnd _ _ r3 h3,
      stepEntity_isPlayer, (playerSprite_fields P e).1, hpl]
  unfold updateEntity
  rw [if_pos hv, if_pos hpl]
  dsimp only
  rw [h3]
  simp only [Option.bind_eq_bind, Option.some_bind, h4, hp4, if_true]
  rfl

theorem toU8_add (a b : Nat) (h : a + b < 256) : toU8 ((a : Int) + (b : Int)) = a + b := by
  unfold toU8; omega

theorem toU8_sub (a b : Nat) (h1 : b ≤ a) (h2 : a < 256) :
    toU8 ((a : Int) - (b : Int)) = a - b := by
  unfold toU8; omega

theorem toU16_add (a b : Nat) (h : a + b < 65536) : toU16 ((a : Int) + (b : Int)) = a + b := by
  unfold toU16; omega

theorem toU16_sub (a b : Nat) (h1 : b ≤ a) (h2 : a < 65536) :
    toU16 ((a : Int) - (b : Int)) = a - b := by
  unfold toU16; omega

theorem correctOffset_cell_x (e : Entity) (h1 : 15 ≤ e.xpos) (h2 : e.xpos < 255)
    (hw : e.image.width ≤ 30) :
    ∃ c xo, (correctOffset e).xpos = 30 * c + 15 + xo ∧
      30 * c + 15 ≤ e.xpos ∧ e.xpos < 30 * c + 45 ∧ xo + e.image.width ≤ 30 :=
  ⟨(e.xpos - 15) / 30, (30 - e.image.width) / 2,
    by rw [correctOffset_xpos e h1 h2 hw]; omega, by omega, by omega, by omega⟩

theorem correctOffset_cell_y (e : Entity) (h1 : 10 ≤ e.ypos) (h2 : e.ypos < 65500)
    (hh : e.image.height ≤ 30) :
    ∃ r yo, (correctOffset e).ypos = 30 * r + 10 + yo ∧
      30 * r + 10 ≤ e.ypos ∧ e.ypos < 30 * r + 40 ∧ yo + e.image.height ≤ 30 :=
  ⟨(e.ypos - 10) / 30, (30 - e.image.height) / 2,
    by rw [correctOffset_ypos e h1 h2 hh]; omega, by omega, by omega, by omega⟩

theorem corrections_keep_x (P : Platform) (hL : P.PS2_LEFT < 256) (rnd : Nat → Nat) (k : Nat)
    (e : Entity) (r3 r4 : Entity × Nat)
    (h3 : correctRight P rnd k e = some r3) (h4 : correctLeft P rnd r3.2 r3.1 = some r4)
    (hx : 15 ≤ e.xpos) (hxw : e.xpos + e.image.width ≤ 225) (hw : e.image.width ≤ 208) :
    r4.1.image = e.image ∧ r4.1.ypos = e.ypos ∧
    15 ≤ r4.1.xpos ∧ r4.1.xpos + e.image.width ≤ 225 := by
  obtain ⟨r3', h3', hi3, hy3, -, hx3⟩ := correctRight_spec P rnd k e
  obtain rfl : r3' = r3 := Option.some.inj (h3'.symm.trans h3)
  obtain ⟨r4', h4', hi4, hy4, -, hx4⟩ := correctLeft_spec P rnd r3'.2 r3'.1
  obtain rfl : r4' = r4 := Option.some.inj (h4'.symm.trans h4)
  refine ⟨hi4.trans hi3, hy4.trans hy3, ?_⟩
  rw [hi3] at hx4
  have hm : P.PS2_LEFT % 256 = P.PS2_LEFT := Nat.mod_eq_of_lt hL
  have t1 : toU8 ((e.xpos : Int) - 1) = e.xpos - 1 := by unfold toU8; omega
  have t2 : toU8 (225 - (e.image.width : Int) - 1) = 224 - e.image.width := by
    unfold toU8; omega
  rw [t1, hm] at hx3
  rw [t2] at hx4
  clear h3 h4 h3' h4' hi3 hi4 hy3 hy4 t1 t2 hm
  rcases hx3 with ⟨a1, a2, -, -, a3⟩ | ⟨a1, a2, ⟨a3, a4, -⟩ | ⟨a3, a4, -⟩⟩
  · rcases hx4 with ⟨b1, b2, -, -, b3⟩ | ⟨b1, b2, ⟨b3, b4, -⟩ | ⟨b3, b4, -⟩⟩
    · omega
    · have t4 : toU8 ((r3'.1.xpos : Int) + 1) = r3'.1.xpos + 1 := by unfold toU8; omega
      rw [t4] at b3
      omega
    · omega
  · rcases hx4 with ⟨b1, b2, -, -, b3⟩ | ⟨b1, b2, ⟨b3, b4, -⟩ | ⟨b3, b4, -⟩⟩
    · omega
    · omega
    · omega
  · rcases hx4 with ⟨b1, b2, -, -, b3⟩ | ⟨b1, b2, ⟨b3, b4, -⟩ | ⟨b3, b4, -⟩⟩
    · omega
    · omega
    · omega

theorem inside_correctBackgroundImage (P : Platform) (e : Entity) :
    Inside (correctBackgroundImage P e) ↔ Inside e := Iff.rfl

/-- C4 (amended): a player entity with `move = GRID_SIZE` and a non-empty image that lies
inside the playfield, on a board whose four frog sprites each fit in a grid cell, still
lies inside the playfield (with the sprite it then carries) after `updateEntity` in any
of the four directions, provided that for an up or down move made above the line
`TOP_BORDER + GRID_SIZE * WATER_ROWS`, where `updateEntity` skips `correctOffset`, the
sprite swapped in does not reach past RIGHT_BORDER from the unchanged `xpos`. -/
theorem C4_player_stays_inside (P : Platform) (hP : P.DirCodes) (hfit : SpritesFit P)
    (rnd : Nat → Nat) (k : Nat) (entity : Entity)
    (hpl : entity.isPlayer = true) (hmove : entity.move = GRID_SIZE) (hin : Inside entity)
    (hsz : 1 ≤ entity.image.width ∧ 1 ≤ entity.image.height)
    (hdir : entity.direction = P.PS2_RIGHT ∨ entity.direction = P.PS2_UP ∨
      entity.direction = P.PS2_LEFT ∨ entity.direction = P.PS2_DOWN)
    (hswap : entity.ypos < TOP_BORDER + GRID_SIZE * WATER_ROWS →
      (entity.direction = P.PS2_UP → entity.xpos + P.FROG_IMAGE_UP.width ≤ RIGHT_BORDER) ∧
      (entity.direction = P.PS2_DOWN →
        entity.xpos + P.FROG_IMAGE_DOWN.width ≤ RIGHT_BORDER)) :
    ∃ e' k', updateEntity P rnd k entity = some (e', k') ∧ Inside e' := by
  by_cases hv : isValidMove P entity entity.direction = true
  swap
  · exact ⟨entity, k, by simp [updateEntity, hv], hin⟩
  obtain ⟨r3, h3, -⟩ := correctRight_spec P rnd k (stepEntity P (playerSprite P entity))
  obtain ⟨r4, h4, -⟩ := correctLeft_spec P rnd r3.2 r3.1
  refine ⟨_, _, updateEntity_player P rnd k entity hpl hv r3 r4 h3 h4, ?_⟩
  rw [inside_correctBackgroundImage]
  obtain ⟨hsi, -, hsd, hsm, hsR, hsU, hsL, hsD⟩ := stepEntity_spec P hP (playerSprite P entity)
  obtain ⟨-, hpm, hpd, hpi⟩ := playerSprite_fields P entity
  have hps := playerSprite_eq P entity
  have hL : P.PS2_LEFT < 256 := hP.2.2.2.1
  obtain ⟨⟨d1, d2, d3, d4, d5, d6⟩, -⟩ := hP
  obtain ⟨⟨fR1, fR2⟩, ⟨fU1, fU2⟩, ⟨fL1, fL2⟩, ⟨fD1, fD2⟩⟩ := hfit
  obtain ⟨i1, i2, i3, i4⟩ := hin
  obtain ⟨z1, z2⟩ := hsz
  simp only [GRID_SIZE_val, LEFT_BORDER_val, RIGHT_BORDER_val, TOP_BORDER_val,
    BOTTOM_BORDER_val, WATER_ROWS_val] at i1 i2 i3 i4 hswap hmove fR1 fR2 fU1 fU2 fL1 fL2 fD1 fD2
  rw [hpd] at hsR hsU hsL hsD
  rw [hpm, hmove] at hsR hsU hsL hsD
  unfold isValidMove at hv
  simp only [hpl, Bool.not_true, Bool.false_eq_true, if_false, RIGHT_BORDER_val,
    LEFT_BORDER_val, TOP_BORDER_val, BOTTOM_BORDER_val, hmove,
    Nat.cast_ofNat] at hv
  have hxlt : entity.xpos < 255 := by omega
  have hylt : entity.ypos < 65500 := by omega
  -- it is enough that the stepped entity is inside the playfield with a sprite of width ≤ 30
  suffices hstep : 15 ≤ (stepEntity P (playerSprite P entity)).xpos ∧
      (stepEntity P (playerSprite P entity)).xpos +
        (stepEntity P (playerSprite P entity)).image.width ≤ 225 ∧
      (stepEntity P (playerSprite P entity)).image.width ≤ 30 ∧
      10 ≤ (stepEntity P (playerSprite P entity)).ypos ∧
      (stepEntity P (playerSprite P entity)).ypos +
        (stepEntity P (playerSprite P entity)).image.height ≤ 310 by
    obtain ⟨s1, s2, s3, s4, s5⟩ := hstep
    obtain ⟨k1, k2, k3, k4⟩ := corrections_keep_x P hL rnd k _ r3 r4 h3 h4 s1 s2 (by omega)
    unfold Inside
    simp only [LEFT_BORDER_val, RIGHT_BORDER_val, TOP_BORDER_val, BOTTOM_BORDER_val, k1, k2]
    exact ⟨k3, k4, s4, s5⟩
  rw [hsi, hpi]
  clear h3 h4 hsi hsd hsm r3 r4
  rcases hdir with hd | hd | hd | hd
  · -- right: the offset is corrected, then one cell to the right
    have hsp : spriteFor P entity.direction entity.image = P.FROG_IMAGE_RIGHT := by
      simp [spriteFor, hd]
    rw [hsp] at hps ⊢
    rw [if_pos (Or.inr (Or.inl hd))] at hps
    obtain ⟨c, xo, hx1, c1, c2, c3⟩ :=
      correctOffset_cell_x { entity with image := P.FROG_IMAGE_RIGHT } i1 hxlt fR1
    obtain ⟨r, yo, hy1, r1, r2, r3⟩ :=
      correctOffset_cell_y { entity with image := P.FROG_IMAGE_RIGHT } i3 hylt fR2
    rw [← hps] at hx1 hy1
    obtain ⟨hx2, hy2⟩ := hsR hd
    rw [if_pos hd] at hv
    have hvv : ¬ ((entity.xpos : Int) + entity.image.width + 30 > 225) := by
      intro h; rw [if_pos h] at hv; exact absurd hv (by decide)
    change 30 * c + 15 ≤ entity.xpos at c1
    change entity.xpos < 30 * c + 45 at c2
    change xo + P.FROG_IMAGE_RIGHT.width ≤ 30 at c3
    change 30 * r + 10 ≤ entity.ypos at r1
    change entity.ypos < 30 * r + 40 at r2
    change yo + P.FROG_IMAGE_RIGHT.height ≤ 30 at r3
    have hb : (playerSprite P entity).xpos + 30 < 256 := by omega
    rw [hx2, hy2, toU8_add _ 30 hb, hx1, hy1]
    clear hv hsR hsU hsL hsD hps hswap hx2 hy2 hx1 hy1 hb
    omega
  · -- up: the offset is corrected only from the line ypos = 100 downwards
    have hsp : spriteFor P entity.direction entity.image = P.FROG_IMAGE_UP := by
      simp [spriteFor, hd, d1.symm]
    rw [hsp] at hps ⊢
    obtain ⟨hx2, hy2⟩ := hsU hd
    rw [if_neg (by omega), if_pos hd] at hv
    have hvv : ¬ ((entity.ypos : Int) - 30 < 10) := by
      intro h; rw [if_pos h] at hv; exact absurd hv (by decide)
    by_cases hy100 : 100 ≤ entity.ypos
    · rw [if_pos (Or.inl hy100)] at hps
      obtain ⟨c, xo, hx1, c1, c2, c3⟩ :=
        correctOffset_cell_x { entity with image := P.FROG_IMAGE_UP } i1 hxlt fU1
      obtain ⟨r, yo, hy1, r1, r2, r3⟩ :=
        correctOffset_cell_y { entity with image := P.FROG_IMAGE_UP } i3 hylt fU2
      rw [← hps] at hx1 hy1
      change 30 * c + 15 ≤ entity.xpos at c1
      change entity.xpos < 30 * c + 45 at c2
      change xo + P.FROG_IMAGE_UP.width ≤ 30 at c3
      change 30 * r + 10 ≤ entity.ypos at r1
      change entity.ypos < 30 * r + 40 at r2
      change yo + P.FROG_IMAGE_UP.height ≤ 30 at r3
      have hb : 30 ≤ (playerSprite P entity).ypos ∧ (playerSprite P entity).ypos < 65536 := by
        omega
      rw [hx2, hy2, toU16_sub _ 30 hb.1 hb.2, hx1, hy1]
      clear hv hsR hsU hsL hsD hps hswap hx2 hy2 hx1 hy1 hb
      omega
    · rw [if_neg (by omega)] at hps
      have hx1 : (playerSprite P entity).xpos = entity.xpos := by rw [hps]
      have hy1 : (playerSprite P entity).ypos = entity.ypos := by rw [hps]
      have hsw := (hswap (by omega)).1 hd
      have hb : 30 ≤ (playerSprite P entity).ypos ∧ (playerSprite P entity).ypos < 65536 := by
        omega
      rw [hx2, hy2, toU16_sub _ 30 hb.1 hb.2, hx1, hy1]
      clear hv hsR hsU hsL hsD hps hswap hx2 hy2 hx1 hy1 hb
      omega
  · -- left: the offset is corrected, then one cell to the left
    have hsp : spriteFor P entity.direction entity.image = P.FROG_IMAGE_LEFT := by
      simp [spriteFor, hd, d2.symm, d4.symm]
    rw [hsp] at hps ⊢
    rw [if_pos (Or.inr (Or.inr hd))] at hps
    obtain ⟨c, xo, hx1, c1, c2, c3⟩ :=
      correctOffset_cell_x { entity with image := P.FROG_IMAGE_LEFT } i1 hxlt fL1
    obtain ⟨r, yo, hy1, r1, r2, r3⟩ :=
      correctOffset_cell_y { entity with image := P.FROG_IMAGE_LEFT } i3 hylt fL2
    rw [← hps] at hx1 hy1
    obtain ⟨hx2, hy2⟩ := hsL hd
    rw [if_neg (by omega), if_neg (by omega), if_pos hd] at hv
    have hvv : ¬ ((entity.xpos : Int) - 30 < 15) := by
      intro h; rw [if_pos h] at hv; exact absurd hv (by decide)
    change 30 * c + 15 ≤ entity.xpos at c1
    change entity.xpos < 30 * c + 45 at c2
    change xo + P.FROG_IMAGE_LEFT.width ≤ 30 at c3
    change 30 * r + 10 ≤ entity.ypos at r1
    change entity.ypos < 30 * r + 40 at r2
    change yo + P.FROG_IMAGE_LEFT.height ≤ 30 at r3
    have hb : 30 ≤ (playerSprite P entity).xpos ∧ (playerSprite P entity).xpos < 256 := by
      omega
    rw [hx2, hy2, toU8_sub _ 30 hb.1 hb.2, hx1, hy1]
    clear hv hsR hsU hsL hsD hps hswap hx2 hy2 hx1 hy1 hb
    omega
  · -- down: the offset is corrected only from the line ypos = 100 downwards
    have hsp : spriteFor P entity.direction entity.image = P.FROG_IMAGE_DOWN := by
      simp [spriteFor, hd, d3.symm, d5.symm, d6.symm]
    rw [hsp] at hps ⊢
    obtain ⟨hx2, hy2⟩ := hsD hd
    rw [if_neg (by omega), if_neg (by omega), if_neg (by omega), if_pos hd] at hv
    have hvv : ¬ ((entity.ypos : Int) + entity.image.height + 30 > 310) := by
      intro h; rw [if_pos h] at hv; exact absurd hv (by decide)
    by_cases hy100 : 100 ≤ entity.ypos
    · rw [if_pos (Or.inl hy100)] at hps
      obtain ⟨c, xo, hx1, c1, c2, c3⟩ :=
        correctOffset_cell_x { entity with image := P.FROG_IMAGE_DOWN } i1 hxlt fD1
      obtain ⟨r, yo, hy1, r1, r2, r3⟩ :=
        correctOffset_cell_y { entity with image := P.FROG_IMAGE_DOWN } i3 hylt fD2
      rw [← hps] at hx1 hy1
      change 30 * c + 15 ≤ entity.xpos at c1
      change entity.xpos < 30 * c + 45 at c2
      change xo + P.FROG_IMAGE_DOWN.width ≤ 30 at c3
      change 30 * r + 10 ≤ entity.ypos at r1
      change entity.ypos < 30 * r + 40 at r2
      change yo + P.FROG_IMAGE_DOWN.height ≤ 30 at r3
      have hb : (playerSprite P entity).ypos + 30 < 65536 := by omega
      rw [hx2, hy2, toU16_add _ 30 hb, hx1, hy1]
      clear hv hsR hsU hsL hsD hps hswap hx2 hy2 hx1 hy1 hb
      omega
    · rw [if_neg (by omega)] at hps
      have hx1 : (playerSprite P entity).xpos = entity.xpos := by rw [hps]
      have hy1 : (playerSprite P entity).ypos = entity.ypos := by rw [hps]
      have hsw := (hswap (by omega)).2 hd
      have hb : (playerSprite P entity).ypos + 30 < 65536 := by omega
      rw [hx2, hy2, toU16_add _ 30 hb, hx1, hy1]
      clear hv hsR hsU hsL hsD hps hswap hx2 hy2 hx1 hy1 hb
      omega

theorem C4_player_stays_inside_witness :
    (board.DirCodes ∧ SpritesFit board ∧ roadFrog.isPlayer = true ∧
      roadFrog.move = GRID_SIZE ∧ Inside roadFrog ∧
      (1 ≤ roadFrog.image.width ∧ 1 ≤ roadFrog.image.height) ∧
      roadFrog.direction = board.PS2_UP) ∧
    ∃ e' k', updateEntity board (fun _ => 0) 0 roadFrog = some (e', k') ∧ Inside e' :=
  ⟨by decide,
   C4_player_stays_inside board (by decide) (by decide) (fun _ => 0) 0 roadFrog rfl rfl
     (by decide) (by decide) (by decide) (by decide)⟩

/-- C4, as stated, fails in two ways.  A player inside the playfield in water row 2 that
carries the 20-wide left sprite with its right edge at 224 and moves up is given the
26-wide up sprite at the same `xpos`, because `correctOffset` is skipped there: its right
edge is then 230, past RIGHT_BORDER.  A player record with an empty image standing on the
right border is snapped into the column beyond the playfield. -/
theorem C4_counterexample :
    (board.DirCodes ∧ SpritesFit board ∧ logRider.isPlayer = true ∧
      logRider.move = GRID_SIZE ∧ Inside logRider ∧ logRider.direction = board.PS2_UP ∧
      (updateEntity board (fun _ => 0) 0 logRider).map
        (fun r => (r.1.xpos, r.1.image.width, decide (Inside r.1))) = some (204, 26, false)) ∧
    (emptyFrog.isPlayer = true ∧ emptyFrog.move = GRID_SIZE ∧ Inside emptyFrog ∧
      emptyFrog.direction = board.PS2_UP ∧
      (updateEntity board (fun _ => 0) 0 emptyFrog).map
        (fun r => (r.1.xpos, r.1.image.width, decide (Inside r.1))) = some (227, 26, false)) := by
  decide

/-! ## The wireless position word -/

theorem low_half (w : Nat) : w &&& 0x0000FFFF = w % 65536 :=
  Nat.and_pow_two_sub_one_eq_mod w 16

theorem high_half (w : Nat) : (w &&& 0xFFFF0000) >>> 16 = (w / 65536) % 65536 := by
  have hM : (0xFFFF0000 : Nat) = (2 ^ 16 - 1) <<< 16 := by decide
  have h2 : (65536 : Nat) = 2 ^ 16 := by decide
  rw [hM, h2, ← Nat.shiftRight_eq_div_pow]
  apply Nat.eq_of_testBit_eq
  intro i
  simp only [Nat.testBit_shiftRight, Nat.testBit_and, Nat.testBit_mod_two_pow,
    Nat.testBit_shiftLeft, Nat.testBit_two_pow_sub_one]
  by_cases h : i < 16 <;> simp [h, Bool.and_comm]

theorem decodePos_eq (entity : Entity) (w : Nat) :
    decodePos entity w = { entity with xpos := (w / 65536) % 256, ypos := w % 65536 } := by
  unfold decodePos
  rw [low_half, high_half]
  congr 1 <;> omega

theorem encodePos_eq (x y : Nat) (hx : x < 65536) (hy : y < 65536) :
    encodePos x y = x * 65536 + y := by
  unfold encodePos
  rw [Nat.shiftLeft_eq]
  omega

/-- C7 (amended): for every position `(x, y)` with `x < 256` and `y < 65536`, the two
decode assignments of the receiver applied to the word `(x << 16) + y` store exactly
`(x, y)` in the remote entity and change no other field; the receive step performs them
whenever that word is not WIN. -/
theorem C7_position_roundtrip (P : Platform) (frog2 : Entity) (remoteWin : Bool) (x y : Nat)
    (hx : x < 256) (hy : y < 65536) :
    decodePos frog2 (encodePos x y) = { frog2 with xpos := x, ypos := y } ∧
    (encodePos x y ≠ WIN →
      receiveStep P frog2 remoteWin (some (encodePos x y)) =
        (correctBackgroundImage P { frog2 with xpos := x, ypos := y }, remoteWin)) := by
  have hdec : decodePos frog2 (encodePos x y) = { frog2 with xpos := x, ypos := y } := by
    rw [decodePos_eq, encodePos_eq x y (by omega) hy]
    congr 1 <;> omega
  refine ⟨hdec, ?_⟩
  intro hne
  simp only [receiveStep, hne, ne_eq, not_false_eq_true, if_true, hdec]

theorem C7_position_roundtrip_witness :
    ((77 : Nat) < 256 ∧ (285 : Nat) < 65536) ∧
    decodePos remoteFrog (encodePos 77 285) = { remoteFrog with xpos := 77, ypos := 285 } :=
  ⟨by decide, (C7_position_roundtrip board remoteFrog false 77 285 (by decide) (by decide)).1⟩

/-- C7, as stated, fails for `x = 256 < 65536`: the high half of the word is 256 and the
8-bit field `xpos` receives 0. -/
theorem C7_counterexample :
    (256 : Nat) < 65536 ∧ (0 : Nat) < 65536 ∧
    (encodePos 256 0 &&& 0xFFFF0000) >>> 16 = 256 ∧
    (decodePos remoteFrog (encodePos 256 0)).xpos = 0 ∧
    (decodePos remoteFrog (encodePos 256 0)).ypos = 0 := by
  decide

/-- C8: for every local frog inside the playfield the position word `(xpos << 16) + ypos`
differs from WIN, so the send step never hands WIN to the link as a position. -/
theorem C8_win_not_a_position (frog : Entity) (hin : Inside frog) :
    encodePos frog.xpos frog.ypos ≠ WIN ∧
    ∀ oldx oldy row, WIN ∉ sendStep oldx oldy row frog := by
  obtain ⟨h1, h2, h3, h4⟩ := hin
  simp only [LEFT_BORDER_val, RIGHT_BORDER_val, TOP_BORDER_val, BOTTOM_BORDER_val] at h1 h2 h3 h4
  have hne : encodePos frog.xpos frog.ypos ≠ WIN := by
    rw [encodePos_eq _ _ (by omega) (by omega), WIN_val]
    omega
  refine ⟨hne, ?_⟩
  intro oldx oldy row hmem
  unfold sendStep at hmem
  split_ifs at hmem
  · rw [List.mem_singleton] at hmem
    exact hne hmem.symm
  · exact absurd hmem (List.not_mem_nil _)
  · exact absurd hmem (List.not_mem_nil _)

theorem C8_win_not_a_position_witness :
    Inside roadFrog ∧ encodePos roadFrog.xpos roadFrog.ypos ≠ WIN :=
  ⟨by decide, (C8_win_not_a_position roadFrog (by decide)).1⟩

/-- C9 (amended): in the receive step, the word WIN sets `remoteWin` and leaves the remote
frog untouched; any other word `w` stores the low 8 bits of its high 16-bit half in
`xpos` (the field is 8 bits wide; this is the high half itself when it is below 256) and
its low 16-bit half in `ypos`, recomputes the background color for the new row and
leaves `remoteWin` unchanged; without a word neither the remote frog nor `remoteWin`
changes. -/
theorem C9_receive_step (P : Platform) (frog2 : Entity) (remoteWin : Bool) :
    receiveStep P frog2 remoteWin (some WIN) = (frog2, true) ∧
    (∀ w, w ≠ WIN →
      receiveStep P frog2 remoteWin (some w) =
        (correctBackgroundImage P
          { frog2 with xpos := ((w &&& 0xFFFF0000) >>> 16) % 256, ypos := w &&& 0xFFFF },
         remoteWin) ∧
      ((w &&& 0xFFFF0000) >>> 16 < 256 →
        (receiveStep P frog2 remoteWin (some w)).1.xpos = (w &&& 0xFFFF0000) >>> 16) ∧
      (receiveStep P frog2 remoteWin (some w)).1.ypos = w &&& 0xFFFF) ∧
    receiveStep P frog2 remoteWin none = (frog2, remoteWin) := by
  refine ⟨by simp [receiveStep], ?_, rfl⟩
  intro w hw
  have hy : (w &&& 0xFFFF) % 65536 = w &&& 0xFFFF := by
    rw [low_half]; omega
  have h : receiveStep P frog2 remoteWin (some w) =
      (correctBackgroundImage P
        { frog2 with xpos := ((w &&& 0xFFFF0000) >>> 16) % 256, ypos := w &&& 0xFFFF },
       remoteWin) := by
    simp only [receiveStep, hw, ne_eq, not_false_eq_true, if_true, decodePos, hy]
  refine ⟨h, ?_, ?_⟩
  · intro hlt
    rw [h]
    exact Nat.mod_eq_of_lt hlt
  · rw [h]; rfl

theorem C9_receive_step_witness :
    (5046557 : Nat) ≠ WIN ∧
    (receiveStep board remoteFrog false (some 5046557)).1.xpos = 77 ∧
    (receiveStep board remoteFrog false (some 5046557)).1.ypos = 285 :=
  ⟨by decide,
   (((C9_receive_step board remoteFrog false).2.1 5046557 (by decide)).2.1 (by decide)).trans
     (by decide),
   (((C9_receive_step board remoteFrog false).2.1 5046557 (by decide)).2.2).trans
     (by decide)⟩

/-- C9, as stated, fails for the word `0x01000005`: it is not WIN, its high 16-bit half is
256, and the receive step stores 0 in `xpos`. -/
theorem C9_counterexample :
    (0x01000005 : Nat) < 4294967296 ∧ (0x01000005 : Nat) ≠ WIN ∧
    ((0x01000005 : Nat) &&& 0xFFFF0000) >>> 16 = 256 ∧
    (receiveStep board remoteFrog false (some 0x01000005)).1.xpos = 0 := by
  decide

/-! ## The send policy of a tick -/

theorem resolve_ypos (P : Platform) (t : Table) (frog : Entity) (alive : Bool)
    (r : Entity × Bool) (h : resolve P t frog alive = some r) : r.1.ypos = frog.ypos := by
  unfold resolve at h
  dsimp only at h
  split_ifs at h with h1 h2
  · cases hc : roadCheck t (frogRow frog) frog alive with
    | none => rw [hc] at h; exact absurd h (by simp)
    | some a =>
      rw [hc] at h
      simp only [Option.map_some', Option.some.injEq] at h
      rw [← h]
  · simp only [GRID_HEIGHT_val, WATER_ROWS_val] at h1 h2
    rw [waterCheck_eq P t (frogRow frog) frog (by omega)] at h
    simp only [Option.map_some', Option.some.injEq] at h
    rw [← h]
    split <;> rfl
  · simp only [Option.some.injEq] at h
    rw [← h]

theorem frogRow_congr (a b : Entity) (h : a.ypos = b.ypos) : frogRow a = frogRow b := by
  unfold frogRow; rw [h]

/-- C10 (amended): the words sent in a tick are the words of the send step followed by the
word of the win check.  The send step sends at most one word, the encoding of the frog's
position after the resolver, and it sends it exactly when that position differs from the
position at the start of the tick and the frog's row index is greater than WATER_ROWS:
a road row, the bottom grass row `GRID_HEIGHT - 1`, or an index past the grid, but
neither a water row nor the top grass row. -/
theorem C10_send_policy (P : Platform) (rnd : Nat → Nat) (g g' : Game) (inp : TickInput)
    (sent : List Nat) (h : tick P rnd g inp = some (g', sent)) :
    ∃ pos, sent = pos ++ (winStep g'.frog g.localWin).2 ∧
      pos = sendStep g.frog.xpos g.frog.ypos (frogRow g'.frog) g'.frog ∧
      (pos = [] ∨ pos = [encodePos g'.frog.xpos g'.frog.ypos]) ∧
      (pos ≠ [] ↔
        (g'.frog.xpos ≠ g.frog.xpos ∨ g'.frog.ypos ≠ g.frog.ypos) ∧
          WATER_ROWS < frogRow g'.frog) := by
  unfold tick at h
  simp only [Option.bind_eq_bind, Option.bind_eq_some, Option.pure_def, Option.some.injEq,
    Prod.mk.injEq] at h
  obtain ⟨a, -, a1, -, a2, hr, hg, hs⟩ := h
  have hrow : frogRow a1.1 = frogRow a2.1 :=
    (frogRow_congr _ _ (resolve_ypos P a.1 a1.1 g.alive a2 hr)).symm
  have hf : g'.frog = a2.1 := by rw [← hg]
  rw [hrow, ← hf] at hs
  refine ⟨_, hs.symm, rfl, ?_, ?_⟩
  · unfold sendStep
    split_ifs
    · exact Or.inr rfl
    · exact Or.inl rfl
    · exact Or.inl rfl
  · unfold sendStep
    split_ifs with h1 h2
    · simp only [ne_eq, List.cons_ne_self, not_false_eq_true, true_iff]
      exact ⟨h1, h2⟩
    · simp only [ne_eq, not_true_eq_false, false_iff, not_and]
      exact fun _ => h2
    · simp only [ne_eq, not_true_eq_false, false_iff, not_and]
      exact fun hc => absurd hc h1

theorem C10_send_policy_witness :
    (tick board (fun _ => 0) startGame pushLeft).map (fun r => r.2) = some [5243162] ∧
    ∃ g' sent, tick board (fun _ => 0) startGame pushLeft = some (g', sent) ∧
      ∃ pos, sent = pos ++ (winStep g'.frog startGame.localWin).2 ∧
        pos = sendStep startGame.frog.xpos startGame.frog.ypos (frogRow g'.frog) g'.frog ∧
        (pos = [] ∨ pos = [encodePos g'.frog.xpos g'.frog.ypos]) ∧
        (pos ≠ [] ↔
          (g'.frog.xpos ≠ startGame.frog.xpos ∨ g'.frog.ypos ≠ startGame.frog.ypos) ∧
            WATER_ROWS < frogRow g'.frog) := by
  have hs : (tick board (fun _ => 0) startGame pushLeft).isSome = true := by decide
  obtain ⟨⟨g', sent⟩, h⟩ := Option.isSome_iff_exists.mp hs
  exact ⟨by decide, g', sent, h, C10_send_policy board (fun _ => 0) startGame g' pushLeft sent h⟩

/-- C10, as stated, fails in the bottom grass row: the frog starts a round in row
`GRID_HEIGHT - 1 = 9` at `(107, 285)`, a push to the left moves it to `(80, 282)` in the
same row, and the tick sends the position word `(80 << 16) + 282` although row 9 is not a
road row. -/
theorem C10_counterexample :
    playing startGame = true ∧
    (startGame.frog.xpos, startGame.frog.ypos, frogRow startGame.frog) = (107, 285, 9) ∧
    (tick board (fun _ => 0) startGame pushLeft).map
        (fun r => (r.2, r.1.frog.xpos, r.1.frog.ypos, frogRow r.1.frog)) =
      some ([encodePos 80 282], 80, 282, 9) ∧
    encodePos 80 282 ≠ WIN ∧
    ¬ (WATER_ROWS < 9 ∧ 9 < GRID_HEIGHT - 1) := by
  decide

/-! ## Bounded random numbers -/

/-- C16: for 8-bit bounds with `start < stop` and every value `r` of `rand()`,
`randRange` is defined (its 8-bit `range` is not zero) and returns the exact integer
`start + r mod (stop - start)`, which lies in `[start, stop)` and below 256, so nothing
wraps. -/
theorem C16_randRange_bounds (start stop r : Nat) (hlt : start < stop) (h8 : stop < 256) :
    toU8 ((stop : Int) - start) = stop - start ∧ stop - start ≠ 0 ∧
    randRange start stop r = some (start + r % (stop - start)) ∧
    start ≤ start + r % (stop - start) ∧ start + r % (stop - start) < stop ∧
    start + r % (stop - start) < 256 := by
  have hrange : toU8 ((stop : Int) - start) = stop - start := by unfold toU8; omega
  have hmod : r % (stop - start) < stop - start := Nat.mod_lt _ (by omega)
  refine ⟨hrange, by omega, ?_, by omega, by omega, by omega⟩
  unfold randRange
  simp only [hrange]
  rw [if_neg (by omega)]
  congr 1
  generalize r % (stop - start) = m at hmod
  unfold toU8
  omega

theorem C16_randRange_bounds_witness :
    ((15 : Nat) < 225 ∧ (225 : Nat) < 256) ∧ randRange 15 225 1000 = some 175 :=
  ⟨by decide, (C16_randRange_bounds 15 225 1000 (by decide) (by decide)).2.2.1⟩

/-! ## Plain step of a hazard and the background color -/

/-- C18: a non-player entity (with `xpos` an 8-bit value) that faces right with
`xpos + move + width < RIGHT_BORDER`, or faces left with `xpos - move > LEFT_BORDER`, is
moved by `updateEntity` by exactly `+move`, respectively `-move`, in `xpos`; `ypos`,
`move`, `direction`, `image` and `isPlayer` are unchanged and `rand()` is not called.
`isValidMove` holds for a non-player entity in every direction, so the step is never
blocked. -/
theorem C18_hazard_plain_step (P : Platform) (hP : P.DirCodes) (rnd : Nat → Nat) (k : Nat)
    (entity : Entity) (hnp : entity.isPlayer = false) (hx : entity.xpos < 256) :
    (entity.direction = P.PS2_RIGHT →
      entity.xpos + entity.move + entity.image.width < RIGHT_BORDER →
      updateEntity P rnd k entity =
        some ({ entity with xpos := entity.xpos + entity.move }, k)) ∧
    (entity.direction = P.PS2_LEFT →
      (entity.xpos : Int) - entity.move > LEFT_BORDER →
      updateEntity P rnd k entity =
        some ({ entity with xpos := entity.xpos - entity.move }, k) ∧
      ((entity.xpos - entity.move : Nat) : Int) = (entity.xpos : Int) - entity.move) ∧
    (∀ direction, isValidMove P entity direction = true) := by
  obtain ⟨hsi, -, hsd, hsm, hsR, -, hsL, -⟩ := stepEntity_spec P hP entity
  have hRL : P.PS2_RIGHT ≠ P.PS2_LEFT := hP.1.2.1
  refine ⟨?_, ?_, ?_⟩
  · intro hd hlt
    simp only [RIGHT_BORDER_val] at hlt
    have hstep : stepEntity P entity = { entity with xpos := entity.xpos + entity.move } := by
      unfold stepEntity
      rw [if_pos hd, toU8_add _ _ (by omega)]
    have hcr : correctRight P rnd k { entity with xpos := entity.xpos + entity.move } =
        some ({ entity with xpos := entity.xpos + entity.move }, k) := by
      unfold correctRight
      rw [if_neg]
      intro h
      have h2 := h.2
      simp only [RIGHT_BORDER_val] at h2
      change ((entity.xpos + entity.move : Nat) : Int) + (entity.image.width : Int) ≥
        ((225 : Nat) : Int) at h2
      omega
    have hcl : correctLeft P rnd k { entity with xpos := entity.xpos + entity.move } =
        some ({ entity with xpos := entity.xpos + entity.move }, k) := by
      unfold correctLeft
      rw [if_neg (fun h => hRL (hd.symm.trans h.1))]
    rw [updateEntity_hazard P rnd k entity hnp, hstep, hcr]
    exact hcl
  · intro hd hgt
    simp only [LEFT_BORDER_val, Nat.cast_ofNat] at hgt
    have hle : entity.move ≤ entity.xpos := by omega
    refine ⟨?_, by omega⟩
    have hstep : stepEntity P entity = { entity with xpos := entity.xpos - entity.move } := by
      unfold stepEntity
      rw [if_neg (fun h => hRL (h.symm.trans hd)),
        if_neg (fun h => hP.1.2.2.2.1 (h.symm.trans hd)), if_pos hd, toU8_sub _ _ hle hx]
    have hcr : correctRight P rnd k { entity with xpos := entity.xpos - entity.move } =
        some ({ entity with xpos := entity.xpos - entity.move }, k) := by
      unfold correctRight
      rw [if_neg (fun h => hRL (h.1.symm.trans hd))]
    have hcl : correctLeft P rnd k { entity with xpos := entity.xpos - entity.move } =
        some ({ entity with xpos := entity.xpos - entity.move }, k) := by
      unfold correctLeft
      rw [if_neg]
      intro h
      have h2 := h.2
      simp only [LEFT_BORDER_val] at h2
      change ((entity.xpos - entity.move : Nat) : Int) ≤ ((15 : Nat) : Int) at h2
      omega
    rw [updateEntity_hazard P rnd k entity hnp, hstep, hcr]
    exact hcl
  · intro direction
    simp [isValidMove, hnp]

theorem C18_hazard_plain_step_witness :
    (board.DirCodes ∧ (carTable 4 0).isPlayer = false ∧ (carTable 4 0).xpos < 256 ∧
      (carTable 4 0).direction = board.PS2_RIGHT ∧
      (carTable 4 0).xpos + (carTable 4 0).move + (carTable 4 0).image.width < RIGHT_BORDER) ∧
    updateEntity board (fun _ => 0) 0 (carTable 4 0) =
      some ({ carTable 4 0 with xpos := 111 }, 0) :=
  ⟨by decide,
   (C18_hazard_plain_step board (by decide) (fun _ => 0) 0 (carTable 4 0) rfl
      (by decide)).1 rfl (by decide)⟩

/-- C19: `correctBackgroundImage` changes nothing but `image.backgroundColor`, which it
sets from `row = (ypos - TOP_BORDER) / GRID_SIZE` (the value `frogRow`, a C quotient
stored in 8 bits, equal to the exact quotient for `TOP_BORDER ≤ ypos < 7690`): the 16-bit
value of LCD_COLOR_GREEN2 for row 0 or `GRID_HEIGHT - 1`, of LCD_COLOR_BROWN for rows
`1 .. WATER_ROWS`, and of LCD_COLOR_BLACK for every other row. -/
theorem C19_background_frame (P : Platform) (entity : Entity) :
    (∃ color, correctBackgroundImage P entity =
        { entity with image := { entity.image with backgroundColor := color } } ∧
      (frogRow entity = 0 ∨ frogRow entity = GRID_HEIGHT - 1 →
        color = P.LCD_COLOR_GREEN2 % 65536) ∧
      (1 ≤ frogRow entity ∧ frogRow entity ≤ WATER_ROWS →
        color = P.LCD_COLOR_BROWN % 65536) ∧
      (WATER_ROWS < frogRow entity ∧ frogRow entity ≠ GRID_HEIGHT - 1 →
        color = P.LCD_COLOR_BLACK % 65536)) ∧
    (TOP_BORDER ≤ entity.ypos → entity.ypos < 7690 →
      frogRow entity = (entity.ypos - TOP_BORDER) / GRID_SIZE) ∧
    (P.LCD_COLOR_GREEN2 < 65536 → P.LCD_COLOR_GREEN2 % 65536 = P.LCD_COLOR_GREEN2) ∧
    (P.LCD_COLOR_BROWN < 65536 → P.LCD_COLOR_BROWN % 65536 = P.LCD_COLOR_BROWN) ∧
    (P.LCD_COLOR_BLACK < 65536 → P.LCD_COLOR_BLACK % 65536 = P.LCD_COLOR_BLACK) := by
  refine ⟨⟨_, rfl, ?_⟩, ?_, Nat.mod_eq_of_lt, Nat.mod_eq_of_lt, Nat.mod_eq_of_lt⟩
  · unfold frogRow
    generalize toU8 (cdiv ((entity.ypos : Int) - TOP_BORDER) GRID_SIZE) = row
    simp only [GRID_HEIGHT_val, WATER_ROWS_val]
    refine ⟨fun h => by rw [if_pos h], fun h => ?_, fun h => ?_⟩
    · rw [if_neg (by omega), if_pos (by omega)]
    · rw [if_neg (by omega), if_neg (by omega)]
  · intro h1 h2
    rw [frogRow_eq]
    simp only [TOP_BORDER_val, GRID_SIZE_val] at h1 ⊢
    rw [if_pos (by omega)]
    unfold toU8
    omega

theorem C19_background_frame_witness :
    (frogRow waterFrog = 2 ∧ (1 ≤ frogRow waterFrog ∧ frogRow waterFrog ≤ WATER_ROWS)) ∧
    correctBackgroundImage board waterFrog =
      { waterFrog with image := { waterFrog.image with backgroundColor := 0xA145 } } := by
  refine ⟨by decide, ?_⟩
  obtain ⟨color, heq, -, hbrown, -⟩ := (C19_background_frame board waterFrog).1
  rw [heq, hbrown (by decide)]
  rfl

/-! ## Snapping to the grid -/

theorem correctOffset_xpos_gen (e : Entity) (h2 : e.xpos < 255) (hw : e.image.width ≤ 30) :
    (correctOffset e).xpos = (e.xpos - 15) / 30 * 30 + 15 + (30 - e.image.width) / 2 := by
  by_cases h1 : 15 ≤ e.xpos
  · exact correctOffset_xpos e h1 h2 hw
  · have s1 : cdiv ((e.xpos : Int) - 15) 30 = 0 := by
      rw [cdiv_eq _ _ (by decide), if_neg (by omega)]; omega
    have hz : (e.xpos - 15) / 30 = 0 := by omega
    simp only [correctOffset, xOffset_eq _ hw, GRID_SIZE_val, LEFT_BORDER_val, Nat.cast_ofNat,
      s1, hz]
    have s2 : toU8 ((0 : Int) * 30 + 15) = 15 := by decide
    have s3 : cdiv (((15 : Nat) : Int) - 15) 30 = 0 := by decide
    have s4 : toU8 (0 : Int) = 0 := by decide
    have s5 : toU8 ((((0 : Nat) : Int) + 1) * 30 + 15) = 45 := by decide
    have s6 : toU8 (((0 : Nat) : Int) * 30 + 15) = 15 := by decide
    simp only [s2, s3, s4, s5, s6]
    rw [if_neg (by decide)]
    unfold toU8; omega

theorem correctOffset_ypos_gen (e : Entity) (h2 : e.ypos < 65530) (hh : e.image.height ≤ 30) :
    (correctOffset e).ypos = (e.ypos - 10) / 30 * 30 + 10 + (30 - e.image.height) / 2 := by
  have s1 : cdiv ((e.ypos : Int) - 10) 30 = (((e.ypos - 10) / 30 : Nat) : Int) := by
    rw [cdiv_eq _ _ (by decide)]
    split <;> omega
  simp only [correctOffset, yOffset_eq _ hh, GRID_SIZE_val, TOP_BORDER_val, Nat.cast_ofNat, s1]
  have hc : (e.ypos - 10) / 30 ≤ 2183 := by omega
  generalize (e.ypos - 10) / 30 = c at hc ⊢
  have s2 : toU16 ((c : Int) * 30 + 10) = c * 30 + 10 := by unfold toU16; omega
  rw [s2]
  unfold toU16; omega

theorem correctOffset_eq (e : Entity) (hx : e.xpos < 255) (hy : e.ypos < 65530)
    (hw : e.image.width ≤ 30) (hh : e.image.height ≤ 30) :
    correctOffset e =
      { e with
          xpos := (e.xpos - 15) / 30 * 30 + 15 + (30 - e.image.width) / 2
          ypos := (e.ypos - 10) / 30 * 30 + 10 + (30 - e.image.height) / 2 } := by
  have h1 := correctOffset_xpos_gen e hx hw
  have h2 := correctOffset_ypos_gen e hy hh
  cases e with
  | mk isPlayer xpos ypos move direction image =>
    simp only [correctOffset] at h1 h2 ⊢
    simp only [Entity.mk.injEq, true_and, and_true]
    exact ⟨h1, h2⟩

/-- C12 (amended): for every entity whose image is at most GRID_SIZE wide and high, with
`xpos < 255` and `ypos < 65530`, applying `correctOffset` twice gives the same entity
(same `xpos`, `ypos`, image and every other field) as applying it once. -/
theorem C12_correctOffset_idempotent (entity : Entity)
    (hx : entity.xpos < 255) (hy : entity.ypos < 65530)
    (hw : entity.image.width ≤ GRID_SIZE) (hh : entity.image.height ≤ GRID_SIZE) :
    correctOffset (correctOffset entity) = correctOffset entity := by
  simp only [GRID_SIZE_val] at hw hh
  have h1 := correctOffset_eq entity hx hy hw hh
  have hxx : (correctOffset entity).xpos =
      (entity.xpos - 15) / 30 * 30 + 15 + (30 - entity.image.width) / 2 := by rw [h1]
  have hyy : (correctOffset entity).ypos =
      (entity.ypos - 10) / 30 * 30 + 10 + (30 - entity.image.height) / 2 := by rw [h1]
  have hii : (correctOffset entity).image = entity.image := rfl
  have h2 := correctOffset_eq (correctOffset entity) (by omega) (by omega) hw hh
  rw [hii] at h2
  rw [h2]
  clear h1 h2
  generalize correctOffset entity = c at hxx hyy hii ⊢
  cases c with
  | mk isPlayer xpos ypos move direction image =>
    simp only [Entity.mk.injEq, true_and, and_true]
    simp only at hxx hyy hii
    exact ⟨by omega, by omega, hii.symm⟩

theorem C12_correctOffset_idempotent_witness :
    (logRider.xpos < 255 ∧ logRider.ypos < 65530 ∧ logRider.image.width ≤ GRID_SIZE ∧
      logRider.image.height ≤ GRID_SIZE) ∧
    correctOffset (correctOffset logRider) = correctOffset logRider :=
  ⟨by decide,
   C12_correctOffset_idempotent logRider (by decide) (by decide) (by decide) (by decide)⟩

/-- C12, as stated for every entity, fails at `xpos = 255` (the first call gives 31, the
second 17, for a 26-wide image), for an image wider or taller than a grid cell (the
offset wraps in 8 bits and each call moves the entity on), and for `ypos ≥ 65530`. -/
theorem C12_counterexample :
    ((correctOffset farFrog).xpos, (correctOffset (correctOffset farFrog)).xpos) = (31, 17) ∧
    ((correctOffset bigEntity).xpos, (correctOffset (correctOffset bigEntity)).xpos) =
      (30, 0) ∧
    ((correctOffset bigEntity).ypos, (correctOffset (correctOffset bigEntity)).ypos) =
      (291, 531) ∧
    ((correctOffset highFrog).ypos, (correctOffset (correctOffset highFrog)).ypos) =
      (4, 20) := by
  decide

/-- C13 (code at the failing input): the player at `xpos = 40` lies in the cell
`[15, 45)`, 25 pixels from its left edge and 5 from its right edge, and `xOffset` of its
image is 2; `correctOffset` returns `xpos = 15 + 2`, the left edge of the enclosing cell
plus the offset, not `45 + 2`.  The comparison of lines 822-826 is made after line 811
has already replaced `xpos` by the left edge, so it never selects `rightx`. -/
theorem C13_snap_ignores_nearer_edge :
    Inside driftedFrog ∧
    LEFT_BORDER + 0 * GRID_SIZE ≤ driftedFrog.xpos ∧
    driftedFrog.xpos < LEFT_BORDER + 1 * GRID_SIZE ∧
    driftedFrog.xpos - (LEFT_BORDER + 0 * GRID_SIZE) >
      (LEFT_BORDER + 1 * GRID_SIZE) - driftedFrog.xpos ∧
    xOffset driftedFrog.image = 2 ∧
    (correctOffset driftedFrog).xpos = LEFT_BORDER + 0 * GRID_SIZE + 2 ∧
    (correctOffset driftedFrog).xpos ≠ LEFT_BORDER + 1 * GRID_SIZE + 2 := by
  decide

/-! ## The canMove latch -/

theorem updateEntity_total (P : Platform) (rnd : Nat → Nat) (k : Nat) (e : Entity) :
    ∃ r, updateEntity P rnd k e = some r := by
  unfold updateEntity
  split
  · obtain ⟨r3, h3, -⟩ := correctRight_spec P rnd k
      (stepEntity P (if e.isPlayer = true then playerSprite P e else e))
    obtain ⟨r4, h4, -⟩ := correctLeft_spec P rnd r3.2 r3.1
    dsimp only
    rw [h3]
    simp only [Option.bind_eq_bind, Option.some_bind, h4]
    exact ⟨_, rfl⟩
  · exact ⟨_, rfl⟩

theorem updatePlayer_center (P : Platform) (rnd : Nat → Nat) (k : Nat) (player : Entity)
    (canMove : Bool) (inp : TickInput) (hc : readDirection P inp = P.PS2_CENTER) :
    updatePlayer P rnd k player canMove inp = some (player, true, k) := by
  unfold updatePlayer
  simp only [hc, if_true]

theorem updatePlayer_held (P : Platform) (rnd : Nat → Nat) (k : Nat) (player : Entity)
    (inp : TickInput) (hc : readDirection P inp ≠ P.PS2_CENTER) :
    updatePlayer P rnd k player false inp = some (player, false, k) := by
  unfold updatePlayer
  simp only [hc, if_false, Bool.false_eq_true]

theorem updatePlayer_move (P : Platform) (rnd : Nat → Nat) (k : Nat) (player : Entity)
    (inp : TickInput) (hc : readDirection P inp ≠ P.PS2_CENTER) :
    updatePlayer P rnd k player true inp =
      (updateEntity P rnd k { player with direction := readDirection P inp }).map
        (fun r => (r.1, false, r.2)) := by
  unfold updatePlayer
  simp only [hc, if_false, if_true]

theorem updatePlayerSeq_held (P : Platform) (rnd : Nat → Nat) (inputs : List TickInput) :
    ∀ (k : Nat) (player : Entity),
      (∀ inp ∈ inputs, readDirection P inp ≠ P.PS2_CENTER) →
      updatePlayerSeq P rnd k player false inputs =
        some (player, false, k, List.replicate inputs.length false) := by
  induction inputs with
  | nil => intro k player _; rfl
  | cons inp rest ih =>
    intro k player hall
    have h1 := hall inp (List.mem_cons_self _ _)
    have h2 := ih k player (fun i hi => hall i (List.mem_cons_of_mem _ hi))
    simp only [updatePlayerSeq, updatePlayer_held P rnd k player inp h1, Option.bind_eq_bind,
      Option.some_bind, h2, Option.pure_def, movesPlayer, Bool.and_false, List.length_cons,
      List.replicate_succ]

/-- C17: a call of `updatePlayer` whose resolved direction is PS2_CENTER sets `canMove`
and leaves the player unchanged; any other call clears `canMove` and invokes
`updateEntity` exactly when `canMove` was set.  Hence `canMove` goes from false to true
only in a center call, and in a sequence of calls that are never center `updateEntity`
is invoked at most once, in the first call and only if `canMove` was set before it. -/
theorem C17_canMove_latch (P : Platform) (rnd : Nat → Nat) :
    (∀ k player canMove inp, readDirection P inp = P.PS2_CENTER →
      updatePlayer P rnd k player canMove inp = some (player, true, k) ∧
      movesPlayer P canMove inp = false) ∧
    (∀ k player canMove inp, readDirection P inp ≠ P.PS2_CENTER →
      movesPlayer P canMove inp = canMove ∧
      ∃ r, updatePlayer P rnd k player canMove inp = some r ∧ r.2.1 = false ∧
        (canMove = false → r = (player, false, k)) ∧
        (canMove = true →
          updateEntity P rnd k { player with direction := readDirection P inp } =
            some (r.1, r.2.2))) ∧
    (∀ k player inp r, updatePlayer P rnd k player false inp = some r → r.2.1 = true →
      readDirection P inp = P.PS2_CENTER ∧ r.1 = player) ∧
    (∀ inputs k player canMove, (∀ inp ∈ inputs, readDirection P inp ≠ P.PS2_CENTER) →
      ∃ r, updatePlayerSeq P rnd k player canMove inputs = some r ∧
        r.2.2.2.length = inputs.length ∧
        (∀ b ∈ r.2.2.2.head?, b = canMove) ∧ (∀ b ∈ r.2.2.2.tail, b = false) ∧
        r.2.2.2.count true ≤ 1 ∧ (inputs ≠ [] → r.2.1 = false)) := by
  refine ⟨?_, ?_, ?_, ?_⟩
  · intro k player canMove inp hc
    exact ⟨updatePlayer_center P rnd k player canMove inp hc, by simp [movesPlayer, hc]⟩
  · intro k player canMove inp hc
    refine ⟨by simp [movesPlayer, hc], ?_⟩
    cases canMove with
    | false =>
      exact ⟨_, updatePlayer_held P rnd k player inp hc, rfl, fun _ => rfl,
        fun h => absurd h (by decide)⟩
    | true =>
      obtain ⟨r, hr⟩ := updateEntity_total P rnd k { player with direction := readDirection P inp }
      refine ⟨(r.1, false, r.2), ?_, rfl, fun h => absurd h (by decide), fun _ => hr⟩
      rw [updatePlayer_move P rnd k player inp hc, hr]
      rfl
  · intro k player inp r h hr
    by_cases hc : readDirection P inp = P.PS2_CENTER
    · rw [updatePlayer_center P rnd k player false inp hc] at h
      exact ⟨hc, by rw [← Option.some.inj h]⟩
    · rw [updatePlayer_held P rnd k player inp hc] at h
      rw [← Option.some.inj h] at hr
      exact absurd hr Bool.false_ne_true
  · intro inputs k player canMove hall
    cases inputs with
    | nil => exact ⟨_, rfl, rfl, by simp, by simp, by simp, fun h => absurd rfl h⟩
    | cons inp rest =>
      have h1 := hall inp (List.mem_cons_self _ _)
      have hrest : ∀ i ∈ rest, readDirection P i ≠ P.PS2_CENTER :=
        fun i hi => hall i (List.mem_cons_of_mem _ hi)
      have hm : movesPlayer P canMove inp = canMove := by simp [movesPlayer, h1]
      have hfirst : ∃ p k', updatePlayer P rnd k player canMove inp = some (p, false, k') := by
        cases canMove with
        | false => exact ⟨_, _, updatePlayer_held P rnd k player inp h1⟩
        | true =>
          obtain ⟨r, hr⟩ :=
            updateEntity_total P rnd k { player with direction := readDirection P inp }
          exact ⟨r.1, r.2, by rw [updatePlayer_move P rnd k player inp h1, hr]; rfl⟩
      obtain ⟨p, k', hp⟩ := hfirst
      have hseq := updatePlayerSeq_held P rnd rest k' p hrest
      refine ⟨(p, false, k', canMove :: List.replicate rest.length false), ?_, ?_, ?_, ?_, ?_,
        fun _ => rfl⟩
      · simp only [updatePlayerSeq, hp, Option.bind_eq_bind, Option.some_bind, hseq,
          Option.pure_def, hm]
      · simp
      · simp
      · intro b hb
        simp only [List.tail_cons] at hb
        exact List.eq_of_mem_replicate hb
      · simp only [List.count_cons, List.count_replicate]
        cases canMove <;> simp

theorem C17_canMove_latch_witness :
    (readDirection board pushUp ≠ board.PS2_CENTER ∧
      ∀ inp ∈ [pushUp, pushUp, pushUp], readDirection board inp ≠ board.PS2_CENTER) ∧
    ∃ r, updatePlayerSeq board (fun _ => 0) 0 startGame.frog true [pushUp, pushUp, pushUp] =
        some r ∧
      r.2.2.2.length = 3 ∧ (∀ b ∈ r.2.2.2.head?, b = true) ∧
      (∀ b ∈ r.2.2.2.tail, b = false) ∧ r.2.2.2.count true ≤ 1 ∧
      ([pushUp, pushUp, pushUp] ≠ [] → r.2.1 = false) :=
  ⟨by decide,
   (C17_canMove_latch board (fun _ => 0)).2.2.2 [pushUp, pushUp, pushUp] 0 startGame.frog true
     (by decide)⟩

/-! ## The ready handshake -/

theorem readyPoll_mono (s : ReadyState) (inp : ReadyInput) : ReadyMono s (readyPoll s inp).1 := by
  unfold ReadyMono readyPoll
  constructor
  · intro h
    simp [h]
  · intro h
    cases hi : inp.inbound <;> simp [h]

theorem readyPoll_sent (s : ReadyState) (inp : ReadyInput) :
    ((readyPoll s inp).2 = [] ∨
      ((readyPoll s inp).2 = [UP_BUTTON] ∧ s.localReady = false ∧
        (readyPoll s inp).1.localReady = true)) ∧
    (s.localReady = true → (readyPoll s inp).2 = []) := by
  unfold readyPoll
  cases h1 : inp.btnUp <;> cases h2 : s.localReady <;> simp

theorem awaiting_false (s : ReadyState) (h : awaiting s = false) :
    s.localReady = true ∧ s.remoteReady = true := by
  unfold awaiting at h
  cases hl : s.localReady <;> cases hr : s.remoteReady <;> rw [hl, hr] at h <;>
    first | exact ⟨rfl, rfl⟩ | exact absurd h (by decide)

theorem awaiting_true (s : ReadyState) (h : awaiting s = true) :
    (s.localReady && s.remoteReady) = false := by
  unfold awaiting at h
  cases hl : s.localReady <;> cases hr : s.remoteReady <;> rw [hl, hr] at h <;>
    first | rfl | exact absurd h (by decide)

theorem readyLoop_sent (inputs : List ReadyInput) :
    ∀ s : ReadyState,
      ((readyLoop s inputs).map Prod.snd).flatten.count UP_BUTTON ≤
        (if s.localReady then 0 else 1) ∧
      ∀ w ∈ ((readyLoop s inputs).map Prod.snd).flatten, w = UP_BUTTON := by
  induction inputs with
  | nil => intro s; simp [readyLoop]
  | cons inp rest ih =>
    intro s
    unfold readyLoop
    split
    · obtain ⟨hs, hs2⟩ := readyPoll_sent s inp
      obtain ⟨ih1, ih2⟩ := ih (readyPoll s inp).1
      simp only [List.map_cons, List.flatten_cons, List.count_append, List.mem_append]
      rcases hs with h | ⟨h, hl, hl'⟩
      · rw [h]
        refine ⟨?_, ?_⟩
        · have hm := (readyPoll_mono s inp).1
          simp only [List.count_nil, Nat.zero_add]
          cases hsl : s.localReady
          · refine le_trans ih1 ?_
            split <;> simp
          · rw [hm hsl] at ih1
            simpa using ih1
        · intro w hw
          rcases hw with hw | hw
          · exact absurd hw (List.not_mem_nil _)
          · exact ih2 w hw
      · rw [h, hl]
        have ih1' : ((readyLoop (readyPoll s inp).1 rest).map Prod.snd).flatten.count
            UP_BUTTON = 0 := by
          rw [hl'] at ih1
          simpa using ih1
        refine ⟨?_, ?_⟩
        · rw [ih1']
          simp
        · intro w hw
          rcases hw with hw | hw
          · exact List.mem_singleton.mp hw
          · exact ih2 w hw
    · simp

theorem readyLoop_chain (inputs : List ReadyInput) :
    ∀ s : ReadyState, List.Chain ReadyMono s ((readyLoop s inputs).map Prod.fst) := by
  induction inputs with
  | nil => intro s; simp [readyLoop]
  | cons inp rest ih =>
    intro s
    unfold readyLoop
    split
    · simp only [List.map_cons, List.chain_cons]
      exact ⟨readyPoll_mono s inp, ih _⟩
    · simp

theorem readyLoop_exit (inputs : List ReadyInput) :
    ∀ s : ReadyState,
      (∀ pre a b post, readyLoop s inputs = pre ++ a :: b :: post → awaiting a.1 = true) ∧
      ((readyLoop s inputs).length = inputs.length ∨
        awaiting (readyFinal s (readyLoop s inputs)) = false) := by
  induction inputs with
  | nil => intro s; simp [readyLoop]
  | cons inp rest ih =>
    intro s
    obtain ⟨ih1, ih2⟩ := ih (readyPoll s inp).1
    unfold readyLoop
    split
    · refine ⟨?_, ?_⟩
      · intro pre a b post heq
        cases pre with
        | nil =>
          simp only [List.nil_append, List.cons.injEq] at heq
          obtain ⟨ha, hrest⟩ := heq
          subst ha
          cases rest with
          | nil => simp [readyLoop] at hrest
          | cons i2 r2 =>
            unfold readyLoop at hrest
            split at hrest
            · assumption
            · exact absurd hrest (by simp)
        | cons p pre' =>
          simp only [List.cons_append, List.cons.injEq] at heq
          exact ih1 pre' a b post heq.2
      · rcases ih2 with h | h
        · left; simp [h]
        · right
          unfold readyFinal at h ⊢
          cases hl : readyLoop (readyPoll s inp).1 rest with
          | nil =>
            rw [hl] at h
            simpa using h
          | cons x xs =>
            rw [hl] at h
            simpa [List.getLast?_cons_cons] using h
    · rename_i hg
      refine ⟨by simp, Or.inr ?_⟩
      simpa [readyFinal] using hg

/-- C20: on every sequence of inputs and from every state of the flags, the ready loop
sends no word but UP_BUTTON and sends it at most once (never if `localReady` is already
set), `localReady` and `remoteReady` never go from true back to false, every executed
pass but the last leaves the guard true, and the loop stops before the inputs are used
up only in a state with both flags true: it is left exactly at the first pass after
which both flags are true. -/
theorem C20_ready_loop (s : ReadyState) (inputs : List ReadyInput) :
    ((readyLoop s inputs).map Prod.snd).flatten.count UP_BUTTON ≤ 1 ∧
    (∀ w ∈ ((readyLoop s inputs).map Prod.snd).flatten, w = UP_BUTTON) ∧
    List.Chain ReadyMono s ((readyLoop s inputs).map Prod.fst) ∧
    (∀ pre a b post, readyLoop s inputs = pre ++ a :: b :: post →
      (a.1.localReady && a.1.remoteReady) = false) ∧
    ((readyLoop s inputs).length < inputs.length →
      (readyFinal s (readyLoop s inputs)).localReady = true ∧
      (readyFinal s (readyLoop s inputs)).remoteReady = true) := by
  obtain ⟨h1, h2⟩ := readyLoop_sent inputs s
  obtain ⟨h3, h4⟩ := readyLoop_exit inputs s
  refine ⟨le_trans h1 (by split <;> simp), h2, readyLoop_chain inputs s, ?_, ?_⟩
  · intro pre a b post heq
    exact awaiting_true _ (h3 pre a b post heq)
  · intro hlt
    rcases h4 with h | h
    · omega
    · exact awaiting_false _ h

theorem C20_ready_loop_witness :
    (readyLoop (readyStart 0) readyInputs).length < readyInputs.length ∧
    (readyFinal (readyStart 0) (readyLoop (readyStart 0) readyInputs)).localReady = true ∧
    (readyFinal (readyStart 0) (readyLoop (readyStart 0) readyInputs)).remoteReady = true :=
  ⟨by decide, (C20_ready_loop (readyStart 0) readyInputs).2.2.2.2 (by decide)⟩

/-! ## Grid alignment after a move -/

theorem spriteFor_cases (P : Platform) (hP : P.DirCodes) (d : Nat) (im : Image) :
    (d = P.PS2_RIGHT → spriteFor P d im = P.FROG_IMAGE_RIGHT) ∧
    (d = P.PS2_UP → spriteFor P d im = P.FROG_IMAGE_UP) ∧
    (d = P.PS2_LEFT → spriteFor P d im = P.FROG_IMAGE_LEFT) ∧
    (d = P.PS2_DOWN → spriteFor P d im = P.FROG_IMAGE_DOWN) ∧
    (d ≠ P.PS2_RIGHT → d ≠ P.PS2_UP → d ≠ P.PS2_LEFT → d ≠ P.PS2_DOWN →
      spriteFor P d im = im) := by
  obtain ⟨⟨d1, d2, d3, d4, d5, d6⟩, -⟩ := hP
  unfold spriteFor
  refine ⟨?_, ?_, ?_, ?_, ?_⟩
  · intro h; rw [if_pos h]
  · intro h; rw [if_neg (fun h' => d1 (h'.symm.trans h)), if_pos h]
  · intro h
    rw [if_neg (fun h' => d2 (h'.symm.trans h)), if_neg (fun h' => d4 (h'.symm.trans h)),
      if_pos h]
  · intro h
    rw [if_neg (fun h' => d3 (h'.symm.trans h)), if_neg (fun h' => d5 (h'.symm.trans h)),
      if_neg (fun h' => d6 (h'.symm.trans h)), if_pos h]
  · intro h1 h2 h3 h4
    rw [if_neg h1, if_neg h2, if_neg h3, if_neg h4]

theorem isValidMove_player (P : Platform) (hP : P.DirCodes) (e : Entity)
    (hpl : e.isPlayer = true) (hv : isValidMove P e e.direction = true) :
    (e.direction = P.PS2_RIGHT → e.xpos + e.image.width + e.move ≤ 225) ∧
    (e.direction = P.PS2_UP → 10 + e.move ≤ e.ypos) ∧
    (e.direction = P.PS2_LEFT → 15 + e.move ≤ e.xpos) ∧
    (e.direction = P.PS2_DOWN → e.ypos + e.image.height + e.move ≤ 310) := by
  obtain ⟨⟨d1, d2, d3, d4, d5, d6⟩, -⟩ := hP
  unfold isValidMove at hv
  simp only [hpl, Bool.not_true, Bool.false_eq_true, if_false, RIGHT_BORDER_val,
    LEFT_BORDER_val, TOP_BORDER_val, BOTTOM_BORDER_val, Nat.cast_ofNat] at hv
  refine ⟨?_, ?_, ?_, ?_⟩
  · intro h
    rw [if_pos h] at hv
    by_contra hc
    rw [if_pos (by omega)] at hv
    exact absurd hv (by decide)
  · intro h
    rw [if_neg (fun h' => d1 (h'.symm.trans h)), if_pos h] at hv
    by_contra hc
    rw [if_pos (by omega)] at hv
    exact absurd hv (by decide)
  · intro h
    rw [if_neg (fun h' => d2 (h'.symm.trans h)), if_neg (fun h' => d4 (h'.symm.trans h)),
      if_pos h] at hv
    by_contra hc
    rw [if_pos (by omega)] at hv
    exact absurd hv (by decide)
  · intro h
    rw [if_neg (fun h' => d3 (h'.symm.trans h)), if_neg (fun h' => d5 (h'.symm.trans h)),
      if_neg (fun h' => d6 (h'.symm.trans h)), if_pos h] at hv
    by_contra hc
    rw [if_pos (by omega)] at hv
    exact absurd hv (by decide)

theorem corrections_idle (P : Platform) (rnd : Nat → Nat) (k : Nat) (e : Entity)
    (h1 : ¬ (e.direction = P.PS2_RIGHT ∧ e.xpos + e.image.width ≥ 225))
    (h2 : ¬ (e.direction = P.PS2_LEFT ∧ e.xpos ≤ 15)) :
    correctRight P rnd k e = some (e, k) ∧ correctLeft P rnd k e = some (e, k) := by
  constructor
  · unfold correctRight
    rw [if_neg]
    intro h
    apply h1
    refine ⟨h.1, ?_⟩
    have := h.2
    simp only [RIGHT_BORDER_val] at this
    omega
  · unfold correctLeft
    rw [if_neg]
    intro h
    apply h2
    refine ⟨h.1, ?_⟩
    have := h.2
    simp only [LEFT_BORDER_val] at this
    omega

theorem spriteFor_fits (P : Platform) (hP : P.DirCodes) (hfit : SpritesFit P) (d : Nat)
    (im : Image)
    (hdir : d = P.PS2_RIGHT ∨ d = P.PS2_UP ∨ d = P.PS2_LEFT ∨ d = P.PS2_DOWN) :
    (spriteFor P d im).width ≤ 30 ∧ (spriteFor P d im).height ≤ 30 := by
  obtain ⟨sR, sU, sL, sD, -⟩ := spriteFor_cases P hP d im
  obtain ⟨fR, fU, fL, fD⟩ := hfit
  simp only [GRID_SIZE_val] at fR fU fL fD
  rcases hdir with h | h | h | h
  · rw [sR h]; exact fR
  · rw [sU h]; exact fU
  · rw [sL h]; exact fL
  · rw [sD h]; exact fD

theorem player_step_cell (P : Platform) (hP : P.DirCodes) (hfit : SpritesFit P)
    (entity : Entity) (hpl : entity.isPlayer = true) (hmove : entity.move = GRID_SIZE)
    (hin : Inside entity) (hsz : 1 ≤ entity.image.width ∧ 1 ≤ entity.image.height)
    (hdir : entity.direction = P.PS2_RIGHT ∨ entity.direction = P.PS2_UP ∨
      entity.direction = P.PS2_LEFT ∨ entity.direction = P.PS2_DOWN)
    (hv : isValidMove P entity entity.direction = true)
    (hco : 100 ≤ entity.ypos ∨ entity.direction = P.PS2_RIGHT ∨
      entity.direction = P.PS2_LEFT) :
    ∃ c r : Nat, c < 7 ∧ r < 10 ∧
      (stepEntity P (playerSprite P entity)).xpos =
        30 * c + 15 + (30 - (spriteFor P entity.direction entity.image).width) / 2 ∧
      (stepEntity P (playerSprite P entity)).ypos =
        30 * r + 10 + (30 - (spriteFor P entity.direction entity.image).height) / 2 ∧
      (stepEntity P (playerSprite P entity)).image =
        spriteFor P entity.direction entity.image ∧
      (stepEntity P (playerSprite P entity)).direction = entity.direction ∧
      (entity.direction = P.PS2_RIGHT →
        c = (entity.xpos - 15) / 30 + 1 ∧ r = (entity.ypos - 10) / 30) ∧
      (entity.direction = P.PS2_UP →
        c = (entity.xpos - 15) / 30 ∧ r + 1 = (entity.ypos - 10) / 30) ∧
      (entity.direction = P.PS2_LEFT →
        c + 1 = (entity.xpos - 15) / 30 ∧ r = (entity.ypos - 10) / 30) ∧
      (entity.direction = P.PS2_DOWN →
        c = (entity.xpos - 15) / 30 ∧ r = (entity.ypos - 10) / 30 + 1) := by
  obtain ⟨hSw, hSh⟩ := spriteFor_fits P hP hfit entity.direction entity.image hdir
  obtain ⟨vR, vU, vL, vD⟩ := isValidMove_player P hP entity hpl hv
  obtain ⟨i1, i2, i3, i4⟩ := hin
  obtain ⟨z1, z2⟩ := hsz
  simp only [GRID_SIZE_val, LEFT_BORDER_val, RIGHT_BORDER_val, TOP_BORDER_val,
    BOTTOM_BORDER_val] at i1 i2 i3 i4 hmove
  rw [hmove] at vR vU vL vD
  have hc0 : (entity.xpos - 15) / 30 ≤ 6 := by omega
  have hr0 : (entity.ypos - 10) / 30 ≤ 9 := by omega
  have hc1 : (entity.xpos - 15) / 30 * 30 + 15 ≤ entity.xpos := by omega
  have hr1 : (entity.ypos - 10) / 30 * 30 + 10 ≤ entity.ypos := by omega
  have hc2 : entity.xpos < (entity.xpos - 15) / 30 * 30 + 45 := by omega
  have hr2 : entity.ypos < (entity.ypos - 10) / 30 * 30 + 40 := by omega
  have hxo : (30 - (spriteFor P entity.direction entity.image).width) / 2 ≤ 15 := by omega
  have hyo : (30 - (spriteFor P entity.direction entity.image).height) / 2 ≤ 15 := by omega
  have hxlt : entity.xpos < 255 := by omega
  have hylt : entity.ypos < 65530 := by omega
  have hps := playerSprite_eq P entity
  rw [if_pos hco] at hps
  obtain ⟨-, hpm, hpd, hpi⟩ := playerSprite_fields P entity
  have hx1 : (playerSprite P entity).xpos = (entity.xpos - 15) / 30 * 30 + 15 +
      (30 - (spriteFor P entity.direction entity.image).width) / 2 := by
    rw [hps]
    exact correctOffset_xpos_gen
      { entity with image := spriteFor P entity.direction entity.image } hxlt hSw
  have hy1 : (playerSprite P entity).ypos = (entity.ypos - 10) / 30 * 30 + 10 +
      (30 - (spriteFor P entity.direction entity.image).height) / 2 := by
    rw [hps]
    exact correctOffset_ypos_gen
      { entity with image := spriteFor P entity.direction entity.image } hylt hSh
  obtain ⟨hsi, -, hsd, -, hsR, hsU, hsL, hsD⟩ := stepEntity_spec P hP (playerSprite P entity)
  rw [hpd] at hsR hsU hsL hsD hsd
  rw [hpm, hmove] at hsR hsU hsL hsD
  rw [hsi, hpi, hsd]
  obtain ⟨⟨d1, d2, d3, d4, d5, d6⟩, -⟩ := hP
  clear hps hsi hpi hpm hpd hsd hv hco hfit
  generalize (entity.xpos - 15) / 30 = c0 at *
  generalize (entity.ypos - 10) / 30 = r0 at *
  generalize (30 - (spriteFor P entity.direction entity.image).width) / 2 = xo at *
  generalize (30 - (spriteFor P entity.direction entity.image).height) / 2 = yo at *
  rcases hdir with hd | hd | hd | hd
  · obtain ⟨hx2, hy2⟩ := hsR hd
    have hvv := vR hd
    have hb : (playerSprite P entity).xpos + 30 < 256 := by omega
    rw [hx2, hy2, toU8_add _ 30 hb, hx1, hy1]
    refine ⟨c0 + 1, r0, by omega, by omega, by omega, by omega, rfl, rfl,
      fun _ => ⟨rfl, rfl⟩, fun h => absurd (hd.symm.trans h) d1,
      fun h => absurd (hd.symm.trans h) d2, fun h => absurd (hd.symm.trans h) d3⟩
  · obtain ⟨hx2, hy2⟩ := hsU hd
    have hvv := vU hd
    have hb : 30 ≤ (playerSprite P entity).ypos ∧ (playerSprite P entity).ypos < 65536 := by
      omega
    rw [hx2, hy2, toU16_sub _ 30 hb.1 hb.2, hx1, hy1]
    refine ⟨c0, r0 - 1, by omega, by omega, by omega, by omega, rfl, rfl,
      fun h => absurd (h.symm.trans hd) d1, fun _ => ⟨rfl, by omega⟩,
      fun h => absurd (hd.symm.trans h) d4, fun h => absurd (hd.symm.trans h) d5⟩
  · obtain ⟨hx2, hy2⟩ := hsL hd
    have hvv := vL hd
    have hb : 30 ≤ (playerSprite P entity).xpos ∧ (playerSprite P entity).xpos < 256 := by
      omega
    rw [hx2, hy2, toU8_sub _ 30 hb.1 hb.2, hx1, hy1]
    refine ⟨c0 - 1, r0, by omega, by omega, by omega, by omega, rfl, rfl,
      fun h => absurd (h.symm.trans hd) d2, fun h => absurd (h.symm.trans hd) d4,
      fun _ => ⟨by omega, rfl⟩, fun h => absurd (hd.symm.trans h) d6⟩
  · obtain ⟨hx2, hy2⟩ := hsD hd
    have hvv := vD hd
    have hb : (playerSprite P entity).ypos + 30 < 65536 := by omega
    rw [hx2, hy2, toU16_add _ 30 hb, hx1, hy1]
    refine ⟨c0, r0 + 1, by omega, by omega, by omega, by omega, rfl, rfl,
      fun h => absurd (h.symm.trans hd) d3, fun h => absurd (h.symm.trans hd) d5,
      fun h => absurd (h.symm.trans hd) d6, fun _ => ⟨rfl, rfl⟩⟩

theorem gridAligned_correctBackgroundImage (P : Platform) (e : Entity) :
    GridAligned (correctBackgroundImage P e) ↔ GridAligned e := Iff.rfl

/-- C14 (amended): a player entity with `move = GRID_SIZE` and a non-empty image inside the
playfield, on a board whose frog sprites are at least 2 pixels narrower than a grid cell
and at most as high, is grid-aligned after `updateEntity` for the image it then carries,
for every direction for which `isValidMove` holds and for which `updateEntity` applies
`correctOffset`: a left or right move, or any move made at
`ypos ≥ TOP_BORDER + GRID_SIZE * WATER_ROWS`. -/
theorem C14_player_aligned_after_move (P : Platform) (hP : P.DirCodes)
    (hnar : SpritesNarrow P) (rnd : Nat → Nat) (k : Nat) (entity : Entity)
    (hpl : entity.isPlayer = true) (hmove : entity.move = GRID_SIZE) (hin : Inside entity)
    (hsz : 1 ≤ entity.image.width ∧ 1 ≤ entity.image.height)
    (hdir : entity.direction = P.PS2_RIGHT ∨ entity.direction = P.PS2_UP ∨
      entity.direction = P.PS2_LEFT ∨ entity.direction = P.PS2_DOWN)
    (hv : isValidMove P entity entity.direction = true)
    (hco : TOP_BORDER + GRID_SIZE * WATER_ROWS ≤ entity.ypos ∨
      entity.direction = P.PS2_RIGHT ∨ entity.direction = P.PS2_LEFT) :
    ∃ e' k', updateEntity P rnd k entity = some (e', k') ∧ GridAligned e' := by
  have hfit : SpritesFit P := by
    obtain ⟨⟨a1, a2⟩, ⟨b1, b2⟩, ⟨c1, c2⟩, ⟨e1, e2⟩⟩ := hnar
    exact ⟨⟨by omega, a2⟩, ⟨by omega, b2⟩, ⟨by omega, c2⟩, ⟨by omega, e2⟩⟩
  have hSn : (spriteFor P entity.direction entity.image).width + 2 ≤ 30 := by
    obtain ⟨sR, sU, sL, sD, -⟩ := spriteFor_cases P hP entity.direction entity.image
    obtain ⟨⟨a1, -⟩, ⟨b1, -⟩, ⟨c1, -⟩, ⟨e1, -⟩⟩ := hnar
    simp only [GRID_SIZE_val] at a1 b1 c1 e1
    rcases hdir with h | h | h | h
    · rw [sR h]; exact a1
    · rw [sU h]; exact b1
    · rw [sL h]; exact c1
    · rw [sD h]; exact e1
  obtain ⟨-, hSh⟩ := spriteFor_fits P hP hfit entity.direction entity.image hdir
  have hco' : 100 ≤ entity.ypos ∨ entity.direction = P.PS2_RIGHT ∨
      entity.direction = P.PS2_LEFT := by
    simp only [TOP_BORDER_val, GRID_SIZE_val, WATER_ROWS_val] at hco
    rcases hco with h | h | h
    · exact Or.inl (by omega)
    · exact Or.inr (Or.inl h)
    · exact Or.inr (Or.inr h)
  obtain ⟨c, r, hc, hr, hx, hy, hi, hd, -⟩ :=
    player_step_cell P hP hfit entity hpl hmove hin hsz hdir hv hco'
  have hxo := xOffset_eq (spriteFor P entity.direction entity.image) (by omega)
  have hyo := yOffset_eq (spriteFor P entity.direction entity.image) hSh
  have hidle := corrections_idle P rnd k (stepEntity P (playerSprite P entity))
    (by rw [hx, hi]; intro h; have := h.2; omega)
    (by rw [hx]; intro h; have := h.2; omega)
  refine ⟨_, _, updateEntity_player P rnd k entity hpl hv _ _ hidle.1 hidle.2, ?_⟩
  rw [gridAligned_correctBackgroundImage]
  unfold GridAligned
  rw [hx, hy, hi, hxo, hyo]
  simp only [GRID_WIDTH_val, GRID_HEIGHT_val, LEFT_BORDER_val, TOP_BORDER_val, GRID_SIZE_val]
  exact ⟨⟨c, hc, by omega⟩, ⟨r, hr, by omega⟩⟩

theorem C14_player_aligned_after_move_witness :
    (board.DirCodes ∧ SpritesNarrow board ∧ roadFrog.isPlayer = true ∧
      roadFrog.move = GRID_SIZE ∧ Inside roadFrog ∧
      (1 ≤ roadFrog.image.width ∧ 1 ≤ roadFrog.image.height) ∧
      roadFrog.direction = board.PS2_UP ∧
      isValidMove board roadFrog roadFrog.direction = true ∧
      TOP_BORDER + GRID_SIZE * WATER_ROWS ≤ roadFrog.ypos) ∧
    ∃ e' k', updateEntity board (fun _ => 0) 0 roadFrog = some (e', k') ∧ GridAligned e' :=
  ⟨by decide,
   C14_player_aligned_after_move board (by decide) (by decide) (fun _ => 0) 0 roadFrog rfl rfl
     (by decide) (by decide) (by decide) (by decide) (by decide)⟩

/-- C14, as stated, fails in four ways.  A player riding in water row 2 that moves up keeps
its `xpos = 204` and lands at `ypos = 42`, neither of them a cell edge plus the offset of
the up sprite, because `correctOffset` is skipped there.  On a board whose right sprite is
30 wide a move into the last column reaches RIGHT_BORDER and the wrap correction puts the
player at `xpos = 16`.  A player record with speed 7 moves 7 pixels off its row.  A
player record with an empty image on the right border is snapped to column 7, which is
not a column of the grid. -/
theorem C14_counterexample :
    (logRider.isPlayer = true ∧ Inside logRider ∧
      isValidMove board logRider logRider.direction = true ∧
      (updateEntity board (fun _ => 0) 0 logRider).map
        (fun r => (r.1.xpos, r.1.ypos, xOffset r.1.image, yOffset r.1.image,
          decide (GridAligned r.1))) = some (204, 42, 2, 5, false)) ∧
    (columnFiveFrog.isPlayer = true ∧ Inside columnFiveFrog ∧
      isValidMove fullWidthBoard columnFiveFrog columnFiveFrog.direction = true ∧
      (updateEntity fullWidthBoard (fun _ => 0) 0 columnFiveFrog).map
        (fun r => (r.1.xpos, xOffset r.1.image, decide (GridAligned r.1))) =
        some (16, 0, false)) ∧
    (slowFrog.isPlayer = true ∧ Inside slowFrog ∧
      isValidMove board slowFrog slowFrog.direction = true ∧
      (updateEntity board (fun _ => 0) 0 slowFrog).map
        (fun r => (r.1.ypos, yOffset r.1.image, decide (GridAligned r.1))) =
        some (158, 5, false)) ∧
    (emptyFrog.isPlayer = true ∧ Inside emptyFrog ∧
      isValidMove board emptyFrog emptyFrog.direction = true ∧
      (updateEntity board (fun _ => 0) 0 emptyFrog).map
        (fun r => (r.1.xpos, xOffset r.1.image, decide (GridAligned r.1))) =
        some (227, 2, false)) := by
  decide

/-! ## Hazard speeds -/

theorem randRange_some (start stop r : Nat) (hlt : start < stop) (h8 : stop < 256) :
    randRange start stop r = some (start + r % (stop - start)) ∧
    start ≤ start + r % (stop - start) ∧ start + r % (stop - start) < stop := by
  have hrange : toU8 ((stop : Int) - start) = stop - start := by unfold toU8; omega
  have hmod : r % (stop - start) < stop - start := Nat.mod_lt _ (by omega)
  refine ⟨?_, by omega, by omega⟩
  unfold randRange
  simp only [hrange]
  rw [if_neg (by omega)]
  congr 1
  generalize r % (stop - start) = m at hmod
  unfold toU8
  omega

theorem randImage_some (P : Platform) (hP : P.ImagesComplete) (r : Nat) :
    ∃ im, randImage P r = some im ∧ im ∈ P.ENTITY_IMAGES := by
  unfold randImage
  rw [(randRange_some 1 100 r (by decide) (by decide)).1]
  simp only [Option.some_bind]
  have hlt : (1 + r % (100 - 1)) % NUM_ENTITY_IMAGES < P.ENTITY_IMAGES.length := by
    rw [hP]; exact Nat.mod_lt _ (by decide)
  exact ⟨_, List.getElem?_eq_getElem hlt, List.getElem_mem _⟩

theorem rowSetup_some (P : Platform) (hP : P.ImagesComplete) (rnd : Nat → Nat) (i k : Nat) :
    ∃ s, rowSetup P rnd i k = some s ∧ 1 ≤ s.2.2.2.2.1 ∧ s.2.2.2.2.1 ≤ 2 ∧
      (i < WATER_ROWS → s.2.2.1 = P.LOG_IMAGE) ∧
      (WATER_ROWS ≤ i → s.2.2.1 ∈ P.ENTITY_IMAGES) := by
  unfold rowSetup
  rw [(randRange_some LEFT_BORDER RIGHT_BORDER (rnd k) (by decide) (by decide)).1,
    (randRange_some 1 100 (rnd (k + 1)) (by decide) (by decide)).1]
  simp only [Option.some_bind]
  by_cases hi : i < WATER_ROWS
  · rw [if_pos hi]
    obtain ⟨h1, h2, h3⟩ :=
      randRange_some LOG_MIN_MOVE (LOG_MAX_MOVE + 1) (rnd (k + 2)) (by decide) (by decide)
    rw [h1]
    simp only [LOG_MIN_MOVE_val, LOG_MAX_MOVE_val] at h2 h3
    exact ⟨_, rfl, h2, by simp only [LOG_MIN_MOVE_val, LOG_MAX_MOVE_val]; omega,
      fun _ => rfl, fun h => absurd hi (by omega)⟩
  · rw [if_neg hi]
    obtain ⟨im, him, hmem⟩ := randImage_some P hP (rnd (k + 2))
    rw [him]
    simp only [Option.some_bind]
    obtain ⟨h1, h2, h3⟩ :=
      randRange_some CAR_MIN_MOVE (CAR_MAX_MOVE + 1) (rnd (k + 3)) (by decide) (by decide)
    rw [h1]
    have e1 : CAR_MIN_MOVE = 1 := rfl
    have e2 : CAR_MAX_MOVE = 2 := rfl
    simp only [e1, e2] at h2 h3 ⊢
    have h4 : 1 + rnd (k + 3) % (2 + 1 - 1) ≤ 2 := by omega
    exact ⟨_, rfl, h2, h4, fun h => absurd h hi, fun _ => hmem⟩

theorem rowCount_eq (i : Nat) : rowCount i = 1 := by
  unfold rowCount; split <;> rfl

theorem fillRow_spec (P : Platform) (hP : P.ImagesComplete) (rnd : Nat → Nat) (i : Nat)
    (st : Table × Nat) :
    ∃ st' e, fillRow P rnd i st = some st' ∧ st'.1 = st.1.write i 0 e ∧
      e.isPlayer = false ∧ 1 ≤ e.move ∧ e.move ≤ 2 ∧
      e.ypos = toU16 (((i : Int) + 1) * GRID_SIZE + TOP_BORDER + yOffset e.image) ∧
      (e.direction = P.PS2_RIGHT % 256 ∨ e.direction = P.PS2_LEFT % 256) ∧
      (i < WATER_ROWS → e.image = P.LOG_IMAGE) ∧
      (WATER_ROWS ≤ i → e.image ∈ P.ENTITY_IMAGES) := by
  obtain ⟨s, hs, h1, h2, h3, h4⟩ := rowSetup_some P hP rnd i st.2
  unfold fillRow
  rw [hs, rowCount_eq]
  simp only [Option.map_some', List.range_succ, List.range_zero, List.nil_append,
    List.foldl_cons, List.foldl_nil]
  refine ⟨_, _, rfl, rfl, rfl, ?_, ?_, rfl, ?_, h3, h4⟩
  · show 1 ≤ s.2.2.2.2.1 % 256
    omega
  · show s.2.2.2.2.1 % 256 ≤ 2
    omega
  · show s.2.1 % 256 = _ ∨ s.2.1 % 256 = _
    have hd : s.2.1 = P.PS2_RIGHT % 256 ∨ s.2.1 = P.PS2_LEFT % 256 := by
      unfold rowSetup at hs
      rw [(randRange_some LEFT_BORDER RIGHT_BORDER (rnd st.2) (by decide) (by decide)).1,
        (randRange_some 1 100 (rnd (st.2 + 1)) (by decide) (by decide)).1] at hs
      simp only [Option.some_bind] at hs
      split at hs
      · simp only [Option.map_eq_some'] at hs
        obtain ⟨m, -, hm⟩ := hs
        rw [← hm]
        show (if _ then _ else _) % 256 = _ ∨ (if _ then _ else _) % 256 = _
        split <;> simp
      · simp only [Option.bind_eq_some, Option.map_eq_some'] at hs
        obtain ⟨im, -, m, -, hm⟩ := hs
        rw [← hm]
        show (if _ then _ else _) % 256 = _ ∨ (if _ then _ else _) % 256 = _
        split <;> simp
    rcases hd with h | h
    · left; rw [h]; omega
    · right; rw [h]; omega

theorem stepEntity_keeps (P : Platform) (e : Entity) :
    (stepEntity P e).image = e.image ∧ (stepEntity P e).direction = e.direction ∧
    (stepEntity P e).move = e.move := by
  unfold stepEntity
  refine ⟨by split_ifs <;> rfl, by split_ifs <;> rfl, by split_ifs <;> rfl⟩

theorem updateEntity_hazard_keeps (P : Platform) (rnd : Nat → Nat) (k : Nat) (e : Entity)
    (hnp : e.isPlayer = false) :
    ∃ r, updateEntity P rnd k e = some r ∧ r.1.isPlayer = false ∧ r.1.image = e.image ∧
      (r.1.move = e.move ∨ ∃ n, r.1.move = rnd n % 2 + 1) ∧
      (r.1.direction = e.direction ∨ r.1.direction = P.PS2_LEFT % 256 ∨
        r.1.direction = P.PS2_RIGHT % 256) := by
  obtain ⟨s1, s2, s3⟩ := stepEntity_keeps P e
  have s0 := stepEntity_isPlayer P e
  obtain ⟨r3, h3, i3, -, p3, c3⟩ := correctRight_spec P rnd k (stepEntity P e)
  obtain ⟨r4, h4, i4, -, p4, c4⟩ := correctLeft_spec P rnd r3.2 r3.1
  rw [updateEntity_hazard P rnd k e hnp, h3]
  refine ⟨r4, h4, by rw [p4, p3, s0, hnp], by rw [i4, i3, s1], ?_, ?_⟩
  · have m3 : r3.1.move = e.move ∨ ∃ n, r3.1.move = rnd n % 2 + 1 := by
      rcases c3 with ⟨-, -, m, -⟩ | ⟨-, -, ⟨-, -, m, -⟩ | ⟨-, -, m, -⟩⟩
      · exact Or.inl (m.trans s3)
      · exact Or.inr ⟨_, m⟩
      · exact Or.inl (m.trans s3)
    rcases c4 with ⟨-, -, m, -⟩ | ⟨-, -, ⟨-, -, m, -⟩ | ⟨-, -, m, -⟩⟩
    · rw [m]; exact m3
    · exact Or.inr ⟨_, m⟩
    · rw [m]; exact m3
  · have d3 : r3.1.direction = e.direction ∨ r3.1.direction = P.PS2_LEFT % 256 := by
      rcases c3 with ⟨-, d, -⟩ | ⟨-, -, ⟨-, d, -⟩ | ⟨-, d, -⟩⟩
      · exact Or.inl (d.trans s2)
      · exact Or.inr d
      · exact Or.inl (d.trans s2)
    rcases c4 with ⟨-, d, -⟩ | ⟨-, -, ⟨-, d, -⟩ | ⟨-, d, -⟩⟩
    · rw [d]; rcases d3 with h | h
      · exact Or.inl h
      · exact Or.inr (Or.inl h)
    · exact Or.inr (Or.inr d)
    · rw [d]; rcases d3 with h | h
      · exact Or.inl h
      · exact Or.inr (Or.inl h)

theorem updateEntitySeq_hazard (P : Platform) (rnd : Nat → Nat) (ks : List Nat) :
    ∀ e : Entity, e.isPlayer = false → 1 ≤ e.move → e.move ≤ 2 →
      ∃ r, updateEntitySeq P rnd ks e = some r ∧ r.isPlayer = false ∧ r.image = e.image ∧
        1 ≤ r.move ∧ r.move ≤ 2 := by
  induction ks with
  | nil => intro e hnp h1 h2; exact ⟨e, rfl, hnp, rfl, h1, h2⟩
  | cons k ks ih =>
    intro e hnp h1 h2
    obtain ⟨r, hr, p, i, m, -⟩ := updateEntity_hazard_keeps P rnd k e hnp
    have hm : 1 ≤ r.1.move ∧ r.1.move ≤ 2 := by
      rcases m with m | ⟨n, m⟩
      · rw [m]; exact ⟨h1, h2⟩
      · rw [m]; omega
    obtain ⟨r', hr', p', i', m'⟩ := ih r.1 p hm.1 hm.2
    refine ⟨r', ?_, p', i'.trans i, m'⟩
    show (updateEntity P rnd k e).bind _ = _
    rw [hr]; exact hr'

theorem fillRows_spec (P : Platform) (hP : P.ImagesComplete) (rnd : Nat → Nat)
    (rows : List Nat) :
    ∀ st : Table × Nat, ∃ st', rows.foldlM (fun st i => fillRow P rnd i st) st = some st' ∧
      (∀ i, i ∉ rows → ∀ j, st'.1 i j = st.1 i j) ∧
      (∀ i j, j ≠ 0 → st'.1 i j = st.1 i j) ∧
      (∀ i, i ∈ rows → (st'.1 i 0).isPlayer = false ∧
        1 ≤ (st'.1 i 0).move ∧ (st'.1 i 0).move ≤ 2 ∧
        (st'.1 i 0).ypos =
          toU16 (((i : Int) + 1) * GRID_SIZE + TOP_BORDER + yOffset (st'.1 i 0).image) ∧
        ((st'.1 i 0).direction = P.PS2_RIGHT % 256 ∨
          (st'.1 i 0).direction = P.PS2_LEFT % 256) ∧
        (i < WATER_ROWS → (st'.1 i 0).image = P.LOG_IMAGE) ∧
        (WATER_ROWS ≤ i → (st'.1 i 0).image ∈ P.ENTITY_IMAGES)) := by
  induction rows with
  | nil =>
    intro st
    exact ⟨st, rfl, fun _ _ _ => rfl, fun _ _ _ => rfl, fun i hi => absurd hi (List.not_mem_nil i)⟩
  | cons a rows ih =>
    intro st
    obtain ⟨st1, e, h1, hw, q1, q2, q3, q4, q5, q6, q7⟩ := fillRow_spec P hP rnd a st
    obtain ⟨st2, h2, keep, keepj, good⟩ := ih st1
    refine ⟨st2, ?_, ?_, ?_, ?_⟩
    · rw [List.foldlM_cons, h1]; exact h2
    · intro i hi j
      rw [keep i (fun h => hi (List.mem_cons_of_mem a h)) j, hw]
      unfold Table.write
      rw [if_neg (fun (h : i = a ∧ j = 0) => hi (by rw [h.1]; exact List.mem_cons_self a rows))]
    · intro i j hj
      rw [keepj i j hj, hw]
      unfold Table.write
      rw [if_neg (fun (h : i = a ∧ j = 0) => hj h.2)]
    · intro i hi
      by_cases hmem : i ∈ rows
      · exact good i hmem
      · have hia : i = a := by
          rcases List.mem_cons.1 hi with h | h
          · exact h
          · exact absurd h hmem
        have hcell : st2.1 i 0 = e := by
          rw [keep i hmem 0, hw]
          unfold Table.write
          rw [if_pos ⟨hia, rfl⟩]
        rw [hcell, hia]
        exact ⟨q1, q2, q3, q4, q5, q6, q7⟩

theorem speedInClass_of_bounds (i : Nat) (e : Entity) (h1 : 1 ≤ e.move) (h2 : e.move ≤ 2) :
    SpeedInClass i e :=
  ⟨fun _ => ⟨h1, h2⟩, fun _ => ⟨h1, h2⟩⟩

/-- C15: on a platform whose `ENTITY_IMAGES` array has its `NUM_ENTITY_IMAGES` elements,
`fillEntities` returns, and every table cell the game loop uses (row `i < ENTITY_ROWS`,
`j` below the row's entity count) then holds a non-player entity that is a log
(`LOG_IMAGE`) in the water rows and a car (an element of `ENTITY_IMAGES`) in the road
rows, with `move` inside the inclusive range of its class; after any sequence of
`updateEntity` calls, whatever the state of the random source at each call and whether
or not a call bounces and redraws the speed, every call returns and the entity is still
a non-player with the same image and `move` inside the same inclusive range. -/
theorem C15_hazard_speed_in_class (P : Platform) (hP : P.ImagesComplete) (rnd : Nat → Nat)
    (t : Table) (k : Nat) :
    ∃ st, fillEntities P rnd t k = some st ∧
      ∀ i j, i < ENTITY_ROWS → j < rowCount i →
        (st.1 i j).isPlayer = false ∧ SpeedInClass i (st.1 i j) ∧
        (i < WATER_ROWS → (st.1 i j).image = P.LOG_IMAGE) ∧
        (WATER_ROWS ≤ i → (st.1 i j).image ∈ P.ENTITY_IMAGES) ∧
        ∀ ks : List Nat, ∃ e, updateEntitySeq P rnd ks (st.1 i j) = some e ∧
          e.isPlayer = false ∧ e.image = (st.1 i j).image ∧ SpeedInClass i e := by
  obtain ⟨st, hst, -, -, good⟩ := fillRows_spec P hP rnd (List.range ENTITY_ROWS) (t, k)
  refine ⟨st, hst, ?_⟩
  intro i j hi hj
  have hj0 : j = 0 := by rw [rowCount_eq] at hj; omega
  subst hj0
  obtain ⟨p, m1, m2, -, -, il, ic⟩ := good i (List.mem_range.2 hi)
  refine ⟨p, speedInClass_of_bounds i _ m1 m2, il, ic, ?_⟩
  intro ks
  obtain ⟨e, he, pe, ie, n1, n2⟩ := updateEntitySeq_hazard P rnd ks (st.1 i 0) p m1 m2
  exact ⟨e, he, pe, ie, speedInClass_of_bounds i e n1 n2⟩

theorem C15_hazard_speed_in_class_witness :
    board.ImagesComplete ∧ 0 < ENTITY_ROWS ∧ 0 < rowCount 0 ∧
    ∃ st, fillEntities board (fun n => 7 * n + 3) zeroTable 0 = some st ∧
      SpeedInClass 0 (st.1 0 0) ∧
      ∃ e, updateEntitySeq board (fun n => 7 * n + 3) [40, 41, 42] (st.1 0 0) = some e ∧
        SpeedInClass 0 e := by
  obtain ⟨st, hst, H⟩ :=
    C15_hazard_speed_in_class board rfl (fun n => 7 * n + 3) zeroTable 0
  obtain ⟨-, s, -, -, S⟩ := H 0 0 (by decide) (by decide)
  obtain ⟨e, he, -, -, se⟩ := S [40, 41, 42]
  exact ⟨rfl, by decide, by decide, st, hst, s, e, he, se⟩

/-! ## The local frog during a round -/

theorem frogInv_iff (e : Entity) :
    FrogInv e ↔ e.isPlayer = true ∧ (e.move = 30 ∨ (1 ≤ e.move ∧ e.move ≤ 2)) ∧
      e.image.width ≤ 30 ∧ 1 ≤ e.image.height ∧ e.image.height ≤ 30 ∧
      e.xpos < 256 ∧ e.ypos < 310 ∧ (130 ≤ e.ypos → e.xpos < 255) := Iff.rfl

theorem correctOffset_xpos_far (e : Entity) (hx : e.xpos = 255) (hw : e.image.width ≤ 30) :
    (correctOffset e).xpos = 29 + (30 - e.image.width) / 2 := by
  simp only [correctOffset, xOffset_eq _ hw, GRID_SIZE_val, LEFT_BORDER_val, Nat.cast_ofNat, hx]
  have s1 : cdiv ((255 : Int) - 15) 30 = 8 := by decide
  have s2 : toU8 ((8 : Int) * 30 + 15) = 255 := by decide
  have s3 : toU8 (8 : Int) = 8 := by decide
  have s5 : toU8 (((8 : Int) + 1) * 30 + 15) = 29 := by decide
  simp only [s1, s2, s3, s5, Nat.cast_ofNat]
  rw [if_pos (by decide)]
  unfold toU8; omega

theorem correctOffset_bounds (e : Entity) (hx : e.xpos < 256) (hy : e.ypos < 310)
    (hw : e.image.width ≤ 30) (hh : e.image.height ≤ 30) :
    15 ≤ (correctOffset e).xpos ∧ (correctOffset e).xpos ≤ 240 ∧
    (e.xpos ≤ 224 → (correctOffset e).xpos ≤ 210) ∧
    (45 ≤ e.xpos → e.xpos < 255 → 45 ≤ (correctOffset e).xpos) ∧
    (correctOffset e).ypos < 310 ∧
    (1 ≤ e.image.height → (correctOffset e).ypos ≤ 294) ∧
    (1 ≤ e.image.height → e.ypos ≤ 279 → (correctOffset e).ypos ≤ 264) ∧
    (130 ≤ (correctOffset e).ypos → 130 ≤ e.ypos) ∧
    (100 ≤ e.ypos → 100 ≤ (correctOffset e).ypos) ∧
    (40 ≤ e.ypos → 40 ≤ (correctOffset e).ypos) := by
  have hyv := correctOffset_ypos_gen e (by omega) hh
  have hxv : 15 ≤ (correctOffset e).xpos ∧ (correctOffset e).xpos ≤ 240 ∧
      (e.xpos ≤ 224 → (correctOffset e).xpos ≤ 210) ∧
      (45 ≤ e.xpos → e.xpos < 255 → 45 ≤ (correctOffset e).xpos) := by
    by_cases hfar : e.xpos = 255
    · rw [correctOffset_xpos_far e hfar hw]
      omega
    · rw [correctOffset_xpos_gen e (by omega) hw]
      omega
  refine ⟨hxv.1, hxv.2.1, hxv.2.2.1, hxv.2.2.2, ?_, ?_, ?_, ?_, ?_, ?_⟩ <;> rw [hyv] <;> omega

theorem toU8_lt (i : Int) : toU8 i < 256 := by
  unfold toU8; omega

theorem spriteFor_solid (P : Platform) (hfit : SpritesFit P) (hsol : SpritesSolid P) (d : Nat)
    (im : Image) (hw : im.width ≤ 30) (h1 : 1 ≤ im.height) (hh : im.height ≤ 30) :
    (spriteFor P d im).width ≤ 30 ∧ 1 ≤ (spriteFor P d im).height ∧
    (spriteFor P d im).height ≤ 30 := by
  obtain ⟨⟨a1, a2⟩, ⟨b1, b2⟩, ⟨c1, c2⟩, ⟨d1, d2⟩⟩ := hfit
  obtain ⟨s1, s2, s3, s4⟩ := hsol
  simp only [GRID_SIZE_val] at a1 a2 b1 b2 c1 c2 d1 d2
  unfold spriteFor
  split_ifs
  · exact ⟨a1, s1, a2⟩
  · exact ⟨b1, s2, b2⟩
  · exact ⟨c1, s3, c2⟩
  · exact ⟨d1, s4, d2⟩
  · exact ⟨hw, h1, hh⟩

theorem stepEntity_other (P : Platform) (e : Entity) (h1 : e.direction ≠ P.PS2_RIGHT)
    (h2 : e.direction ≠ P.PS2_UP) (h3 : e.direction ≠ P.PS2_LEFT)
    (h4 : e.direction ≠ P.PS2_DOWN) : stepEntity P e = e := by
  unfold stepEntity
  rw [if_neg h1, if_neg h2, if_neg h3, if_neg h4]

theorem corrections_bounds (P : Platform) (rnd : Nat → Nat) (k : Nat) (e : Entity)
    (hx : e.xpos < 256) (hw : e.image.width ≤ 30) :
    ∃ r3 r4, correctRight P rnd k e = some r3 ∧ correctLeft P rnd r3.2 r3.1 = some r4 ∧
      r4.1.image = e.image ∧ r4.1.ypos = e.ypos ∧ r4.1.isPlayer = e.isPlayer ∧
      (r4.1.move = e.move ∨ (1 ≤ r4.1.move ∧ r4.1.move ≤ 2)) ∧
      (r4.1.xpos < 255 ∨ r4.1.xpos = e.xpos) := by
  obtain ⟨r3, h3, i3, y3, p3, c3⟩ := correctRight_spec P rnd k e
  obtain ⟨r4, h4, i4, y4, p4, c4⟩ := correctLeft_spec P rnd r3.2 r3.1
  refine ⟨r3, r4, h3, h4, i4.trans i3, y4.trans y3, p4.trans p3, ?_, ?_⟩
  · have m3 : r3.1.move = e.move ∨ (1 ≤ r3.1.move ∧ r3.1.move ≤ 2) := by
      rcases c3 with ⟨-, -, m, -⟩ | ⟨-, -, ⟨-, -, m, -⟩ | ⟨-, -, m, -⟩⟩
      · exact Or.inl m
      · right; rw [m]; omega
      · exact Or.inl m
    rcases c4 with ⟨-, -, m, -⟩ | ⟨-, -, ⟨-, -, m, -⟩ | ⟨-, -, m, -⟩⟩
    · rw [m]; exact m3
    · right; rw [m]; omega
    · rw [m]; exact m3
  · have x3 : r3.1.xpos < 255 ∨ r3.1.xpos = e.xpos := by
      rcases c3 with ⟨x, -⟩ | ⟨-, hge, ⟨x, -⟩ | ⟨x, -⟩⟩
      · exact Or.inr x
      · left; rw [x]; unfold toU8; omega
      · left; rw [x]; decide
    rcases c4 with ⟨x, -⟩ | ⟨-, hle, ⟨x, -⟩ | ⟨x, -⟩⟩
    · rw [x]; exact x3
    · left; rw [x]; unfold toU8; omega
    · left; rw [x, i3]; unfold toU8; omega

theorem frog_step_arith (x y m w h X Y : Nat) (hm : m = 30 ∨ (1 ≤ m ∧ m ≤ 2))
    (hx : x < 256) (hy : y < 310) (hxy : 130 ≤ y → x < 255) (h1 : 1 ≤ h)
    (cb1 : 15 ≤ X) (cb2 : X ≤ 240) (cb3 : x ≤ 224 → X ≤ 210)
    (cb4 : 45 ≤ x → x < 255 → 45 ≤ X) (cb5 : Y < 310) (cb6 : Y ≤ 294)
    (cb7 : y ≤ 279 → Y ≤ 264) (cb8 : 130 ≤ Y → 130 ≤ y) (cb9 : 100 ≤ y → 100 ≤ Y) :
    (x + w + m ≤ 225 → X + m < 256 ∧ X + m < 255) ∧
    (15 + m ≤ x → 130 ≤ Y → m ≤ X ∧ X - m < 255) ∧
    (100 ≤ y → m ≤ Y ∧ Y - m < 310) ∧
    (10 + m ≤ y → ¬ 100 ≤ y → m ≤ y ∧ y - m < 310 ∧ ¬ 130 ≤ y - m) ∧
    (100 ≤ y → y + h + m ≤ 310 → Y + m < 65536 ∧ Y + m < 310) ∧
    (¬ 100 ≤ y → y + m < 65536 ∧ y + m < 310 ∧ ¬ 130 ≤ y + m) ∧
    X < 256 ∧ X < 255 ∧ Y < 65536 ∧ y < 65536 := by
  refine ⟨?_, ?_, ?_, ?_, ?_, ?_, ?_, ?_, ?_, ?_⟩ <;> omega

theorem player_step_bounds (P : Platform) (hP : P.DirCodes) (hfit : SpritesFit P)
    (hsol : SpritesSolid P) (e : Entity) (he : FrogInv e)
    (hv : isValidMove P e e.direction = true) :
    (stepEntity P (playerSprite P e)).isPlayer = true ∧
    (stepEntity P (playerSprite P e)).move = e.move ∧
    (stepEntity P (playerSprite P e)).image = spriteFor P e.direction e.image ∧
    (stepEntity P (playerSprite P e)).xpos < 256 ∧
    (stepEntity P (playerSprite P e)).ypos < 310 ∧
    (130 ≤ (stepEntity P (playerSprite P e)).ypos →
      (stepEntity P (playerSprite P e)).xpos < 255) := by
  obtain ⟨hpl, hm, hw, h1, hh, hx, hy, hxy⟩ := (frogInv_iff e).1 he
  obtain ⟨pf1, pf2, pf3, pf4⟩ := playerSprite_fields P e
  obtain ⟨sw, s1, sh⟩ := spriteFor_solid P hfit hsol e.direction e.image hw h1 hh
  obtain ⟨vR, vU, vL, vD⟩ := isValidMove_player P hP e hpl hv
  obtain ⟨cb1, cb2, cb3, cb4, cb5, cb6, cb7, cb8, cb9, -⟩ :=
    correctOffset_bounds { e with image := spriteFor P e.direction e.image } hx hy sw sh
  obtain ⟨aR, aL, aU1, aU2, aD1, aD2, aX, aX5, aY, ay⟩ :=
    frog_step_arith e.xpos e.ypos e.move e.image.width e.image.height _ _ hm hx hy hxy h1
      cb1 cb2 cb3 cb4 cb5 (cb6 s1) (cb7 s1) cb8 cb9
  obtain ⟨t1, t2, t3, t4, tR, tU, tL, tD⟩ := stepEntity_spec P hP (playerSprite P e)
  rw [pf3] at tR tU tL tD
  refine ⟨by rw [t2, pf1, hpl], by rw [t4, pf2], by rw [t1, pf4], ?_⟩
  have hps := playerSprite_eq P e
  obtain ⟨⟨d1, d2, d3, d4, d5, d6⟩, -⟩ := hP
  by_cases hR : e.direction = P.PS2_RIGHT
  · rw [if_pos (Or.inr (Or.inl hR))] at hps
    obtain ⟨tx, ty⟩ := tR hR
    obtain ⟨a1, a2⟩ := aR (vR hR)
    rw [tx, ty, pf2, hps, toU8_add _ _ a1]
    exact ⟨a1, cb5, fun _ => a2⟩
  by_cases hL : e.direction = P.PS2_LEFT
  · rw [if_pos (Or.inr (Or.inr hL))] at hps
    obtain ⟨tx, ty⟩ := tL hL
    rw [tx, ty, pf2, hps]
    refine ⟨toU8_lt _, cb5, fun h130 => ?_⟩
    obtain ⟨a1, a2⟩ := aL (vL hL) h130
    rw [toU8_sub _ _ a1 aX]
    exact a2
  by_cases hU : e.direction = P.PS2_UP
  · obtain ⟨tx, ty⟩ := tU hU
    rw [tx, ty, pf2]
    by_cases h100 : 100 ≤ e.ypos
    · rw [if_pos (Or.inl h100)] at hps
      obtain ⟨a1, a2⟩ := aU1 h100
      rw [hps, toU16_sub _ _ a1 aY]
      exact ⟨aX, a2, fun _ => aX5⟩
    · rw [if_neg (by rintro (h | h | h); exacts [h100 h, hR h, hL h])] at hps
      obtain ⟨a1, a2, a3⟩ := aU2 (vU hU) h100
      rw [hps]
      show e.xpos < 256 ∧ toU16 ((e.ypos : Int) - e.move) < 310 ∧
        (130 ≤ toU16 ((e.ypos : Int) - e.move) → e.xpos < 255)
      rw [toU16_sub _ _ a1 ay]
      exact ⟨hx, a2, fun h => absurd h a3⟩
  by_cases hD : e.direction = P.PS2_DOWN
  · obtain ⟨tx, ty⟩ := tD hD
    rw [tx, ty, pf2]
    by_cases h100 : 100 ≤ e.ypos
    · rw [if_pos (Or.inl h100)] at hps
      obtain ⟨a1, a2⟩ := aD1 h100 (vD hD)
      rw [hps, toU16_add _ _ a1]
      exact ⟨aX, a2, fun _ => aX5⟩
    · rw [if_neg (by rintro (h | h | h); exacts [h100 h, hR h, hL h])] at hps
      obtain ⟨a1, a2, a3⟩ := aD2 h100
      rw [hps]
      show e.xpos < 256 ∧ toU16 ((e.ypos : Int) + e.move) < 310 ∧
        (130 ≤ toU16 ((e.ypos : Int) + e.move) → e.xpos < 255)
      rw [toU16_add _ _ a1]
      exact ⟨hx, a2, fun h => absurd h a3⟩
  · rw [stepEntity_other P (playerSprite P e) (by rw [pf3]; exact hR) (by rw [pf3]; exact hU)
      (by rw [pf3]; exact hL) (by rw [pf3]; exact hD)]
    by_cases h100 : 100 ≤ e.ypos
    · rw [if_pos (Or.inl h100)] at hps
      rw [hps]
      exact ⟨aX, cb5, fun _ => aX5⟩
    · rw [if_neg (by rintro (h | h | h); exacts [h100 h, hR h, hL h])] at hps
      rw [hps]
      exact ⟨hx, hy, hxy⟩

theorem updateEntity_frogInv (P : Platform) (hP : P.DirCodes) (hfit : SpritesFit P)
    (hsol : SpritesSolid P) (rnd : Nat → Nat) (k : Nat) (e : Entity) (he : FrogInv e) :
    ∃ r, updateEntity P rnd k e = some r ∧ FrogInv r.1 := by
  by_cases hv : isValidMove P e e.direction = true
  · obtain ⟨b1, b2, b3, b4, b5, b6⟩ := player_step_bounds P hP hfit hsol e he hv
    obtain ⟨hpl, hm, hw, h1, hh, -, -, -⟩ := (frogInv_iff e).1 he
    obtain ⟨sw, s1, sh⟩ := spriteFor_solid P hfit hsol e.direction e.image hw h1 hh
    obtain ⟨r3, r4, h3, h4, c1, c2, c3, c4, c5⟩ :=
      corrections_bounds P rnd k (stepEntity P (playerSprite P e)) b4 (by rw [b3]; exact sw)
    refine ⟨_, updateEntity_player P rnd k e hpl hv r3 r4 h3 h4, ?_⟩
    show FrogInv (correctBackgroundImage P r4.1)
    rw [frogInv_iff]
    show r4.1.isPlayer = true ∧ (r4.1.move = 30 ∨ (1 ≤ r4.1.move ∧ r4.1.move ≤ 2)) ∧
      r4.1.image.width ≤ 30 ∧ 1 ≤ r4.1.image.height ∧ r4.1.image.height ≤ 30 ∧
      r4.1.xpos < 256 ∧ r4.1.ypos < 310 ∧ (130 ≤ r4.1.ypos → r4.1.xpos < 255)
    rw [c1, c2, c3, b3]
    refine ⟨b1, ?_, sw, s1, sh, ?_, b5, fun h => ?_⟩
    · rcases c4 with c | c
      · rw [c, b2]; exact hm
      · exact Or.inr c
    · rcases c5 with c | c
      · exact Nat.lt_succ_of_lt c
      · rw [c]; exact b4
    · rcases c5 with c | c
      · exact c
      · rw [c]; exact b6 h
  · refine ⟨(e, k), ?_, he⟩
    unfold updateEntity
    rw [if_neg hv]

theorem updatePlayer_frogInv (P : Platform) (hP : P.DirCodes) (hfit : SpritesFit P)
    (hsol : SpritesSolid P) (rnd : Nat → Nat) (k : Nat) (e : Entity) (he : FrogInv e)
    (canMove : Bool) (inp : TickInput) :
    ∃ r, updatePlayer P rnd k e canMove inp = some r ∧ FrogInv r.1 := by
  unfold updatePlayer
  dsimp only
  split
  · exact ⟨_, rfl, he⟩
  · split
    · obtain ⟨r, hr, hi⟩ := updateEntity_frogInv P hP hfit hsol rnd k
        { e with direction := readDirection P inp } he
      rw [hr]
      exact ⟨_, rfl, hi⟩
    · exact ⟨_, rfl, he⟩

theorem foldlM_total {α β : Type} (f : β → α → Option β) (l : List α)
    (hf : ∀ b a, a ∈ l → ∃ b', f b a = some b') :
    ∀ b, ∃ b', l.foldlM f b = some b' := by
  induction l with
  | nil => intro b; exact ⟨b, rfl⟩
  | cons a l ih =>
    intro b
    obtain ⟨b1, h1⟩ := hf b a (List.mem_cons_self a l)
    obtain ⟨b2, h2⟩ := ih (fun b a' ha => hf b a' (List.mem_cons_of_mem a ha)) b1
    exact ⟨b2, by rw [List.foldlM_cons, h1]; exact h2⟩

theorem updateHazards_total (P : Platform) (rnd : Nat → Nat) (t : Table) (k : Nat) :
    ∃ r, updateHazards P rnd t k = some r := by
  unfold updateHazards
  apply foldlM_total
  intro st i hi
  apply foldlM_total
  intro st' j hj
  have hi8 : i < 8 := List.mem_range.1 hi
  have hj3 : j < 3 := by
    have := List.mem_range.1 hj
    rw [rowCount_eq] at this
    omega
  obtain ⟨r, hr⟩ := updateEntity_total P rnd st'.2 (st'.1 i j)
  rw [Table.read_eq _ i j hi8 hj3]
  simp only [Option.bind_eq_bind, Option.some_bind, hr, Option.pure_def]
  exact ⟨_, rfl⟩

theorem frogRow_small (e : Entity) (hy : e.ypos < 310) : frogRow e = (e.ypos - 10) / 30 := by
  rw [frogRow_eq]
  unfold toU8
  split <;> omega

theorem resolve_frogInv (P : Platform) (t : Table) (e : Entity) (alive : Bool)
    (he : FrogInv e) : ∃ r, resolve P t e alive = some r ∧ FrogInv r.1 := by
  obtain ⟨hpl, hm, hw, h1, hh, hx, hy, hxy⟩ := (frogInv_iff e).1 he
  have hrow := frogRow_small e hy
  have hr8 : frogRow e ≠ 9 ∧ frogRow e ≠ 0 → frogRow e - 1 < 8 := by
    rw [hrow]; omega
  have hr3 : ¬ frogRow e > 3 → ¬ 130 ≤ e.ypos := by
    rw [hrow]; omega
  unfold resolve
  simp only [GRID_HEIGHT_val, WATER_ROWS_val]
  split
  · rename_i hne
    split
    · rw [roadCheck_eq t _ e alive (hr8 hne)]
      exact ⟨_, rfl, he⟩
    · rename_i hw3
      rw [waterCheck_eq P t _ e (hr8 hne)]
      refine ⟨_, rfl, ?_⟩
      simp only [Option.map_some']
      split
      · rw [frogInv_iff]
        exact ⟨hpl, hm, hw, h1, hh, toU8_lt _, hy, fun h => absurd h (hr3 hw3)⟩
      · exact he
  · exact ⟨_, rfl, he⟩

theorem encodePos_ne_WIN (x y : Nat) (hx : x < 256) (hy : y < 65536)
    (hxy : ¬ (x = 255 ∧ y = 255)) : encodePos x y ≠ WIN := by
  rw [encodePos_eq x y (by omega) hy, WIN_val]
  omega

theorem sendStep_no_win (oldx oldy row : Nat) (frog : Entity) (he : FrogInv frog) :
    WIN ∉ sendStep oldx oldy row frog := by
  obtain ⟨-, -, -, -, -, hx, hy, hxy⟩ := (frogInv_iff frog).1 he
  have hne := encodePos_ne_WIN frog.xpos frog.ypos hx (by omega) (by omega)
  unfold sendStep
  split_ifs
  · simp only [List.mem_singleton]
    exact fun h => hne h.symm
  · simp
  · simp

theorem winStep_eq (frog : Entity) (localWin : Bool) :
    winStep frog localWin = if frog.ypos < 40 then (true, [WIN]) else (localWin, []) := by
  unfold winStep
  simp only [TOP_BORDER_val, GRID_SIZE_val, Nat.cast_ofNat]
  split <;> rename_i h
  · rw [if_pos (by omega)]
  · rw [if_neg (by omega)]

theorem tick_eq (P : Platform) (rnd : Nat → Nat) (g : Game) (inp : TickInput)
    (a : Table × Nat) (b : Entity × Bool × Nat) (c : Entity × Bool)
    (ha : updateHazards P rnd g.entities g.randCalls = some a)
    (hb : updatePlayer P rnd a.2 g.frog g.canMove inp = some b)
    (hc : resolve P a.1 b.1 g.alive = some c) :
    tick P rnd g inp =
      some ({ entities := a.1, frog := c.1,
              frog2 := correctOffset (receiveStep P g.frog2 g.remoteWin inp.inbound).1,
              alive := c.2, localWin := (winStep c.1 g.localWin).1,
              remoteWin := (receiveStep P g.frog2 g.remoteWin inp.inbound).2,
              canMove := b.2.1, randCalls := b.2.2 },
            sendStep g.frog.xpos g.frog.ypos (frogRow b.1) c.1 ++ (winStep c.1 g.localWin).2) := by
  unfold tick
  simp only [Option.bind_eq_bind, ha, Option.some_bind, hb, hc, Option.pure_def]

theorem tick_frogInv (P : Platform) (hP : P.DirCodes) (hfit : SpritesFit P)
    (hsol : SpritesSolid P) (rnd : Nat → Nat) (g : Game) (inp : TickInput)
    (hg : FrogInv g.frog) :
    ∃ r, tick P rnd g inp = some r ∧ FrogInv r.1.frog ∧
      r.1.localWin = (winStep r.1.frog g.localWin).1 ∧
      ∃ pos, r.2 = pos ++ (winStep r.1.frog g.localWin).2 ∧ WIN ∉ pos := by
  obtain ⟨a, ha⟩ := updateHazards_total P rnd g.entities g.randCalls
  obtain ⟨b, hb, ib⟩ := updatePlayer_frogInv P hP hfit hsol rnd a.2 g.frog hg g.canMove inp
  obtain ⟨c, hc, ic⟩ := resolve_frogInv P a.1 b.1 g.alive ib
  exact ⟨_, tick_eq P rnd g inp a b c ha hb hc, ic, rfl, _, rfl, sendStep_no_win _ _ _ c.1 ic⟩

theorem playLoop_stopped (P : Platform) (rnd : Nat → Nat) (g : Game) (inputs : List TickInput)
    (h : playing g = false) : playLoop P rnd g inputs = some [] := by
  cases inputs with
  | nil => rfl
  | cons inp rest =>
    unfold playLoop
    rw [if_neg (by rw [h]; exact Bool.false_ne_true)]

theorem playFinal_cons (g : Game) (r : Game × List Nat) (trace : List (Game × List Nat)) :
    playFinal g (r :: trace) = playFinal r.1 trace := by
  cases trace with
  | nil => rfl
  | cons x xs =>
    unfold playFinal
    rw [List.getLast?_cons_cons, List.getLast?_eq_getLast (x :: xs) (List.cons_ne_nil x xs)]
    rfl

theorem playLoop_spec (P : Platform) (hP : P.DirCodes) (hfit : SpritesFit P)
    (hsol : SpritesSolid P) (rnd : Nat → Nat) (inputs : List TickInput) :
    ∀ g : Game, FrogInv g.frog → g.localWin = false →
      ∃ trace, playLoop P rnd g inputs = some trace ∧
        (∀ r ∈ trace,
          (WIN ∈ r.2 ↔ r.1.frog.ypos < 40) ∧ r.2.count WIN ≤ 1 ∧
          (WIN ∈ r.2 → r.1.localWin = true ∧ playing r.1 = false) ∧
          (WIN ∉ r.2 → r.1.localWin = false)) ∧
        (∀ pre a b post, trace = pre ++ a :: b :: post → WIN ∉ a.2) ∧
        (trace.map Prod.snd).flatten.count WIN =
          if (playFinal g trace).localWin then 1 else 0 := by
  induction inputs with
  | nil =>
    intro g _ hw
    refine ⟨[], rfl, fun r hr => absurd hr (List.not_mem_nil r), ?_, ?_⟩
    · intro pre a b post h
      exact absurd h (by simp)
    · show 0 = if g.localWin = true then 1 else 0
      rw [hw]; rfl
  | cons inp rest ih =>
    intro g hg hw
    by_cases hplay : playing g = true
    · obtain ⟨r, hr, ir, hl, pos, hpos, hno⟩ := tick_frogInv P hP hfit hsol rnd g inp hg
      rw [winStep_eq] at hl hpos
      have hc0 : pos.count WIN = 0 := List.count_eq_zero_of_not_mem hno
      by_cases hwin : r.1.frog.ypos < 40
      · rw [if_pos hwin] at hl hpos
        have hstop : playing r.1 = false := by
          unfold playing; rw [hl]; simp
        have hmem : WIN ∈ r.2 := by rw [hpos]; simp
        refine ⟨[r], ?_, ?_, ?_, ?_⟩
        · unfold playLoop
          rw [if_pos hplay, hr, Option.some_bind, playLoop_stopped P rnd r.1 rest hstop]
          rfl
        · intro r' hr'
          rw [List.mem_singleton.1 hr']
          refine ⟨⟨fun _ => hwin, fun _ => hmem⟩, ?_, fun _ => ⟨hl, hstop⟩,
            fun h => absurd hmem h⟩
          rw [hpos, List.count_append, hc0]
          simp
        · intro pre a b post h
          have hlen := congrArg List.length h
          simp only [List.length_cons, List.length_nil, List.length_append] at hlen
          omega
        · show ([r.2].flatten).count WIN = if r.1.localWin = true then 1 else 0
          rw [hl, if_pos rfl, List.flatten_cons, List.flatten_nil, List.append_nil, hpos,
            List.count_append, hc0]
          simp
      · rw [if_neg hwin] at hl hpos
        have hr2 : r.2 = pos := by rw [hpos]; exact List.append_nil pos
        have hnomem : WIN ∉ r.2 := by rw [hr2]; exact hno
        have hlw : r.1.localWin = false := by rw [hl]; exact hw
        obtain ⟨trace, ht, t1, t2, t3⟩ := ih r.1 ir hlw
        refine ⟨r :: trace, ?_, ?_, ?_, ?_⟩
        · unfold playLoop
          rw [if_pos hplay, hr, Option.some_bind, ht]
          rfl
        · intro r' hr'
          rcases List.mem_cons.1 hr' with h | h
          · rw [h]
            refine ⟨⟨fun hm => absurd hm hnomem, fun hy => absurd hy hwin⟩, ?_,
              fun hm => absurd hm hnomem, fun _ => hlw⟩
            rw [hr2, hc0]; exact Nat.zero_le 1
          · exact t1 r' h
        · intro pre a b post h
          cases pre with
          | nil =>
            simp only [List.nil_append, List.cons.injEq] at h
            rw [← h.1]; exact hnomem
          | cons p pre' =>
            simp only [List.cons_append, List.cons.injEq] at h
            exact t2 pre' a b post h.2
        · rw [playFinal_cons, ← t3, List.map_cons, List.flatten_cons, List.count_append, hr2,
            hc0, Nat.zero_add]
    · have hstop : playing g = false := by
        cases h : playing g
        · rfl
        · exact absurd h hplay
      refine ⟨[], playLoop_stopped P rnd g _ hstop,
        fun r hr => absurd hr (List.not_mem_nil r), ?_, ?_⟩
      · intro pre a b post h
        exact absurd h (by simp)
      · show 0 = if g.localWin = true then 1 else 0
        rw [hw]; rfl

theorem resetFrog_frogInv (frog : Entity) (r : Nat) (hpl : frog.isPlayer = true)
    (hm : frog.move = GRID_SIZE ∨ (LOG_MIN_MOVE ≤ frog.move ∧ frog.move ≤ LOG_MAX_MOVE))
    (hw : frog.image.width ≤ GRID_SIZE) (h1 : 1 ≤ frog.image.height)
    (hh : frog.image.height ≤ GRID_SIZE) :
    ∃ f, resetFrog frog r = some f ∧ FrogInv f ∧ f.image = frog.image ∧ f.move = frog.move := by
  simp only [GRID_SIZE_val] at hw hh
  obtain ⟨hr, -, hlt⟩ := randRange_some 0 GRID_WIDTH r (by decide) (by decide)
  simp only [GRID_WIDTH_val, Nat.sub_zero, Nat.zero_add] at hr hlt
  unfold resetFrog
  simp only [GRID_WIDTH_val, hr, Option.map_some', LEFT_BORDER_val, TOP_BORDER_val, GRID_SIZE_val,
    GRID_HEIGHT_val, Nat.cast_ofNat, xOffset_eq _ hw, yOffset_eq _ hh]
  refine ⟨_, rfl, ?_, rfl, rfl⟩
  rw [frogInv_iff]
  dsimp only
  refine ⟨hpl, hm, hw, h1, hh, toU8_lt _, ?_, ?_⟩
  · unfold toU16; omega
  · intro _
    have hxo : (30 - frog.image.width) / 2 ≤ 15 := by omega
    generalize r % 7 = n at hlt
    generalize (30 - frog.image.width) / 2 = xo at hxo
    have hv : toU8 ((15 : Int) + (n : Int) * 30 + (xo : Int)) = 15 + n * 30 + xo := by
      unfold toU8
      rw [Int.emod_eq_of_lt (by omega) (by omega)]
      omega
    rw [hv]
    omega

/-- C11: on a board with distinct direction codes whose four frog sprites fit in a grid
cell and are not empty in height, from every state of a round in which the local frog
satisfies the round invariant `FrogInv` (which the round reset establishes) and
`localWin` is false, and for every sequence of inputs, every tick of the playing loop
returns, and in every executed tick the WIN word is among the words sent if and only if
the frog's `ypos` at the end of the tick is below `TOP_BORDER + GRID_SIZE`; it is then
sent once in that tick, `localWin` is true after the tick and the loop guard is false,
while after a tick without WIN `localWin` is still false; a tick that sent WIN is never
followed by another tick; and the number of WIN words sent in the whole round is 1 if
the round ends with `localWin` set and 0 otherwise. -/
theorem C11_win_sent_once (P : Platform) (hP : P.DirCodes) (hfit : SpritesFit P)
    (hsol : SpritesSolid P) (rnd : Nat → Nat) (g : Game) (hg : FrogInv g.frog)
    (hw : g.localWin = false) (inputs : List TickInput) :
    ∃ trace, playLoop P rnd g inputs = some trace ∧
      (∀ r ∈ trace,
        (WIN ∈ r.2 ↔ r.1.frog.ypos < TOP_BORDER + GRID_SIZE) ∧ r.2.count WIN ≤ 1 ∧
        (WIN ∈ r.2 → r.1.localWin = true ∧ playing r.1 = false) ∧
        (WIN ∉ r.2 → r.1.localWin = false)) ∧
      (∀ pre a b post, trace = pre ++ a :: b :: post → WIN ∉ a.2) ∧
      (trace.map Prod.snd).flatten.count WIN =
        if (playFinal g trace).localWin then 1 else 0 :=
  playLoop_spec P hP hfit hsol rnd inputs g hg hw

theorem C11_win_sent_once_witness :
    board.DirCodes ∧ SpritesFit board ∧ SpritesSolid board ∧ FrogInv lastStepGame.frog ∧
    lastStepGame.localWin = false ∧
    (playLoop board (fun _ => 0) lastStepGame [pushUp, pushUp]).map
        (fun tr => tr.map (fun r => (r.2, r.1.frog.ypos, r.1.localWin))) =
      some [([WIN], 15, true)] ∧
    ∃ trace, playLoop board (fun _ => 0) lastStepGame [pushUp, pushUp] = some trace ∧
      (∀ r ∈ trace,
        (WIN ∈ r.2 ↔ r.1.frog.ypos < TOP_BORDER + GRID_SIZE) ∧ r.2.count WIN ≤ 1 ∧
        (WIN ∈ r.2 → r.1.localWin = true ∧ playing r.1 = false) ∧
        (WIN ∉ r.2 → r.1.localWin = false)) ∧
      (∀ pre a b post, trace = pre ++ a :: b :: post → WIN ∉ a.2) ∧
      (trace.map Prod.snd).flatten.count WIN =
        if (playFinal lastStepGame trace).localWin then 1 else 0 :=
  ⟨by decide, by decide, by decide, by decide, rfl, by decide,
    C11_win_sent_once board (by decide) (by decide) (by decide) (fun _ => 0) lastStepGame
      (by decide) rfl [pushUp, pushUp]⟩

/-! ## Hazards stay on their row -/

theorem hazard_row_step (P : Platform) (hP : P.DirCodes) (rnd : Nat → Nat) (k : Nat)
    (e : Entity) (hnp : e.isPlayer = false)
    (hd : e.direction = P.PS2_LEFT ∨ e.direction = P.PS2_RIGHT) :
    ∃ r, updateEntity P rnd k e = some r ∧ r.1.isPlayer = false ∧ r.1.ypos = e.ypos ∧
      r.1.image = e.image ∧
      (r.1.direction = P.PS2_LEFT ∨ r.1.direction = P.PS2_RIGHT) := by
  obtain ⟨s1, s0, s2, -, sR, -, sL, -⟩ := stepEntity_spec P hP e
  have hL : P.PS2_LEFT % 256 = P.PS2_LEFT := Nat.mod_eq_of_lt hP.2.2.2.1
  have hR : P.PS2_RIGHT % 256 = P.PS2_RIGHT := Nat.mod_eq_of_lt hP.2.1
  have sy : (stepEntity P e).ypos = e.ypos := by
    rcases hd with h | h
    · exact (sL h).2
    · exact (sR h).2
  obtain ⟨r3, h3, i3, y3, p3, c3⟩ := correctRight_spec P rnd k (stepEntity P e)
  obtain ⟨r4, h4, i4, y4, p4, c4⟩ := correctLeft_spec P rnd r3.2 r3.1
  rw [updateEntity_hazard P rnd k e hnp, h3]
  refine ⟨r4, h4, by rw [p4, p3, s0, hnp], by rw [y4, y3, sy], by rw [i4, i3, s1], ?_⟩
  have d3 : r3.1.direction = P.PS2_LEFT ∨ r3.1.direction = P.PS2_RIGHT := by
    rcases c3 with ⟨-, d, -⟩ | ⟨-, -, ⟨-, d, -⟩ | ⟨-, d, -⟩⟩
    · rw [d, s2]; exact hd
    · rw [d, hL]; exact Or.inl rfl
    · rw [d, s2]; exact hd
  rcases c4 with ⟨-, d, -⟩ | ⟨-, -, ⟨-, d, -⟩ | ⟨-, d, -⟩⟩
  · rw [d]; exact d3
  · rw [d, hR]; exact Or.inr rfl
  · rw [d]; exact d3

theorem hazard_row_seq (P : Platform) (hP : P.DirCodes) (rnd : Nat → Nat) (ks : List Nat) :
    ∀ e : Entity, e.isPlayer = false →
      (e.direction = P.PS2_LEFT ∨ e.direction = P.PS2_RIGHT) →
      ∃ r, updateEntitySeq P rnd ks e = some r ∧ r.isPlayer = false ∧ r.ypos = e.ypos ∧
        r.image = e.image ∧ (r.direction = P.PS2_LEFT ∨ r.direction = P.PS2_RIGHT) := by
  induction ks with
  | nil => intro e hnp hd; exact ⟨e, rfl, hnp, rfl, rfl, hd⟩
  | cons k ks ih =>
    intro e hnp hd
    obtain ⟨r, hr, p, y, i, d⟩ := hazard_row_step P hP rnd k e hnp hd
    obtain ⟨r', hr', p', y', i', d'⟩ := ih r.1 p d
    refine ⟨r', ?_, p', y'.trans y, i'.trans i, d'⟩
    show (updateEntity P rnd k e).bind _ = _
    rw [hr]; exact hr'

/-- C23: on a board with distinct 8-bit direction codes whose `ENTITY_IMAGES` array is
complete, `fillEntities` returns, and the hazard it leaves in each used cell of table
row `i` has `ypos = TOP_BORDER + (i + 1) * GRID_SIZE + yOffset(image)` (the exact sum,
which fits the 16-bit field) and faces left or right; after any sequence of
`updateEntity` calls, whatever the state of the random source at each call, the entity
has the same `ypos` and the same image and still faces left or right. -/
theorem C23_hazard_keeps_row (P : Platform) (hP : P.DirCodes) (hI : P.ImagesComplete)
    (rnd : Nat → Nat) (t : Table) (k : Nat) :
    ∃ st, fillEntities P rnd t k = some st ∧
      ∀ i j, i < ENTITY_ROWS → j < rowCount i →
        (st.1 i j).ypos = TOP_BORDER + (i + 1) * GRID_SIZE + yOffset (st.1 i j).image ∧
        ((st.1 i j).direction = P.PS2_LEFT ∨ (st.1 i j).direction = P.PS2_RIGHT) ∧
        ∀ ks : List Nat, ∃ e, updateEntitySeq P rnd ks (st.1 i j) = some e ∧
          e.ypos = (st.1 i j).ypos ∧ e.image = (st.1 i j).image ∧
          (e.direction = P.PS2_LEFT ∨ e.direction = P.PS2_RIGHT) := by
  obtain ⟨st, hst, -, -, good⟩ := fillRows_spec P hI rnd (List.range ENTITY_ROWS) (t, k)
  refine ⟨st, hst, ?_⟩
  intro i j hi hj
  have hj0 : j = 0 := by rw [rowCount_eq] at hj; omega
  subst hj0
  obtain ⟨p, -, -, hy, hd, -, -⟩ := good i (List.mem_range.2 hi)
  have hL : P.PS2_LEFT % 256 = P.PS2_LEFT := Nat.mod_eq_of_lt hP.2.2.2.1
  have hR : P.PS2_RIGHT % 256 = P.PS2_RIGHT := Nat.mod_eq_of_lt hP.2.1
  rw [hL, hR] at hd
  have hd' : (st.1 i 0).direction = P.PS2_LEFT ∨ (st.1 i 0).direction = P.PS2_RIGHT :=
    hd.symm
  have hyo : yOffset (st.1 i 0).image < 256 := toU8_lt _
  have hi8 : i < 8 := hi
  refine ⟨?_, hd', ?_⟩
  · rw [hy]
    simp only [GRID_SIZE_val, TOP_BORDER_val, Nat.cast_ofNat]
    generalize yOffset (st.1 i 0).image = yo at hyo
    unfold toU16
    omega
  · intro ks
    obtain ⟨e, he, -, ye, ie, de⟩ := hazard_row_seq P hP rnd ks (st.1 i 0) p hd'
    exact ⟨e, he, ye, ie, de⟩

theorem C23_hazard_keeps_row_witness :
    board.DirCodes ∧ board.ImagesComplete ∧ 4 < ENTITY_ROWS ∧ 0 < rowCount 4 ∧
    ∃ st, fillEntities board (fun n => 5 * n + 1) zeroTable 0 = some st ∧
      (st.1 4 0).ypos = TOP_BORDER + (4 + 1) * GRID_SIZE + yOffset (st.1 4 0).image ∧
      ∃ e, updateEntitySeq board (fun n => 5 * n + 1) [32, 33] (st.1 4 0) = some e ∧
        e.ypos = (st.1 4 0).ypos := by
  obtain ⟨st, hst, H⟩ :=
    C23_hazard_keeps_row board (by decide) rfl (fun n => 5 * n + 1) zeroTable 0
  obtain ⟨y, -, S⟩ := H 4 0 (by decide) (by decide)
  obtain ⟨e, he, ye, -, -⟩ := S [32, 33]
  exact ⟨by decide, rfl, by decide, by decide, st, hst, y, e, he, ye⟩

/-! ## Row layout shared by the resolver and the generator -/

/-- C25: for a player whose `ypos` lies in the playfield (`TOP_BORDER ≤ ypos <
BOTTOM_BORDER`, as for every player with a non-empty image inside the playfield) and
whose row `r` is neither 0 nor `GRID_HEIGHT - 1`, the table index `r - 1` is below
ENTITY_ROWS and the resolver's read of `entities[r - 1][j]` is inside the array; on the
table filled by `fillEntities` the resolver runs the log loop on that row exactly when
`r ≤ WATER_ROWS`, and then the row holds LOG_IMAGE, and it runs the car loop exactly
when `WATER_ROWS < r`, and then the row holds an element of `ENTITY_IMAGES`; when no
car image equals LOG_IMAGE the image of the row tells the two cases apart. -/
theorem C25_rows_agree (P : Platform) (hI : P.ImagesComplete) (rnd : Nat → Nat) (t : Table)
    (k : Nat) (frog : Entity) (hy1 : TOP_BORDER ≤ frog.ypos) (hy2 : frog.ypos < BOTTOM_BORDER)
    (hr0 : frogRow frog ≠ 0) (hr9 : frogRow frog ≠ GRID_HEIGHT - 1) :
    frogRow frog - 1 < ENTITY_ROWS ∧
    ∃ st, fillEntities P rnd t k = some st ∧
      ∀ j, j < rowCount (frogRow frog - 1) →
        st.1.read (frogRow frog - 1) j = some (st.1 (frogRow frog - 1) j) ∧
        (∀ alive, resolve P st.1 frog alive =
          if frogRow frog > WATER_ROWS then
            (roadCheck st.1 (frogRow frog) frog alive).map (fun a => (frog, a))
          else
            (waterCheck P st.1 (frogRow frog) frog).map
              (fun s => (s.1, if s.2 then alive else false))) ∧
        (frogRow frog ≤ WATER_ROWS → (st.1 (frogRow frog - 1) j).image = P.LOG_IMAGE) ∧
        (WATER_ROWS < frogRow frog → (st.1 (frogRow frog - 1) j).image ∈ P.ENTITY_IMAGES) ∧
        (P.LOG_IMAGE ∉ P.ENTITY_IMAGES →
          ((st.1 (frogRow frog - 1) j).image = P.LOG_IMAGE ↔ frogRow frog ≤ WATER_ROWS) ∧
          ((st.1 (frogRow frog - 1) j).image ∈ P.ENTITY_IMAGES ↔
            WATER_ROWS < frogRow frog)) := by
  simp only [TOP_BORDER_val, BOTTOM_BORDER_val] at hy1 hy2
  have hrow := frogRow_small frog hy2
  have hr9' : frogRow frog ≠ 9 := hr9
  have hlt : frogRow frog - 1 < 8 := by rw [hrow] at hr9' hr0 ⊢; omega
  have hge : 1 ≤ frogRow frog := Nat.pos_of_ne_zero hr0
  refine ⟨hlt, ?_⟩
  obtain ⟨st, hst, -, -, good⟩ := fillRows_spec P hI rnd (List.range ENTITY_ROWS) (t, k)
  refine ⟨st, hst, ?_⟩
  intro j hj
  have hj0 : j = 0 := by rw [rowCount_eq] at hj; omega
  subst hj0
  obtain ⟨-, -, -, -, -, il, ic⟩ := good (frogRow frog - 1) (List.mem_range.2 hlt)
  simp only [WATER_ROWS_val] at il ic ⊢
  have hlog : frogRow frog ≤ 3 → (st.1 (frogRow frog - 1) 0).image = P.LOG_IMAGE :=
    fun h => il (by omega)
  have hcar : 3 < frogRow frog → (st.1 (frogRow frog - 1) 0).image ∈ P.ENTITY_IMAGES :=
    fun h => ic (by omega)
  refine ⟨Table.read_eq _ _ _ hlt (by decide), ?_, hlog, hcar, ?_⟩
  · intro alive
    unfold resolve
    simp only [WATER_ROWS_val]
    rw [if_pos ⟨hr9, hr0⟩]
  · intro hne
    constructor
    · constructor
      · intro himg
        by_contra hgt
        have := hcar (by omega)
        rw [himg] at this
        exact hne this
      · exact hlog
    · constructor
      · intro hmem
        by_contra hle
        have := hlog (by omega)
        rw [this] at hmem
        exact hne hmem
      · exact hcar

theorem C25_rows_agree_witness :
    board.ImagesComplete ∧
    (TOP_BORDER ≤ roadFrog.ypos ∧ roadFrog.ypos < BOTTOM_BORDER) ∧
    (frogRow roadFrog, frogRow roadFrog - 1) = (5, 4) ∧
    ∃ st, fillEntities board (fun n => 3 * n) zeroTable 0 = some st ∧
      (st.1 (frogRow roadFrog - 1) 0).image ∈ board.ENTITY_IMAGES := by
  obtain ⟨-, st, hst, H⟩ := C25_rows_agree board rfl (fun n => 3 * n) zeroTable 0 roadFrog
    (by decide) (by decide) (by decide) (by decide)
  obtain ⟨-, -, -, hcar, -⟩ := H 0 (by decide)
  exact ⟨rfl, by decide, by decide, st, hst, hcar (by decide)⟩

/-! ## The peer's frog lands in the sender's cell -/

theorem receiveStep_pos (P : Platform) (frog2 : Entity) (remoteWin : Bool) (w : Nat)
    (hw : w ≠ WIN) :
    receiveStep P frog2 remoteWin (some w) =
      (correctBackgroundImage P (decodePos frog2 w), remoteWin) := by
  unfold receiveStep
  simp only [ne_eq, hw, not_false_eq_true, if_true]

/-- C26: for every position `(x, y)` in the playfield (`LEFT_BORDER ≤ x ≤ RIGHT_BORDER`,
`TOP_BORDER ≤ y ≤ BOTTOM_BORDER`) and every remote frog whose image is no larger than a
grid cell, the word `(x << 16) + y` is not WIN, the receive step decodes it to exactly
`(x, y)`, and after `correctOffset` (main.c 447) the remote frog's column
`(xpos - LEFT_BORDER) / GRID_SIZE` and row `(ypos - TOP_BORDER) / GRID_SIZE` are those
of `(x, y)`. -/
theorem C26_remote_cell (P : Platform) (frog2 : Entity) (remoteWin : Bool) (x y : Nat)
    (hx1 : LEFT_BORDER ≤ x) (hx2 : x ≤ RIGHT_BORDER) (hy1 : TOP_BORDER ≤ y)
    (hy2 : y ≤ BOTTOM_BORDER) (hw : frog2.image.width ≤ GRID_SIZE)
    (hh : frog2.image.height ≤ GRID_SIZE) :
    encodePos x y ≠ WIN ∧
    (receiveStep P frog2 remoteWin (some (encodePos x y))).1.xpos = x ∧
    (receiveStep P frog2 remoteWin (some (encodePos x y))).1.ypos = y ∧
    ((correctOffset (receiveStep P frog2 remoteWin (some (encodePos x y))).1).xpos
        - LEFT_BORDER) / GRID_SIZE = (x - LEFT_BORDER) / GRID_SIZE ∧
    ((correctOffset (receiveStep P frog2 remoteWin (some (encodePos x y))).1).ypos
        - TOP_BORDER) / GRID_SIZE = (y - TOP_BORDER) / GRID_SIZE := by
  simp only [LEFT_BORDER_val, RIGHT_BORDER_val, TOP_BORDER_val, BOTTOM_BORDER_val,
    GRID_SIZE_val] at hx1 hx2 hy1 hy2 hw hh ⊢
  have hne : encodePos x y ≠ WIN := encodePos_ne_WIN x y (by omega) (by omega) (by omega)
  have henc := encodePos_eq x y (by omega) (by omega)
  have hxd : (x * 65536 + y) / 65536 % 256 = x := by omega
  have hyd : (x * 65536 + y) % 65536 = y := by omega
  have hrx : (receiveStep P frog2 remoteWin (some (encodePos x y))).1.xpos = x := by
    rw [receiveStep_pos P frog2 remoteWin _ hne, decodePos_eq, henc]
    exact hxd
  have hry : (receiveStep P frog2 remoteWin (some (encodePos x y))).1.ypos = y := by
    rw [receiveStep_pos P frog2 remoteWin _ hne, decodePos_eq, henc]
    exact hyd
  have hrw : (receiveStep P frog2 remoteWin (some (encodePos x y))).1.image.width
      = frog2.image.width := by
    rw [receiveStep_pos P frog2 remoteWin _ hne]; rfl
  have hrh : (receiveStep P frog2 remoteWin (some (encodePos x y))).1.image.height
      = frog2.image.height := by
    rw [receiveStep_pos P frog2 remoteWin _ hne]; rfl
  refine ⟨hne, hrx, hry, ?_, ?_⟩
  · rw [correctOffset_xpos_gen _ (by rw [hrx]; omega) (by rw [hrw]; exact hw), hrx, hrw]
    omega
  · rw [correctOffset_ypos_gen _ (by rw [hry]; omega) (by rw [hrh]; exact hh), hry, hrh]
    omega

theorem C26_remote_cell_witness :
    (LEFT_BORDER ≤ 100 ∧ 100 ≤ RIGHT_BORDER ∧ TOP_BORDER ≤ 165 ∧ 165 ≤ BOTTOM_BORDER ∧
      remoteFrog.image.width ≤ GRID_SIZE ∧ remoteFrog.image.height ≤ GRID_SIZE) ∧
    (correctOffset (receiveStep board remoteFrog false (some (encodePos 100 165))).1).xpos
      = 77 ∧
    ((correctOffset (receiveStep board remoteFrog false (some (encodePos 100 165))).1).xpos
        - LEFT_BORDER) / GRID_SIZE = (100 - LEFT_BORDER) / GRID_SIZE :=
  ⟨by decide, by decide,
   (C26_remote_cell board remoteFrog false 100 165 (by decide) (by decide) (by decide)
      (by decide) (by decide) (by decide)).2.2.2.1⟩

/-! ## Hazards placed by the generator -/

theorem rowSetup_xmid (P : Platform) (rnd : Nat → Nat) (i k : Nat)
    (s : Nat × Nat × Image × Nat × Nat × Nat) (h : rowSetup P rnd i k = some s) :
    s.1 = 15 + rnd k % 210 := by
  unfold rowSetup at h
  rw [(randRange_some LEFT_BORDER RIGHT_BORDER (rnd k) (by decide) (by decide)).1,
    (randRange_some 1 100 (rnd (k + 1)) (by decide) (by decide)).1] at h
  simp only [Option.some_bind] at h
  split at h
  · simp only [Option.map_eq_some'] at h
    obtain ⟨m, -, hm⟩ := h
    rw [← hm]
    rfl
  · simp only [Option.bind_eq_some, Option.map_eq_some'] at h
    obtain ⟨im, -, m, -, hm⟩ := h
    rw [← hm]
    rfl

theorem placeX_single (xmid spacing : Nat) (image : Image) (h1 : 15 ≤ xmid)
    (h2 : xmid < 225) :
    placeX xmid 0 0 spacing image =
      if xmid + image.width > 225 then toU8 ((xmid : Int) + image.width - 210) else xmid := by
  have h0 : toU8 ((xmid : Int) + (((0 : Nat) : Int) - ((0 : Nat) : Int))
      * ((spacing : Int) + image.width)) = xmid := by
    simp only [Nat.cast_zero, sub_self, zero_mul, add_zero]
    unfold toU8; omega
  unfold placeX
  have hl : ¬ xmid < 15 := by omega
  simp only [h0, LEFT_BORDER_val, RIGHT_BORDER_val, Nat.cast_ofNat, if_neg hl]
  clear h0
  by_cases hw : xmid + image.width > 225
  · rw [if_pos hw, if_pos (by omega)]
    congr 1
    omega
  · rw [if_neg hw, if_neg (by omega)]

theorem fillRows_pred (P : Platform) (rnd : Nat → Nat) (Q : Nat → Entity → Prop)
    (hQ : ∀ i st, ∃ st' e, fillRow P rnd i st = some st' ∧ st'.1 = st.1.write i 0 e ∧ Q i e)
    (rows : List Nat) :
    ∀ st : Table × Nat, ∃ st', rows.foldlM (fun st i => fillRow P rnd i st) st = some st' ∧
      (∀ i, i ∉ rows → ∀ j, st'.1 i j = st.1 i j) ∧
      (∀ i, i ∈ rows → Q i (st'.1 i 0)) := by
  induction rows with
  | nil =>
    intro st
    exact ⟨st, rfl, fun _ _ _ => rfl, fun i hi => absurd hi (List.not_mem_nil i)⟩
  | cons a rows ih =>
    intro st
    obtain ⟨st1, e, h1, hw, q⟩ := hQ a st
    obtain ⟨st2, h2, keep, good⟩ := ih st1
    refine ⟨st2, ?_, ?_, ?_⟩
    · rw [List.foldlM_cons, h1]; exact h2
    · intro i hi j
      rw [keep i (fun h => hi (List.mem_cons_of_mem a h)) j, hw]
      unfold Table.write
      rw [if_neg (fun (h : i = a ∧ j = 0) => hi (by rw [h.1]; exact List.mem_cons_self a rows))]
    · intro i hi
      by_cases hmem : i ∈ rows
      · exact good i hmem
      · have hia : i = a := by
          rcases List.mem_cons.1 hi with h | h
          · exact h
          · exact absurd h hmem
        have hcell : st2.1 i 0 = e := by
          rw [keep i hmem 0, hw]
          unfold Table.write
          rw [if_pos ⟨hia, rfl⟩]
        rw [hcell, hia]
        exact q

theorem fillRow_inside (P : Platform) (hI : P.ImagesComplete)
    (hlog : P.LOG_IMAGE.width ≤ 105) (hcar : ∀ im ∈ P.ENTITY_IMAGES, im.width ≤ 105)
    (rnd : Nat → Nat) (i : Nat) (st : Table × Nat) :
    ∃ st' e, fillRow P rnd i st = some st' ∧ st'.1 = st.1.write i 0 e ∧
      15 ≤ e.xpos ∧ e.xpos + e.image.width ≤ 225 := by
  obtain ⟨s, hs, -, -, il, ic⟩ := rowSetup_some P hI rnd i st.2
  have hx := rowSetup_xmid P rnd i st.2 s hs
  have hw : s.2.2.1.width ≤ 105 := by
    by_cases hi : i < WATER_ROWS
    · rw [il hi]; exact hlog
    · exact hcar _ (ic (by omega))
  have hmid : (if i < WATER_ROWS then LOGS_PER_ROW / 2 else CARS_PER_ROW / 2) = 0 := by
    split <;> rfl
  have hmod : rnd st.2 % 210 < 210 := Nat.mod_lt _ (by decide)
  have hp := placeX_single s.1 s.2.2.2.1 s.2.2.1 (by omega) (by omega)
  unfold fillRow
  rw [hs, rowCount_eq]
  simp only [Option.map_some', List.range_succ, List.range_zero, List.nil_append,
    List.foldl_cons, List.foldl_nil, hmid]
  refine ⟨_, _, rfl, rfl, ?_⟩
  show 15 ≤ placeX s.1 0 0 s.2.2.2.1 s.2.2.1 % 256 ∧
    placeX s.1 0 0 s.2.2.2.1 s.2.2.1 % 256 + s.2.2.1.width ≤ 225
  rw [hp]
  generalize s.2.2.1.width = w at hw
  generalize s.1 = xmid at hx
  generalize rnd st.2 % 210 = m at hx hmod
  clear hp hs il ic
  split
  · unfold toU8; omega
  · omega

/-- C22 (amended): on a board whose `ENTITY_IMAGES` array is complete and whose log and
car images are at most half as wide as the playfield (`GAME_WIDTH / 2 = 105`),
`fillEntities` returns for every random source, and every table cell the game loop uses
(row `i < ENTITY_ROWS`, `j` below the row's entity count) then holds an entity with
`LEFT_BORDER ≤ xpos` and `xpos + image.width ≤ RIGHT_BORDER`. -/
theorem C22_hazards_start_inside (P : Platform) (hI : P.ImagesComplete)
    (hlog : P.LOG_IMAGE.width ≤ GAME_WIDTH / 2)
    (hcar : ∀ im ∈ P.ENTITY_IMAGES, im.width ≤ GAME_WIDTH / 2)
    (rnd : Nat → Nat) (t : Table) (k : Nat) :
    ∃ st, fillEntities P rnd t k = some st ∧
      ∀ i j, i < ENTITY_ROWS → j < rowCount i →
        LEFT_BORDER ≤ (st.1 i j).xpos ∧
        (st.1 i j).xpos + (st.1 i j).image.width ≤ RIGHT_BORDER := by
  obtain ⟨st, hst, -, good⟩ := fillRows_pred P rnd
    (fun _ e => 15 ≤ e.xpos ∧ e.xpos + e.image.width ≤ 225)
    (fillRow_inside P hI hlog hcar rnd) (List.range ENTITY_ROWS) (t, k)
  refine ⟨st, hst, ?_⟩
  intro i j hi hj
  have hj0 : j = 0 := by rw [rowCount_eq] at hj; omega
  subst hj0
  exact good i (List.mem_range.2 hi)

theorem C22_hazards_start_inside_witness :
    board.ImagesComplete ∧ board.LOG_IMAGE.width ≤ GAME_WIDTH / 2 ∧
    (∀ im ∈ board.ENTITY_IMAGES, im.width ≤ GAME_WIDTH / 2) ∧
    2 < ENTITY_ROWS ∧ 0 < rowCount 2 ∧
    ∃ st, fillEntities board (fun _ => 209) zeroTable 0 = some st ∧
      LEFT_BORDER ≤ (st.1 2 0).xpos ∧
      (st.1 2 0).xpos + (st.1 2 0).image.width ≤ RIGHT_BORDER := by
  obtain ⟨st, hst, H⟩ := C22_hazards_start_inside board rfl (by decide) (by decide)
    (fun _ => 209) zeroTable 0
  exact ⟨rfl, by decide, by decide, by decide, by decide, st, hst,
    H 2 0 (by decide) (by decide)⟩

/-- C22, as stated for every image narrower than the playfield, fails for wide images:
with a log 209 pixels wide and `rand()` returning 100, `xmid` is 115, past
`RIGHT_BORDER - width = 16`, and the wrap of main.c 741 places the log at
`15 + 115 - 16 = 114`, so that its right edge is at 323.  Already a log 106 pixels wide,
one more than half the playfield, ends with its right edge at 226 when `xmid` is 224. -/
theorem C22_counterexample :
    (wideLogBoard.LOG_IMAGE.width < GAME_WIDTH ∧
      (fillEntities wideLogBoard (fun _ => 100) zeroTable 0).map
          (fun st => ((st.1 0 0).xpos, (st.1 0 0).image.width)) = some (114, 209) ∧
      ¬ (114 + 209 ≤ RIGHT_BORDER)) ∧
    (halfLogBoard.LOG_IMAGE.width < GAME_WIDTH ∧
      (fillEntities halfLogBoard (fun _ => 209) zeroTable 0).map
          (fun st => ((st.1 0 0).xpos, (st.1 0 0).image.width)) = some (120, 106) ∧
      ¬ (120 + 106 ≤ RIGHT_BORDER)) := by
  decide

/-! ## Hazards never overshoot a border by more than one pixel -/

theorem hazardNear_iff (P : Platform) (e : Entity) :
    HazardNear P e ↔ e.isPlayer = false ∧ 1 ≤ e.move ∧ e.move ≤ 2 ∧ e.image.width < 210 ∧
      14 ≤ e.xpos ∧ e.xpos + e.image.width ≤ 226 ∧
      (e.direction = P.PS2_RIGHT → e.xpos + e.image.width ≤ 225) ∧
      (e.direction = P.PS2_LEFT → 15 ≤ e.xpos) := Iff.rfl

theorem stepEntity_xpos_other (P : Platform) (e : Entity) (h1 : e.direction ≠ P.PS2_RIGHT)
    (h2 : e.direction ≠ P.PS2_LEFT) : (stepEntity P e).xpos = e.xpos := by
  unfold stepEntity
  split_ifs <;> first | rfl | contradiction

theorem hazard_stepped (P : Platform) (hP : P.DirCodes) (e : Entity) (he : HazardNear P e) :
    (stepEntity P e).image = e.image ∧ (stepEntity P e).isPlayer = false ∧
    (stepEntity P e).direction = e.direction ∧ (stepEntity P e).move = e.move ∧
    13 ≤ (stepEntity P e).xpos ∧ (stepEntity P e).xpos + e.image.width ≤ 227 ∧
    (e.direction ≠ P.PS2_LEFT → 14 ≤ (stepEntity P e).xpos) ∧
    (e.direction ≠ P.PS2_RIGHT → (stepEntity P e).xpos + e.image.width ≤ 226) ∧
    (e.direction = P.PS2_RIGHT → (stepEntity P e).xpos = e.xpos + e.move) ∧
    (e.direction = P.PS2_LEFT → (stepEntity P e).xpos + e.move = e.xpos) ∧
    (e.direction ≠ P.PS2_RIGHT → e.direction ≠ P.PS2_LEFT →
      (stepEntity P e).xpos = e.xpos) := by
  obtain ⟨hnp, m1, m2, hw, x1, x2, xR, xL⟩ := (hazardNear_iff P e).1 he
  obtain ⟨s1, s0, s2, s3, sR, -, sL, -⟩ := stepEntity_spec P hP e
  have hRL : P.PS2_RIGHT ≠ P.PS2_LEFT := hP.1.2.1
  have hother := stepEntity_xpos_other P e
  clear he hP
  refine ⟨s1, by rw [s0, hnp], s2, s3, ?_⟩
  by_cases hR : e.direction = P.PS2_RIGHT
  · have hnl : e.direction ≠ P.PS2_LEFT := fun h => hRL (hR.symm.trans h)
    have hx := (sR hR).1
    have hb := xR hR
    rw [toU8_add _ _ (by omega)] at hx
    rw [hx]
    exact ⟨by omega, by omega, fun _ => by omega, fun h => absurd hR h, fun _ => rfl,
      fun h => absurd h hnl, fun h => absurd hR h⟩
  · by_cases hL : e.direction = P.PS2_LEFT
    · have hx := (sL hL).1
      have hb := xL hL
      rw [toU8_sub _ _ (by omega) (by omega)] at hx
      rw [hx]
      exact ⟨by omega, by omega, fun h => absurd hL h, fun _ => by omega,
        fun h => absurd h hR, fun _ => by omega, fun _ h => absurd hL h⟩
    · rw [hother hR hL]
      exact ⟨by omega, by omega, fun _ => x1, fun _ => x2, fun h => absurd h hR,
        fun h => absurd h hL, fun _ _ => rfl⟩

theorem hazard_step_near (P : Platform) (hP : P.DirCodes) (rnd : Nat → Nat) (k : Nat)
    (e : Entity) (he : HazardNear P e) :
    ∃ r, updateEntity P rnd k e = some r ∧ HazardNear P r.1 ∧ r.1.image = e.image ∧
      ((r.1.xpos : Int) = e.xpos ∨ (r.1.xpos : Int) = e.xpos + e.move ∨
       (r.1.xpos : Int) = e.xpos + e.move - 1 ∨ (r.1.xpos : Int) = 16 ∨
       (r.1.xpos : Int) = e.xpos - e.move ∨ (r.1.xpos : Int) = e.xpos - e.move + 1 ∨
       (r.1.xpos : Int) = 225 - e.image.width - 1) := by
  obtain ⟨t1, t0, t2, t3, a1, a2, a3, a4, aR, aL, aO⟩ := hazard_stepped P hP e he
  obtain ⟨hnp, m1, m2, hw, -, -, -, -⟩ := (hazardNear_iff P e).1 he
  have hRL : P.PS2_RIGHT ≠ P.PS2_LEFT := hP.1.2.1
  have hLm : P.PS2_LEFT % 256 = P.PS2_LEFT := Nat.mod_eq_of_lt hP.2.2.2.1
  have hRm : P.PS2_RIGHT % 256 = P.PS2_RIGHT := Nat.mod_eq_of_lt hP.2.1
  obtain ⟨r3, h3, i3, -, p3, c3⟩ := correctRight_spec P rnd k (stepEntity P e)
  obtain ⟨r4, h4, i4, -, p4, c4⟩ := correctLeft_spec P rnd r3.2 r3.1
  rw [t1] at i3 c3
  rw [t2, t3] at c3
  rw [i3] at i4 c4
  have hmid : 1 ≤ r3.1.move ∧ r3.1.move ≤ 2 ∧ 13 ≤ r3.1.xpos ∧
      r3.1.xpos + e.image.width ≤ 226 ∧
      (r3.1.direction = P.PS2_RIGHT → r3.1.xpos + e.image.width ≤ 225) ∧
      (r3.1.direction ≠ P.PS2_LEFT → 14 ≤ r3.1.xpos) ∧
      (r3.1.direction = P.PS2_LEFT →
        ((r3.1.xpos : Int) = e.xpos - e.move ∨ (r3.1.xpos : Int) = e.xpos + e.move - 1)) ∧
      (r3.1.direction ≠ P.PS2_LEFT →
        ((r3.1.xpos : Int) = e.xpos ∨ (r3.1.xpos : Int) = e.xpos + e.move ∨
          (r3.1.xpos : Int) = 16)) := by
    generalize (stepEntity P e).xpos = sx at a1 a2 a3 a4 aR aL aO c3
    clear h3 h4 c4 he t1 t0 t2 t3 i3 i4 p3 p4 hP
    rcases c3 with ⟨x, d, m, -, hno⟩ | ⟨hd, hge, ⟨x, d, m, -⟩ | ⟨x, d, m, -⟩⟩
    · rw [x, d, m]
      refine ⟨m1, m2, a1, ?_, ?_, a3, ?_, ?_⟩
      · by_cases hR : e.direction = P.PS2_RIGHT
        · have : ¬ sx + e.image.width ≥ 225 := fun h => hno ⟨hR, h⟩
          omega
        · exact a4 hR
      · intro hR
        have : ¬ sx + e.image.width ≥ 225 := fun h => hno ⟨hR, h⟩
        omega
      · intro hL
        have := aL hL
        omega
      · intro hnl
        by_cases hR : e.direction = P.PS2_RIGHT
        · have := aR hR
          omega
        · have := aO hR hnl
          omega
    · have hs := aR hd
      have hx : r3.1.xpos + 1 = sx := by rw [x]; unfold toU8; omega
      rw [d, hLm, m]
      refine ⟨by omega, by omega, by omega, by omega, fun h => absurd h.symm hRL,
        fun h => absurd rfl h, fun _ => by omega, fun h => absurd rfl h⟩
    · have hs := aR hd
      have hnl : e.direction ≠ P.PS2_LEFT := fun h => hRL (hd.symm.trans h)
      rw [x, d, m]
      refine ⟨m1, m2, by omega, by omega, fun _ => by omega, fun _ => by omega,
        fun h => absurd h hnl, fun _ => by omega⟩
  obtain ⟨n1, n2, b1, b2, bR, bnL, eL, enL⟩ := hmid
  refine ⟨r4, by rw [updateEntity_hazard P rnd k e hnp, h3]; exact h4, ?_, i4, ?_⟩
  · rw [hazardNear_iff, i4, p4, p3, t0]
    generalize r3.1.xpos = x3 at b1 b2 bR bnL eL enL c4
    clear h3 h4 c3 he t1 t0 t2 t3 i3 i4 p3 p4 hP a1 a2 a3 a4 aR aL aO eL enL
    rcases c4 with ⟨x, d, m, -, hno⟩ | ⟨hd, hle, ⟨x, d, m, -⟩ | ⟨x, d, m, -⟩⟩
    · rw [x, d, m]
      refine ⟨rfl, n1, n2, hw, ?_, b2, bR, ?_⟩
      · by_cases hL : r3.1.direction = P.PS2_LEFT
        · have : ¬ x3 ≤ 15 := fun h => hno ⟨hL, h⟩
          omega
        · exact bnL hL
      · intro hL
        have : ¬ x3 ≤ 15 := fun h => hno ⟨hL, h⟩
        omega
    · have hx : r4.1.xpos = x3 + 1 := by rw [x]; unfold toU8; omega
      rw [hx, d, hRm, m]
      exact ⟨rfl, by omega, by omega, hw, by omega, by omega, fun _ => by omega,
        fun h => absurd h hRL⟩
    · have hx : r4.1.xpos + e.image.width = 224 := by rw [x]; unfold toU8; omega
      rw [d, m]
      exact ⟨rfl, n1, n2, hw, by omega, by omega, fun _ => by omega, fun _ => by omega⟩
  · generalize r3.1.xpos = x3 at b1 b2 bR bnL eL enL c4
    clear h3 h4 c3 he t1 t0 t2 t3 i3 i4 p3 p4 hP a1 a2 a3 a4 aR aL aO
    rcases c4 with ⟨x, -, -, -, -⟩ | ⟨hd, hle, ⟨x, -⟩ | ⟨x, -⟩⟩
    · rw [x]
      by_cases hL : r3.1.direction = P.PS2_LEFT
      · have := eL hL
        omega
      · have := enL hL
        omega
    · have hx : r4.1.xpos = x3 + 1 := by rw [x]; unfold toU8; omega
      have := eL hd
      omega
    · have hx : r4.1.xpos + e.image.width = 224 := by rw [x]; unfold toU8; omega
      omega

theorem hazard_seq_near (P : Platform) (hP : P.DirCodes) (rnd : Nat → Nat) (ks : List Nat) :
    ∀ e : Entity, HazardNear P e →
      ∃ r, updateEntitySeq P rnd ks e = some r ∧ HazardNear P r ∧ r.image = e.image := by
  induction ks with
  | nil => intro e he; exact ⟨e, rfl, he, rfl⟩
  | cons k ks ih =>
    intro e he
    obtain ⟨r, hr, hn, hi, -⟩ := hazard_step_near P hP rnd k e he
    obtain ⟨r', hr', hn', hi'⟩ := ih r.1 hn
    refine ⟨r', ?_, hn', hi'.trans hi⟩
    show (updateEntity P rnd k e).bind _ = _
    rw [hr]; exact hr'

/-- C21: on a board with distinct 8-bit direction codes, a non-player entity whose image
is narrower than the playfield, that lies between LEFT_BORDER and RIGHT_BORDER and has
a speed in the range of its class, satisfies `LEFT_BORDER - 1 ≤ xpos` and
`xpos + width ≤ RIGHT_BORDER + 1` after any sequence of `updateEntity` calls (every call
returns), whatever the state of the random source at each call.  From every state so
reached the next call stores in `xpos` the exact integer value of one of the source's
right-hand sides (`xpos`, `xpos + move`, `xpos + move - 1`, `LEFT_BORDER + 1`,
`xpos - move`, `xpos - move + 1`, `RIGHT_BORDER - width - 1`), so no 8-bit store wraps
around. -/
theorem C21_hazard_overshoot (P : Platform) (hP : P.DirCodes) (rnd : Nat → Nat)
    (e : Entity) (hnp : e.isPlayer = false)
    (hx1 : LEFT_BORDER ≤ e.xpos) (hx2 : e.xpos + e.image.width ≤ RIGHT_BORDER)
    (hw : e.image.width < GAME_WIDTH)
    (hm : (LOG_MIN_MOVE ≤ e.move ∧ e.move ≤ LOG_MAX_MOVE) ∨
      (CAR_MIN_MOVE ≤ e.move ∧ e.move ≤ CAR_MAX_MOVE))
    (ks : List Nat) :
    ∃ r, updateEntitySeq P rnd ks e = some r ∧ r.image = e.image ∧
      LEFT_BORDER - 1 ≤ r.xpos ∧ r.xpos + r.image.width ≤ RIGHT_BORDER + 1 ∧
      ∀ k, ∃ n, updateEntity P rnd k r = some n ∧
        ((n.1.xpos : Int) = r.xpos ∨ (n.1.xpos : Int) = r.xpos + r.move ∨
         (n.1.xpos : Int) = r.xpos + r.move - 1 ∨ (n.1.xpos : Int) = LEFT_BORDER + 1 ∨
         (n.1.xpos : Int) = r.xpos - r.move ∨ (n.1.xpos : Int) = r.xpos - r.move + 1 ∨
         (n.1.xpos : Int) = RIGHT_BORDER - r.image.width - 1) := by
  have he : HazardNear P e := by
    rw [hazardNear_iff]
    simp only [LEFT_BORDER_val, RIGHT_BORDER_val] at hx1 hx2
    have hm' : 1 ≤ e.move ∧ e.move ≤ 2 := by
      rcases hm with h | h
      · exact h
      · exact h
    exact ⟨hnp, hm'.1, hm'.2, hw, by omega, by omega, fun _ => hx2, fun _ => hx1⟩
  obtain ⟨r, hr, hn, hi⟩ := hazard_seq_near P hP rnd ks e he
  obtain ⟨-, -, -, -, b1, b2, -, -⟩ := (hazardNear_iff P r).1 hn
  refine ⟨r, hr, hi, b1, b2, ?_⟩
  intro k
  obtain ⟨n, h1, -, -, hex⟩ := hazard_step_near P hP rnd k r hn
  exact ⟨n, h1, hex⟩

theorem C21_hazard_overshoot_witness :
    (board.DirCodes ∧ edgeLog.isPlayer = false ∧ LEFT_BORDER ≤ edgeLog.xpos ∧
      edgeLog.xpos + edgeLog.image.width ≤ RIGHT_BORDER ∧
      edgeLog.image.width < GAME_WIDTH ∧
      LOG_MIN_MOVE ≤ edgeLog.move ∧ edgeLog.move ≤ LOG_MAX_MOVE) ∧
    (updateEntitySeq board (fun _ => 1) [0] edgeLog).map
        (fun r => (r.xpos, r.xpos + r.image.width, r.direction, r.move)) =
      some (165, 225, 3, 2) ∧
    ∃ r, updateEntitySeq board (fun _ => 1) [0, 1, 2, 3] edgeLog = some r ∧
      LEFT_BORDER - 1 ≤ r.xpos ∧ r.xpos + r.image.width ≤ RIGHT_BORDER + 1 := by
  obtain ⟨r, hr, -, b1, b2, -⟩ :=
    C21_hazard_overshoot board (by decide) (fun _ => 1) edgeLog rfl (by decide) (by decide)
      (by decide) (Or.inl (by decide)) [0, 1, 2, 3]
  exact ⟨by decide, by decide, r, hr, b1, b2⟩

/-! ## One grid cell per accepted move -/

theorem player_step_free (P : Platform) (hP : P.DirCodes) (e : Entity)
    (hpl : e.isPlayer = true) (hmove : e.move = 30)
    (hv : isValidMove P e e.direction = true) (hy : e.ypos < 100)
    (hnR : e.direction ≠ P.PS2_RIGHT) (hnL : e.direction ≠ P.PS2_LEFT) :
    (stepEntity P (playerSprite P e)).direction = e.direction ∧
    (stepEntity P (playerSprite P e)).xpos = e.xpos ∧
    (e.direction = P.PS2_UP → (stepEntity P (playerSprite P e)).ypos + 30 = e.ypos) ∧
    (e.direction = P.PS2_DOWN → (stepEntity P (playerSprite P e)).ypos = e.ypos + 30) := by
  obtain ⟨-, vU, -, -⟩ := isValidMove_player P hP e hpl hv
  obtain ⟨-, pm, pd, -⟩ := playerSprite_fields P e
  have hps := playerSprite_eq P e
  rw [if_neg (by rintro (h | h | h); exacts [absurd h (by omega), hnR h, hnL h])] at hps
  have px : (playerSprite P e).xpos = e.xpos := by rw [hps]
  have py : (playerSprite P e).ypos = e.ypos := by rw [hps]
  obtain ⟨-, -, sd, -, -, sU, -, sD⟩ := stepEntity_spec P hP (playerSprite P e)
  rw [pd] at sU sD
  rw [pm, hmove, py, px] at sU sD
  refine ⟨sd.trans pd, ?_, ?_, ?_⟩
  · rw [stepEntity_xpos_other P _ (by rw [pd]; exact hnR) (by rw [pd]; exact hnL), px]
  · intro h
    have := vU h
    rw [(sU h).2]
    unfold toU16; omega
  · intro h
    rw [(sD h).2]
    unfold toU16; omega

/-- C24 (amended): on a board with distinct direction codes whose frog sprites are at
least 2 pixels narrower than a grid cell and at most as high, a player entity with
`move = GRID_SIZE` and a non-empty image inside the playfield that makes a valid move in
one of the four directions is left untouched by the wrap and bounce corrections (both
return the stepped entity and `rand()` is not called), and after `updateEntity` its
column `(xpos - LEFT_BORDER) / GRID_SIZE` and row `(ypos - TOP_BORDER) / GRID_SIZE` are
those of the adjacent cell: column +1 (right) or -1 (left) with the row unchanged, row
-1 (up) or +1 (down) with the column unchanged. -/
theorem C24_move_one_cell (P : Platform) (hP : P.DirCodes) (hnar : SpritesNarrow P)
    (rnd : Nat → Nat) (k : Nat) (entity : Entity)
    (hpl : entity.isPlayer = true) (hmove : entity.move = GRID_SIZE) (hin : Inside entity)
    (hsz : 1 ≤ entity.image.width ∧ 1 ≤ entity.image.height)
    (hdir : entity.direction = P.PS2_RIGHT ∨ entity.direction = P.PS2_UP ∨
      entity.direction = P.PS2_LEFT ∨ entity.direction = P.PS2_DOWN)
    (hv : isValidMove P entity entity.direction = true) :
    correctRight P rnd k (stepEntity P (playerSprite P entity)) =
      some (stepEntity P (playerSprite P entity), k) ∧
    correctLeft P rnd k (stepEntity P (playerSprite P entity)) =
      some (stepEntity P (playerSprite P entity), k) ∧
    ∃ e', updateEntity P rnd k entity = some (e', k) ∧
      (entity.direction = P.PS2_RIGHT →
        (e'.xpos - LEFT_BORDER) / GRID_SIZE = (entity.xpos - LEFT_BORDER) / GRID_SIZE + 1 ∧
        (e'.ypos - TOP_BORDER) / GRID_SIZE = (entity.ypos - TOP_BORDER) / GRID_SIZE) ∧
      (entity.direction = P.PS2_LEFT →
        (e'.xpos - LEFT_BORDER) / GRID_SIZE + 1 = (entity.xpos - LEFT_BORDER) / GRID_SIZE ∧
        (e'.ypos - TOP_BORDER) / GRID_SIZE = (entity.ypos - TOP_BORDER) / GRID_SIZE) ∧
      (entity.direction = P.PS2_UP →
        (e'.xpos - LEFT_BORDER) / GRID_SIZE = (entity.xpos - LEFT_BORDER) / GRID_SIZE ∧
        (e'.ypos - TOP_BORDER) / GRID_SIZE + 1 = (entity.ypos - TOP_BORDER) / GRID_SIZE) ∧
      (entity.direction = P.PS2_DOWN →
        (e'.xpos - LEFT_BORDER) / GRID_SIZE = (entity.xpos - LEFT_BORDER) / GRID_SIZE ∧
        (e'.ypos - TOP_BORDER) / GRID_SIZE = (entity.ypos - TOP_BORDER) / GRID_SIZE + 1) := by
  have hfit : SpritesFit P := by
    obtain ⟨⟨a1, a2⟩, ⟨b1, b2⟩, ⟨c1, c2⟩, ⟨e1, e2⟩⟩ := hnar
    exact ⟨⟨by omega, a2⟩, ⟨by omega, b2⟩, ⟨by omega, c2⟩, ⟨by omega, e2⟩⟩
  have hSn : (spriteFor P entity.direction entity.image).width + 2 ≤ 30 := by
    obtain ⟨sR, sU, sL, sD, -⟩ := spriteFor_cases P hP entity.direction entity.image
    obtain ⟨⟨a1, -⟩, ⟨b1, -⟩, ⟨c1, -⟩, ⟨e1, -⟩⟩ := hnar
    simp only [GRID_SIZE_val] at a1 b1 c1 e1
    rcases hdir with h | h | h | h
    · rw [sR h]; exact a1
    · rw [sU h]; exact b1
    · rw [sL h]; exact c1
    · rw [sD h]; exact e1
  obtain ⟨-, hSh⟩ := spriteFor_fits P hP hfit entity.direction entity.image hdir
  have hP' : P.DirCodes := hP
  have hy10 : 10 ≤ entity.ypos := hin.2.2.1
  simp only [GRID_SIZE_val, LEFT_BORDER_val, TOP_BORDER_val] at hmove ⊢
  by_cases hco : 100 ≤ entity.ypos ∨ entity.direction = P.PS2_RIGHT ∨
      entity.direction = P.PS2_LEFT
  · obtain ⟨c, r, hc, hr, hx, hy, hi, hd, qR, qU, qL, qD⟩ :=
      player_step_cell P hP' hfit entity hpl hmove hin hsz hdir hv hco
    have hidle := corrections_idle P rnd k (stepEntity P (playerSprite P entity))
      (by rw [hx, hi]; intro h; have := h.2; omega)
      (by rw [hx]; intro h; have := h.2; omega)
    refine ⟨hidle.1, hidle.2, _,
      updateEntity_player P rnd k entity hpl hv _ _ hidle.1 hidle.2, ?_⟩
    show (_ → ((stepEntity P (playerSprite P entity)).xpos - 15) / 30 = _ ∧
        ((stepEntity P (playerSprite P entity)).ypos - 10) / 30 = _) ∧
      (_ → ((stepEntity P (playerSprite P entity)).xpos - 15) / 30 + 1 = _ ∧
        ((stepEntity P (playerSprite P entity)).ypos - 10) / 30 = _) ∧
      (_ → ((stepEntity P (playerSprite P entity)).xpos - 15) / 30 = _ ∧
        ((stepEntity P (playerSprite P entity)).ypos - 10) / 30 + 1 = _) ∧
      (_ → ((stepEntity P (playerSprite P entity)).xpos - 15) / 30 = _ ∧
        ((stepEntity P (playerSprite P entity)).ypos - 10) / 30 = _)
    rw [hx, hy]
    have ex : (30 * c + 15 + (30 - (spriteFor P entity.direction entity.image).width) / 2
        - 15) / 30 = c := by omega
    have ey : (30 * r + 10 + (30 - (spriteFor P entity.direction entity.image).height) / 2
        - 10) / 30 = r := by omega
    rw [ex, ey]
    exact ⟨fun h => ⟨(qR h).1, (qR h).2⟩, fun h => ⟨(qL h).1, (qL h).2⟩,
      fun h => ⟨(qU h).1, (qU h).2⟩, fun h => ⟨(qD h).1, (qD h).2⟩⟩
  · have hy : entity.ypos < 100 := by
      by_contra h; exact hco (Or.inl (by omega))
    have hnR : entity.direction ≠ P.PS2_RIGHT := fun h => hco (Or.inr (Or.inl h))
    have hnL : entity.direction ≠ P.PS2_LEFT := fun h => hco (Or.inr (Or.inr h))
    obtain ⟨fd, fx, fU, fD⟩ := player_step_free P hP' entity hpl hmove hv hy hnR hnL
    have hidle := corrections_idle P rnd k (stepEntity P (playerSprite P entity))
      (by rw [fd]; exact fun h => hnR h.1) (by rw [fd]; exact fun h => hnL h.1)
    refine ⟨hidle.1, hidle.2, _,
      updateEntity_player P rnd k entity hpl hv _ _ hidle.1 hidle.2, ?_⟩
    show (_ → ((stepEntity P (playerSprite P entity)).xpos - 15) / 30 = _ ∧
        ((stepEntity P (playerSprite P entity)).ypos - 10) / 30 = _) ∧
      (_ → ((stepEntity P (playerSprite P entity)).xpos - 15) / 30 + 1 = _ ∧
        ((stepEntity P (playerSprite P entity)).ypos - 10) / 30 = _) ∧
      (_ → ((stepEntity P (playerSprite P entity)).xpos - 15) / 30 = _ ∧
        ((stepEntity P (playerSprite P entity)).ypos - 10) / 30 + 1 = _) ∧
      (_ → ((stepEntity P (playerSprite P entity)).xpos - 15) / 30 = _ ∧
        ((stepEntity P (playerSprite P entity)).ypos - 10) / 30 = _)
    rw [fx]
    obtain ⟨-, vU, -, -⟩ := isValidMove_player P hP' entity hpl hv
    rw [hmove] at vU
    refine ⟨fun h => absurd h hnR, fun h => absurd h hnL, fun h => ⟨rfl, ?_⟩,
      fun h => ⟨rfl, ?_⟩⟩
    · have := fU h
      have := vU h
      omega
    · have := fD h
      omega

theorem C24_move_one_cell_witness :
    (board.DirCodes ∧ SpritesNarrow board ∧ roadFrog.isPlayer = true ∧
      roadFrog.move = GRID_SIZE ∧ Inside roadFrog ∧
      (1 ≤ roadFrog.image.width ∧ 1 ≤ roadFrog.image.height) ∧
      roadFrog.direction = board.PS2_UP ∧
      isValidMove board roadFrog roadFrog.direction = true) ∧
    ((roadFrog.xpos - LEFT_BORDER) / GRID_SIZE, (roadFrog.ypos - TOP_BORDER) / GRID_SIZE)
      = (2, 5) ∧
    ∃ e', updateEntity board (fun _ => 0) 0 roadFrog = some (e', 0) ∧
      (e'.xpos - LEFT_BORDER) / GRID_SIZE = (roadFrog.xpos - LEFT_BORDER) / GRID_SIZE ∧
      (e'.ypos - TOP_BORDER) / GRID_SIZE + 1 = (roadFrog.ypos - TOP_BORDER) / GRID_SIZE := by
  obtain ⟨-, -, e', he, -, -, hU, -⟩ :=
    C24_move_one_cell board (by decide) (by decide) (fun _ => 0) 0 roadFrog rfl rfl
      (by decide) (by decide) (by decide) (by decide)
  exact ⟨by decide, by decide, e', he, hU rfl⟩

/-- C24, as stated, fails where the wrap correction fires for the player.  On a board
whose right sprite is as wide as a grid cell, a valid move to the right from column 5
reaches RIGHT_BORDER with the right edge and the correction of main.c 576-586 puts the
player at `LEFT_BORDER + 1`, in column 0.  A player record with an empty image may move
right from column 6, and is put in column 0 as well. -/
theorem C24_counterexample :
    (columnFiveFrog.isPlayer = true ∧ columnFiveFrog.move = GRID_SIZE ∧
      Inside columnFiveFrog ∧ SpritesFit fullWidthBoard ∧
      columnFiveFrog.direction = fullWidthBoard.PS2_RIGHT ∧
      isValidMove fullWidthBoard columnFiveFrog columnFiveFrog.direction = true ∧
      (columnFiveFrog.xpos - LEFT_BORDER) / GRID_SIZE = 5 ∧
      (stepEntity fullWidthBoard (playerSprite fullWidthBoard columnFiveFrog)).xpos = 195 ∧
      (updateEntity fullWidthBoard (fun _ => 0) 0 columnFiveFrog).map
        (fun r => (r.1.xpos, (r.1.xpos - LEFT_BORDER) / GRID_SIZE)) = some (16, 0)) ∧
    (emptyRightFrog.isPlayer = true ∧ emptyRightFrog.move = GRID_SIZE ∧
      Inside emptyRightFrog ∧ SpritesFit board ∧
      emptyRightFrog.direction = board.PS2_RIGHT ∧
      isValidMove board emptyRightFrog emptyRightFrog.direction = true ∧
      (emptyRightFrog.xpos - LEFT_BORDER) / GRID_SIZE = 6 ∧
      (updateEntity board (fun _ => 0) 0 emptyRightFrog).map
        (fun r => (r.1.xpos, (r.1.xpos - LEFT_BORDER) / GRID_SIZE)) = some (16, 0)) := by
  decide

/-! ## Riding a log from one tick to the next -/

theorem updateRow_eq (P : Platform) (rnd : Nat → Nat) (i : Nat) (hi : i < 8)
    (st : Table × Nat) :
    ∃ r, updateEntity P rnd st.2 (st.1 i 0) = some r ∧
      (List.range (rowCount i)).foldlM (fun (st : Table × Nat) j => do
        let e ← st.1.read i j
        let r ← updateEntity P rnd st.2 e
        pure (st.1.write i j r.1, r.2)) st = some (st.1.write i 0 r.1, r.2) := by
  obtain ⟨r, hr⟩ := updateEntity_total P rnd st.2 (st.1 i 0)
  refine ⟨r, hr, ?_⟩
  rw [rowCount_eq]
  simp only [List.range_succ, List.range_zero, List.nil_append, List.foldlM_cons,
    List.foldlM_nil, Table.read_eq _ i 0 hi (by decide), Option.bind_eq_bind,
    Option.some_bind, hr, Option.pure_def, Option.bind_some]

theorem updateHazards_cells (P : Platform) (rnd : Nat → Nat) (rows : List Nat)
    (hrows : ∀ i ∈ rows, i < 8) (hnd : rows.Nodup) :
    ∀ st : Table × Nat, ∃ st',
      rows.foldlM (fun (st : Table × Nat) i =>
        (List.range (rowCount i)).foldlM (fun (st : Table × Nat) j => do
          let e ← st.1.read i j
          let r ← updateEntity P rnd st.2 e
          pure (st.1.write i j r.1, r.2)) st) st = some st' ∧
      (∀ i, i ∉ rows → ∀ j, st'.1 i j = st.1 i j) ∧
      (∀ i, i ∈ rows → ∃ k r, updateEntity P rnd k (st.1 i 0) = some r ∧
        st'.1 i 0 = r.1) := by
  induction rows with
  | nil =>
    intro st
    exact ⟨st, rfl, fun _ _ _ => rfl, fun i hi => absurd hi (List.not_mem_nil i)⟩
  | cons a rows ih =>
    intro st
    obtain ⟨r, hr, hrow⟩ := updateRow_eq P rnd a (hrows a (List.mem_cons_self a rows)) st
    obtain ⟨hna, hnd'⟩ := List.nodup_cons.1 hnd
    obtain ⟨st2, h2, keep, good⟩ :=
      ih (fun i hi => hrows i (List.mem_cons_of_mem a hi)) hnd' (st.1.write a 0 r.1, r.2)
    refine ⟨st2, ?_, ?_, ?_⟩
    · rw [List.foldlM_cons, hrow]; exact h2
    · intro i hi j
      rw [keep i (fun h => hi (List.mem_cons_of_mem a h)) j]
      show (st.1.write a 0 r.1) i j = st.1 i j
      unfold Table.write
      rw [if_neg (fun (h : i = a ∧ j = 0) => hi (by rw [h.1]; exact List.mem_cons_self a rows))]
    · intro i hi
      rcases List.mem_cons.1 hi with h | h
      · refine ⟨st.2, r, by rw [h]; exact hr, ?_⟩
        rw [h, keep a hna 0]
        show (st.1.write a 0 r.1) a 0 = r.1
        unfold Table.write
        rw [if_pos ⟨rfl, rfl⟩]
      · obtain ⟨k, r', hr', hcell⟩ := good i h
        have hia : i ≠ a := fun e => hna (e ▸ h)
        refine ⟨k, r', ?_, hcell⟩
        have hsame : (st.1.write a 0 r.1) i 0 = st.1 i 0 := by
          unfold Table.write
          rw [if_neg (fun (h : i = a ∧ 0 = 0) => hia h.1)]
        rw [← hsame]
        exact hr'

theorem updateHazards_cell (P : Platform) (rnd : Nat → Nat) (t : Table) (k : Nat) (i : Nat)
    (hi : i < 8) :
    ∃ a, updateHazards P rnd t k = some a ∧
      ∃ k' r, updateEntity P rnd k' (t i 0) = some r ∧ a.1 i 0 = r.1 := by
  obtain ⟨a, ha, -, good⟩ := updateHazards_cells P rnd (List.range ENTITY_ROWS)
    (fun i hi => List.mem_range.1 hi) (List.nodup_range _) (t, k)
  exact ⟨a, ha, good i (List.mem_range.2 hi)⟩

theorem hazard_plain_step (P : Platform) (rnd : Nat → Nat) (k : Nat) (e : Entity)
    (hnp : e.isPlayer = false)
    (h1 : ¬ ((stepEntity P e).direction = P.PS2_RIGHT ∧
      (stepEntity P e).xpos + (stepEntity P e).image.width ≥ 225))
    (h2 : ¬ ((stepEntity P e).direction = P.PS2_LEFT ∧ (stepEntity P e).xpos ≤ 15)) :
    updateEntity P rnd k e = some (stepEntity P e, k) := by
  obtain ⟨c1, c2⟩ := corrections_idle P rnd k (stepEntity P e) h1 h2
  rw [updateEntity_hazard P rnd k e hnp, c1]
  exact c2

theorem ride_arith (fx fw lx lw m s : Nat) (v : Int)
    (m1 : 1 ≤ m) (m2 : m ≤ 2) (l1 : 14 ≤ lx) (l2 : lx + lw ≤ 226)
    (hv : (v = m ∧ s = lx + m ∧ s + lw < 225) ∨ (v = -(m : Int) ∧ s + m = lx ∧ 15 < s))
    (w1 : fx ≥ lx) (w2 : fx ≤ toU8 ((lx : Int) + lw))
    (w3 : toU8 ((fx : Int) + fw) ≥ lx) (w4 : toU8 ((fx : Int) + fw) ≤ toU8 ((lx : Int) + lw)) :
    (toU8 ((fx : Int) + v) : Int) = fx + v ∧
    toU8 ((fx : Int) + v) ≥ s ∧ toU8 ((fx : Int) + v) ≤ toU8 ((s : Int) + lw) ∧
    toU8 ((toU8 ((fx : Int) + v) : Int) + fw) ≥ s ∧
    toU8 ((toU8 ((fx : Int) + v) : Int) + fw) ≤ toU8 ((s : Int) + lw) ∧
    (toU8 ((fx : Int) + v) : Int) - s = (fx : Int) - lx ∧
    (toU8 ((toU8 ((fx : Int) + v) : Int) + v) : Int) = toU8 ((fx : Int) + v) + v := by
  have e1 : toU8 ((lx : Int) + lw) = lx + lw := by unfold toU8; omega
  rw [e1] at w2 w4
  have e2 : toU8 ((s : Int) + lw) = s + lw := by unfold toU8; omega
  have e3 : (toU8 ((fx : Int) + v) : Int) = fx + v := by unfold toU8; omega
  have e4 : (toU8 ((toU8 ((fx : Int) + v) : Int) + fw) : Int)
      = toU8 ((fx : Int) + fw) + v := by
    rw [e3]
    generalize hq : toU8 ((fx : Int) + fw) = q at w3 w4
    unfold toU8 at hq ⊢
    omega
  have e5 : (toU8 ((toU8 ((fx : Int) + v) : Int) + v) : Int) = toU8 ((fx : Int) + v) + v := by
    rw [e3]
    unfold toU8; omega
  rw [e2]
  refine ⟨e3, ?_, ?_, ?_, ?_, ?_, e5⟩ <;> omega

theorem ride_shift (P : Platform) (hP : P.DirCodes) (frog log : Entity)
    (hL : HazardNear P log)
    (hd : log.direction = P.PS2_LEFT ∨ log.direction = P.PS2_RIGHT)
    (hin : withinLog frog log)
    (h1 : ¬ ((stepEntity P log).direction = P.PS2_RIGHT ∧
      (stepEntity P log).xpos + (stepEntity P log).image.width ≥ 225))
    (h2 : ¬ ((stepEntity P log).direction = P.PS2_LEFT ∧ (stepEntity P log).xpos ≤ 15)) :
    velocity P (stepEntity P log) = velocity P log ∧
    (toU8 ((frog.xpos : Int) + velocity P log) : Int) = frog.xpos + velocity P log ∧
    withinLog { frog with xpos := toU8 ((frog.xpos : Int) + velocity P log) }
      (stepEntity P log) ∧
    (toU8 ((frog.xpos : Int) + velocity P log) : Int) - (stepEntity P log).xpos
      = (frog.xpos : Int) - log.xpos ∧
    (toU8 ((toU8 ((frog.xpos : Int) + velocity P log) : Int) + velocity P log) : Int)
      = toU8 ((frog.xpos : Int) + velocity P log) + velocity P log := by
  obtain ⟨t1, -, t2, t3, -, -, -, -, aR, aL, -⟩ := hazard_stepped P hP log hL
  obtain ⟨-, m1, m2, -, l1, l2, -, -⟩ := (hazardNear_iff P log).1 hL
  have hRL : P.PS2_RIGHT ≠ P.PS2_LEFT := hP.1.2.1
  rw [t1, t2] at h1
  rw [t2] at h2
  have hvel : velocity P (stepEntity P log) = velocity P log := by
    unfold velocity; rw [t2, t3]
  have hv : (velocity P log = log.move ∧ (stepEntity P log).xpos = log.xpos + log.move ∧
        (stepEntity P log).xpos + log.image.width < 225) ∨
      (velocity P log = -(log.move : Int) ∧ (stepEntity P log).xpos + log.move = log.xpos ∧
        15 < (stepEntity P log).xpos) := by
    rcases hd with h | h
    · right
      refine ⟨?_, aL h, ?_⟩
      · unfold velocity; rw [if_pos h]; ring
      · by_contra hc
        exact h2 ⟨h, by omega⟩
    · left
      refine ⟨?_, aR h, ?_⟩
      · unfold velocity; rw [if_neg (fun h' => hRL (h.symm.trans h'))]; ring
      · by_contra hc
        exact h1 ⟨h, by omega⟩
  have w1 : frog.xpos ≥ log.xpos := hin.1
  have w2 : frog.xpos ≤ toU8 ((log.xpos : Int) + log.image.width) := hin.2.1
  have w3 : toU8 ((frog.xpos : Int) + frog.image.width) ≥ log.xpos := hin.2.2.1
  have w4 : toU8 ((frog.xpos : Int) + frog.image.width)
      ≤ toU8 ((log.xpos : Int) + log.image.width) := hin.2.2.2
  obtain ⟨r1, r2, r3, r4, r5, r6, r7⟩ :=
    ride_arith frog.xpos frog.image.width log.xpos log.image.width log.move
      (stepEntity P log).xpos (velocity P log) m1 m2 l1 l2 hv w1 w2 w3 w4
  refine ⟨hvel, r1, ?_, r6, r7⟩
  rw [← t1] at r3 r5
  exact ⟨r2, r3, r4, r5⟩

theorem updatePlayer_still (P : Platform) (rnd : Nat → Nat) (k : Nat) (player : Entity)
    (canMove : Bool) (inp : TickInput) (h : movesPlayer P canMove inp = false) :
    ∃ b, updatePlayer P rnd k player canMove inp = some b ∧ b.1 = player := by
  by_cases hc : readDirection P inp = P.PS2_CENTER
  · exact ⟨_, updatePlayer_center P rnd k player canMove inp hc, rfl⟩
  · have hcm : canMove = false := by
      unfold movesPlayer at h
      cases canMove
      · rfl
      · simp [hc] at h
    rw [hcm]
    exact ⟨_, updatePlayer_held P rnd k player inp hc, rfl⟩

theorem resolve_riding (P : Platform) (t : Table) (frog : Entity) (alive : Bool)
    (h1 : 1 ≤ frogRow frog) (h3 : frogRow frog ≤ 3)
    (hin : withinLog frog (t (frogRow frog - 1) 0)) :
    resolve P t frog alive =
      some ({ frog with
                xpos := toU8 ((frog.xpos : Int) + velocity P (t (frogRow frog - 1) 0)) },
            alive) := by
  have hr9 : frogRow frog ≠ GRID_HEIGHT - 1 := by
    show frogRow frog ≠ 9
    omega
  have hr0 : frogRow frog ≠ 0 := by omega
  unfold resolve
  simp only [WATER_ROWS_val]
  rw [if_pos ⟨hr9, hr0⟩, if_neg (by omega), waterCheck_eq P t _ frog (by omega), if_pos hin]
  rfl

/-- C27: on a board with distinct 8-bit direction codes, let a tick end with the frog
carried by the log of its water row: the frog `frog0` tested by the resolver lay within
the span of `log`, a hazard facing left or right in the position range that hazards keep
(`HazardNear`), and the frog now stands at `frog0.xpos` plus the log's velocity.  If in
the next tick the player makes no move and the log's `updateEntity` call neither bounces
nor wraps, then that tick returns, the log has made one plain step, the frog is again
within the log's span with the same offset between its `xpos` and the log's, `alive` is
unchanged, and the frog is carried by the same velocity once more, without 8-bit
wrap-around. -/
theorem C27_log_ride_stable (P : Platform) (hP : P.DirCodes) (rnd : Nat → Nat) (g : Game)
    (inp : TickInput) (frog0 log : Entity)
    (hrow : 1 ≤ frogRow frog0 ∧ frogRow frog0 ≤ WATER_ROWS)
    (hcell : g.entities (frogRow frog0 - 1) 0 = log)
    (hlog : HazardNear P log)
    (hdir : log.direction = P.PS2_LEFT ∨ log.direction = P.PS2_RIGHT)
    (hin : withinLog frog0 log)
    (hcarried : g.frog = { frog0 with xpos := toU8 ((frog0.xpos : Int) + velocity P log) })
    (hstill : movesPlayer P g.canMove inp = false)
    (hnoR : ¬ ((stepEntity P log).direction = P.PS2_RIGHT ∧
      (stepEntity P log).xpos + (stepEntity P log).image.width ≥ RIGHT_BORDER))
    (hnoL : ¬ ((stepEntity P log).direction = P.PS2_LEFT ∧
      (stepEntity P log).xpos ≤ LEFT_BORDER)) :
    ∃ r, tick P rnd g inp = some r ∧
      r.1.entities (frogRow frog0 - 1) 0 = stepEntity P log ∧
      frogRow g.frog = frogRow frog0 ∧
      withinLog g.frog (stepEntity P log) ∧
      (g.frog.xpos : Int) - (stepEntity P log).xpos = (frog0.xpos : Int) - log.xpos ∧
      r.1.alive = g.alive ∧
      r.1.frog =
        { g.frog with
            xpos := toU8 ((g.frog.xpos : Int) + velocity P (stepEntity P log)) } ∧
      (r.1.frog.xpos : Int) = g.frog.xpos + velocity P log := by
  simp only [RIGHT_BORDER_val, LEFT_BORDER_val, WATER_ROWS_val] at hnoR hnoL hrow
  obtain ⟨hvel, -, hwith, hoff, ex2⟩ := ride_shift P hP frog0 log hlog hdir hin hnoR hnoL
  have hnp : log.isPlayer = false := hlog.1
  obtain ⟨a, ha, k', r, hr, hcellA⟩ :=
    updateHazards_cell P rnd g.entities g.randCalls (frogRow frog0 - 1) (by omega)
  rw [hcell, hazard_plain_step P rnd k' log hnp hnoR hnoL] at hr
  have hr1 : r.1 = stepEntity P log := by
    rw [← Option.some.inj hr]
  rw [hr1] at hcellA
  obtain ⟨b, hb, hb1⟩ := updatePlayer_still P rnd a.2 g.frog g.canMove inp hstill
  have hrowg : frogRow g.frog = frogRow frog0 := by rw [hcarried]; rfl
  rw [← hcarried] at hwith
  have hres := resolve_riding P a.1 g.frog g.alive (by rw [hrowg]; exact hrow.1)
    (by rw [hrowg]; exact hrow.2) (by rw [hrowg, hcellA]; exact hwith)
  rw [hrowg, hcellA] at hres
  rw [← hb1] at hres
  refine ⟨_, tick_eq P rnd g inp a b _ ha hb hres, hcellA, hrowg, hwith, ?_, rfl, ?_, ?_⟩
  · rw [hcarried]; exact hoff
  · show ({ b.1 with xpos := _ } : Entity) = _
    rw [hb1]
  · show ((toU8 ((b.1.xpos : Int) + velocity P (stepEntity P log)) : Nat) : Int) = _
    rw [hb1, hvel, hcarried]
    exact ex2

theorem C27_log_ride_stable_witness :
    (board.DirCodes ∧ (1 ≤ frogRow waterFrog ∧ frogRow waterFrog ≤ WATER_ROWS) ∧
      HazardNear board (logTable 1 0) ∧ withinLog waterFrog (logTable 1 0) ∧
      movesPlayer board rideGame.canMove pushUp = false) ∧
    (tick board (fun _ => 0) rideGame pushUp).map
        (fun r => (r.1.frog.xpos, (r.1.entities 1 0).xpos, r.1.alive)) = some (96, 88, true) ∧
    ∃ r, tick board (fun _ => 0) rideGame pushUp = some r ∧
      withinLog rideGame.frog (stepEntity board (logTable 1 0)) ∧
      r.1.alive = rideGame.alive := by
  obtain ⟨r, hr, -, -, hw, -, ha, -, -⟩ :=
    C27_log_ride_stable board (by decide) (fun _ => 0) rideGame pushUp waterFrog
      (logTable 1 0) (by decide) rfl (by decide) (by decide) (by decide) (by decide)
      (by decide) (by decide) (by decide)
  exact ⟨by decide, by decide, r, hr, hw, ha⟩

end Frogger
